import Mathlib

/-! # OSSC userdata store and FAT16 export

A shallow embedding of `software/sys_controller/ossc/userdata.c`,
`userdata.h` and `fat16_export.c`: the two entry points `write_userdata` and
`read_userdata`, the packed record layouts they overlay on the page buffer, the
flash page primitives they call, and the generators `generate_boot_sector_16`
and `generate_fat16` with their constant tables.

Memory is a map from byte index to byte value.  The 16-bit locals of the
transfer loops and of `generate_fat16` wrap modulo 65536 and the 8-bit page
counter modulo 256, as `alt_u16` and `alt_u8` do.  Address arithmetic is done
in `int` in the source and is unbounded here.
-/

namespace Ossc

/-! ## Build-time constants -/

/-- Constants and object sizes that `userdata.c` takes from headers which are
not part of the verified sources (`flash.h`, `sysconfig.h`, `firmware.h`,
`avconfig.h`, `video_modes.h`, `controls.h`).  `ENUM_SIZE` is the size in bytes
of an enumeration object (`ude_type`, `avinput_t`); `AVCONFIG_SIZE` is
`sizeof(avconfig_t)`. -/
structure Cfg where
  PAGESIZE : Nat
  SECTORSIZE : Nat
  USERDATA_OFFSET : Nat
  MAX_USERDATA_ENTRY : Nat
  FW_VER_MAJOR : Nat
  FW_VER_MINOR : Nat
  ENUM_SIZE : Nat
  AVCONFIG_SIZE : Nat
  VIDEO_MODES_SIZE : Nat
  REMOTE_MAX_KEYS : Nat
  AV_LAST : Nat

/-- The constant `MAX_PROFILE` of `userdata.h`. -/
def MAX_PROFILE : Nat := 11

/-- The enumerator `UDE_INITCFG` of `ude_type`. -/
def UDE_INITCFG : Nat := 0

/-- The enumerator `UDE_PROFILE` of `ude_type`. -/
def UDE_PROFILE : Nat := 1

/-! ## Packed record layout (`userdata.h`) -/

/-- Offset of `version_major` in `ude_hdr`, after `char userdata_key[8]`. -/
def off_version_major : Nat := 8

/-- Offset of `version_minor` in `ude_hdr`. -/
def off_version_minor : Nat := 9

/-- Offset of `type` in `ude_hdr`. -/
def off_type : Nat := 10

/-- The size `sizeof(ude_hdr)`: key, two version bytes and the type. -/
def Cfg.sizeof_ude_hdr (c : Cfg) : Nat := 10 + c.ENUM_SIZE

/-- Offset of `data_len` in `ude_initcfg`. -/
def Cfg.off_data_len (c : Cfg) : Nat := c.sizeof_ude_hdr

/-- Offset of `last_profile` in `ude_initcfg`. -/
def Cfg.off_last_profile (c : Cfg) : Nat := c.sizeof_ude_hdr + 2

/-- Offset of `profile_mode` in `ude_initcfg`. -/
def Cfg.off_profile_mode (c : Cfg) : Nat := c.sizeof_ude_hdr + 5

/-- Offset of `last_input` in `ude_initcfg`. -/
def Cfg.off_last_input (c : Cfg) : Nat := c.sizeof_ude_hdr + 6

/-- Offset of `keys` in `ude_initcfg`. -/
def Cfg.off_keys (c : Cfg) : Nat := c.sizeof_ude_hdr + 6 + c.ENUM_SIZE

/-- The size `sizeof(rc_keymap)`: `REMOTE_MAX_KEYS` entries of type `alt_u16`. -/
def Cfg.sizeof_rc_keymap (c : Cfg) : Nat := 2 * c.REMOTE_MAX_KEYS

/-- The size `sizeof(profile_sel)`: the three profile selections that
`last_profile[3]` stores and the load loop indexes. -/
def sizeof_profile_sel : Nat := 3

/-- The size `sizeof(ude_initcfg)`. -/
def Cfg.sizeof_ude_initcfg (c : Cfg) : Nat := c.off_keys + c.sizeof_rc_keymap

/-- The payload length `sizeof(ude_initcfg) - offsetof(ude_initcfg, last_profile)`. -/
def Cfg.initcfg_data_len (c : Cfg) : Nat := c.sizeof_ude_initcfg - c.off_last_profile

/-- Offset of `avc_data_len` in `ude_profile`. -/
def Cfg.off_avc_data_len (c : Cfg) : Nat := c.sizeof_ude_hdr

/-- Offset of `vm_data_len` in `ude_profile`. -/
def Cfg.off_vm_data_len (c : Cfg) : Nat := c.sizeof_ude_hdr + 2

/-- The offset `offsetof(ude_profile, avc)`. -/
def Cfg.off_avc (c : Cfg) : Nat := c.sizeof_ude_hdr + 4

/-! ## Byte memory -/

/-- A byte-addressed memory region. -/
abbrev Mem := Nat → Nat

/-- The call `memcpy(dst + doff, src + soff, n)`. -/
def memcpy (dst : Mem) (doff : Nat) (src : Mem) (soff n : Nat) : Mem :=
  fun i => if doff ≤ i ∧ i < doff + n then src (soff + (i - doff)) else dst i

/-- Assignment to a single byte at offset `off`. -/
def storeByte (m : Mem) (off v : Nat) : Mem :=
  fun i => if i = off then v else m i

/-- Assignment to a little-endian field of `w` bytes at offset `off`; the value
is reduced modulo `256 ^ w`. -/
def storeLE (m : Mem) (off w v : Nat) : Mem :=
  fun i => if off ≤ i ∧ i < off + w then v / 256 ^ (i - off) % 256 else m i

/-- Value of the little-endian field of `w` bytes at offset `off`. -/
def loadLE (m : Mem) (off : Nat) : Nat → Nat
  | 0 => 0
  | w + 1 => m off + 256 * loadLE m (off + 1) w

/-- The string literal `"USRDATA"` with its terminating NUL. -/
def USRDATA : Mem := fun i => [85, 83, 82, 68, 65, 84, 65, 0].getD i 0

/-- Bytes produced by `strncpy` from position `i` of `src` with `n` bytes left:
characters up to the first NUL, then NUL padding. -/
def strncpyBytes (src : Mem) (i : Nat) : Nat → List Nat
  | 0 => []
  | n + 1 => if src i = 0 then List.replicate (n + 1) 0 else src i :: strncpyBytes src (i + 1) n

/-- The call `strncpy(dst, src, n)`. -/
def strncpy (dst src : Mem) (n : Nat) : Mem :=
  memcpy dst 0 (fun k => (strncpyBytes src 0 n).getD k 0) 0 n

/-- The call `strncmp(s1 + i, s2 + i, n)`: zero iff the strings agree up to the
first NUL or `n` characters. -/
def strncmp (s1 s2 : Mem) (i : Nat) : Nat → Int
  | 0 => 0
  | n + 1 =>
    if s1 i ≠ s2 i then (s1 i : Int) - (s2 i : Int)
    else if s1 i = 0 then 0
    else strncmp s1 s2 (i + 1) n

/-- Subtraction of `b` from an `alt_u16` value `a`, wrapping modulo 65536. -/
def sub16 (a b : Nat) : Nat := (a + 65536 - b % 65536) % 65536

/-- Addition on `alt_u16`, wrapping modulo 65536. -/
def add16 (a b : Nat) : Nat := (a + b) % 65536

/-! ## Flash page I/O -/

/-- A flash operation issued to the driver. -/
inductive FlashOp where
  | read (offset length : Nat)
  | write (pagenum length : Nat)
  deriving DecidableEq

/-- Flash device: its bytes, the operations issued so far (oldest first), and
the return code the driver gives to the `k`-th operation (`0` is success). -/
structure Flash where
  mem : Mem
  ops : List FlashOp
  rc : Nat → Int

/-- Modelled from the spec: the driver function `write_flash_page(pagedata,
length, pagenum)` of `flash.c`, which is not among the sources.  On success it
stores `length` bytes at byte address `pagenum * PAGESIZE`; on failure the
flash bytes are left as they were.  The return code is returned with the new
device state. -/
def write_flash_page (c : Cfg) (pagedata : Mem) (length pagenum : Nat) (fl : Flash) :
    Int × Flash :=
  let r := fl.rc fl.ops.length
  (r, { fl with
        mem := if r = 0 then memcpy fl.mem (pagenum * c.PAGESIZE) pagedata 0 length else fl.mem
        ops := fl.ops ++ [FlashOp.write pagenum length] })

/-- Modelled from the spec: the driver function `read_flash(offset, length,
dstbuf)` of `flash.c`, which is not among the sources.  On success it copies
`length` bytes from byte address `offset` into the buffer; on failure the
buffer is left as it was. -/
def read_flash (offset length : Nat) (dstbuf : Mem) (fl : Flash) : Int × Mem × Flash :=
  let r := fl.rc fl.ops.length
  (r, if r = 0 then memcpy dstbuf 0 fl.mem offset length else dstbuf,
    { fl with ops := fl.ops ++ [FlashOp.read offset length] })

/-! ## Live configuration -/

/-- The global variables `userdata.c` declares `extern`.  Arrays and structures
are held as their bytes: `rc_keymap` is `2 * REMOTE_MAX_KEYS` bytes, `tc` is
`sizeof(avconfig_t)` bytes, `video_modes` is `VIDEO_MODES_SIZE` bytes.
`cm_avinput` is the field `cm.avinput`. -/
structure Live where
  profile_sel : Mem
  profile_mode : Nat
  cm_avinput : Nat
  target_mode : Nat
  rc_keymap : Mem
  tc : Mem
  video_modes : Mem
  update_cur_vm : Nat

/-- The `k`-th 16-bit entry of `rc_keymap`, little-endian. -/
def Live.rc_key (l : Live) (k : Nat) : Nat := loadLE l.rc_keymap (2 * k) 2

/-- Everything the two entry points read or change. -/
structure World where
  live : Live
  flash : Flash

/-- Index of the first flash page of slot `entry`, as `write_userdata`
computes it. -/
def Cfg.page_base (c : Cfg) (entry : Nat) : Nat :=
  (c.USERDATA_OFFSET + entry * c.SECTORSIZE) / c.PAGESIZE

/-- Byte offset of slot `entry`, as `read_userdata` computes it. -/
def Cfg.slot_offset (c : Cfg) (entry : Nat) : Nat :=
  c.USERDATA_OFFSET + entry * c.SECTORSIZE

/-! ## `write_userdata` -/

/-- Locals of the profile branch of `write_userdata` while its loop runs. -/
structure WriteState where
  databuf : Mem
  vm_to_write : Nat
  pageoffset : Nat
  srcoffset : Nat
  pageno : Nat
  flash : Flash

/-- One pass through the body of the `while (vm_to_write > 0)` loop of
`write_userdata`.  In the first branch `pageoffset` is cleared before
`vm_to_write -= PAGESIZE-pageoffset` is evaluated, as in the source; the return
value of `write_flash_page` is dropped, as in the source. -/
def write_body (c : Cfg) (entry : Nat) (video_modes : Mem) (s : WriteState) : WriteState :=
  if s.vm_to_write ≥ c.PAGESIZE - s.pageoffset then
    let databuf := memcpy s.databuf s.pageoffset video_modes s.srcoffset (c.PAGESIZE - s.pageoffset)
    let srcoffset := add16 s.srcoffset (c.PAGESIZE - s.pageoffset)
    let pageoffset := 0
    let vm_to_write := sub16 s.vm_to_write (c.PAGESIZE - pageoffset)
    let flash := (write_flash_page c databuf c.PAGESIZE (c.page_base entry + s.pageno) s.flash).2
    { databuf := databuf, vm_to_write := vm_to_write, pageoffset := pageoffset,
      srcoffset := srcoffset, pageno := (s.pageno + 1) % 256, flash := flash }
  else
    let databuf := memcpy s.databuf s.pageoffset video_modes s.srcoffset s.vm_to_write
    let pageoffset := add16 s.pageoffset s.vm_to_write
    let vm_to_write := 0
    let flash := (write_flash_page c databuf c.PAGESIZE (c.page_base entry + s.pageno) s.flash).2
    { databuf := databuf, vm_to_write := vm_to_write, pageoffset := pageoffset,
      srcoffset := s.srcoffset, pageno := s.pageno, flash := flash }

/-- The loop `while (vm_to_write > 0)` of `write_userdata`, run for at most
`fuel` passes; `none` when the passes do not suffice. -/
def write_loop (c : Cfg) (entry : Nat) (video_modes : Mem) : Nat → WriteState → Option WriteState
  | 0, s => if s.vm_to_write > 0 then none else some s
  | fuel + 1, s =>
    if s.vm_to_write > 0 then write_loop c entry video_modes fuel (write_body c entry video_modes s)
    else some s

/-- Number of loop passes granted to the transfer loops: one pass that may wrap
the 16-bit counter, then at most 65535 passes that lower it, then the exit. -/
def xfer_fuel : Nat := 65537

/-- The page buffer after `write_userdata` has filled in the header. -/
def write_header (c : Cfg) (entry : Nat) (databuf : Mem) : Mem :=
  let databuf := strncpy databuf USRDATA 8
  let databuf := storeByte databuf off_version_major (c.FW_VER_MAJOR % 256)
  let databuf := storeByte databuf off_version_minor (c.FW_VER_MINOR % 256)
  storeLE databuf off_type c.ENUM_SIZE (if entry > MAX_PROFILE then UDE_INITCFG else UDE_PROFILE)

/-- The page buffer of the `UDE_INITCFG` case of `write_userdata` before it is
written to flash. -/
def write_initcfg_buf (c : Cfg) (l : Live) (databuf : Mem) : Mem :=
  let databuf := storeLE databuf c.off_data_len 2 c.initcfg_data_len
  let databuf := memcpy databuf c.off_last_profile l.profile_sel 0 sizeof_profile_sel
  let databuf := storeByte databuf c.off_profile_mode l.profile_mode
  let databuf := storeLE databuf c.off_last_input c.ENUM_SIZE l.cm_avinput
  memcpy databuf c.off_keys l.rc_keymap 0 c.sizeof_rc_keymap

/-- The locals of the `UDE_PROFILE` case of `write_userdata` on entry to its
loop. -/
def write_profile_init (c : Cfg) (l : Live) (databuf : Mem) (fl : Flash) : WriteState :=
  let vm_to_write := c.VIDEO_MODES_SIZE % 65536
  let databuf := storeLE databuf c.off_avc_data_len 2 c.AVCONFIG_SIZE
  let databuf := storeLE databuf c.off_vm_data_len 2 vm_to_write
  let pageoffset := c.off_avc % 65536
  let databuf := memcpy databuf pageoffset l.tc 0 c.AVCONFIG_SIZE
  { databuf := databuf, vm_to_write := vm_to_write,
    pageoffset := add16 pageoffset c.AVCONFIG_SIZE, srcoffset := 0, pageno := 0, flash := fl }

/-- The function `write_userdata(entry)`.  `stack` is the indeterminate initial
content of the local `databuf`.  The result is the return value and the world
after the call; `none` when the transfer loop does not end. -/
def write_userdata (c : Cfg) (entry : Nat) (stack : Mem) (w : World) : Option (Int × World) :=
  if entry > c.MAX_USERDATA_ENTRY then some (-1, w)
  else
    let databuf := write_header c entry stack
    let type := loadLE databuf off_type c.ENUM_SIZE
    if type = UDE_INITCFG then
      let databuf := write_initcfg_buf c w.live databuf
      let r := write_flash_page c databuf c.sizeof_ude_initcfg (c.page_base entry) w.flash
      if r.1 ≠ 0 then some (-1, { w with flash := r.2 })
      else some (0, { w with flash := r.2 })
    else if type = UDE_PROFILE then
      match write_loop c entry w.live.video_modes xfer_fuel
          (write_profile_init c w.live databuf w.flash) with
      | none => none
      | some s => some (0, { w with flash := s.flash })
    else some (0, w)

/-! ## `read_userdata` -/

/-- Locals of the profile branch of `read_userdata` while its loop runs,
together with the destination `video_modes`. -/
structure ReadState where
  databuf : Mem
  vm_to_read : Nat
  pageoffset : Nat
  dstoffset : Nat
  pageno : Nat
  video_modes : Mem
  flash : Flash

/-- One pass through the body of the `while (vm_to_read > 0)` loop of
`read_userdata`.  The return value of `read_flash` is dropped, as in the
source. -/
def read_body (c : Cfg) (entry : Nat) (s : ReadState) : ReadState :=
  if s.vm_to_read ≥ c.PAGESIZE - s.pageoffset then
    let video_modes := memcpy s.video_modes s.dstoffset s.databuf s.pageoffset (c.PAGESIZE - s.pageoffset)
    let dstoffset := add16 s.dstoffset (c.PAGESIZE - s.pageoffset)
    let pageoffset := 0
    let vm_to_read := sub16 s.vm_to_read (c.PAGESIZE - pageoffset)
    let pageno := (s.pageno + 1) % 256
    let r := read_flash (c.slot_offset entry + pageno * c.PAGESIZE) c.PAGESIZE s.databuf s.flash
    { databuf := r.2.1, vm_to_read := vm_to_read, pageoffset := pageoffset,
      dstoffset := dstoffset, pageno := pageno, video_modes := video_modes, flash := r.2.2 }
  else
    let video_modes := memcpy s.video_modes s.dstoffset s.databuf s.pageoffset s.vm_to_read
    { s with video_modes := video_modes, pageoffset := add16 s.pageoffset s.vm_to_read,
             vm_to_read := 0 }

/-- The loop `while (vm_to_read > 0)` of `read_userdata`, run for at most
`fuel` passes; `none` when the passes do not suffice. -/
def read_loop (c : Cfg) (entry : Nat) : Nat → ReadState → Option ReadState
  | 0, s => if s.vm_to_read > 0 then none else some s
  | fuel + 1, s =>
    if s.vm_to_read > 0 then read_loop c entry fuel (read_body c entry s)
    else some s

/-- Body of the loop `for (alt_u8 i = 0; i < 3; ++i)` of `read_userdata`, which
range-checks one stored profile index. -/
def sel_body (c : Cfg) (databuf : Mem) (profile_mode : Nat) (profile_sel : Mem) (i : Nat) : Mem :=
  let profile := databuf (c.off_last_profile + i)
  let profile_min := if profile_mode ≠ 0 then (i * 4) % 256 else 0
  let profile_max := if profile_mode ≠ 0 then (profile_min + 4 - 1) % 256 else MAX_PROFILE
  if profile ≥ profile_min ∧ profile ≤ profile_max then
    storeByte profile_sel i (databuf (c.off_last_profile + i))
  else
    storeByte profile_sel i ((i * 4) % 256)

/-- The `UDE_INITCFG` case of `read_userdata` once `data_len` has matched. -/
def read_initcfg (c : Cfg) (databuf : Mem) (l : Live) : Live :=
  let profile_mode := if databuf c.off_profile_mode ≠ 0 then 1 else 0
  let profile_sel := (List.range 3).foldl (sel_body c databuf profile_mode) l.profile_sel
  let last_input := loadLE databuf c.off_last_input c.ENUM_SIZE
  let target_mode := if last_input < c.AV_LAST then last_input else l.target_mode
  { l with profile_mode := profile_mode, profile_sel := profile_sel, target_mode := target_mode,
           rc_keymap := memcpy l.rc_keymap 0 databuf c.off_keys c.sizeof_rc_keymap }

/-- The locals of the `UDE_PROFILE` case of `read_userdata` on entry to its
loop, once both lengths have matched. -/
def read_profile_init (c : Cfg) (databuf : Mem) (l : Live) (fl : Flash) : ReadState :=
  let pageoffset := c.off_avc % 65536
  { databuf := databuf, vm_to_read := loadLE databuf c.off_vm_data_len 2,
    pageoffset := add16 pageoffset c.AVCONFIG_SIZE, dstoffset := 0, pageno := 0,
    video_modes := l.video_modes, flash := fl }

/-- The part of `read_userdata(entry)` that follows the successful read of the
first page into `databuf`: the magic and version checks and the `switch` on
the record type.  `fl` is the flash after that read and `l` the live
configuration on entry. -/
def read_decode (c : Cfg) (entry : Nat) (databuf : Mem) (fl : Flash) (l : Live) :
    Option (Int × World) :=
  if strncmp databuf USRDATA 0 8 ≠ 0 then some (1, { live := l, flash := fl })
  else if databuf off_version_major ≠ c.FW_VER_MAJOR ∨ databuf off_version_minor ≠ c.FW_VER_MINOR then
    some (2, { live := l, flash := fl })
  else
    let type := loadLE databuf off_type c.ENUM_SIZE
    if type = UDE_INITCFG then
      if loadLE databuf c.off_data_len 2 = c.initcfg_data_len then
        some (0, { live := read_initcfg c databuf l, flash := fl })
      else some (0, { live := l, flash := fl })
    else if type = UDE_PROFILE then
      if loadLE databuf c.off_avc_data_len 2 = c.AVCONFIG_SIZE
          ∧ loadLE databuf c.off_vm_data_len 2 = c.VIDEO_MODES_SIZE then
        let tc := memcpy l.tc 0 databuf (c.off_avc % 65536) c.AVCONFIG_SIZE
        match read_loop c entry xfer_fuel (read_profile_init c databuf l fl) with
        | none => none
        | some s =>
          some (0, { live := { l with tc := tc, video_modes := s.video_modes, update_cur_vm := 1 },
                     flash := s.flash })
      else some (0, { live := l, flash := fl })
    else some (0, { live := l, flash := fl })

/-- The function `read_userdata(entry)`.  `stack` is the indeterminate initial
content of the local `databuf`.  The result is the return value and the world
after the call; `none` when the transfer loop does not end. -/
def read_userdata (c : Cfg) (entry : Nat) (stack : Mem) (w : World) : Option (Int × World) :=
  if entry > c.MAX_USERDATA_ENTRY then some (-1, w)
  else
    let r := read_flash (c.slot_offset entry) c.PAGESIZE stack w.flash
    if r.1 ≠ 0 then some (-1, { w with flash := r.2.2 })
    else read_decode c entry r.2.1 r.2.2 w.live

/-! ## Example configuration -/

/-- A configuration with the page and sector geometry of the OSSC flash and
small payload sizes: `offsetof(ude_profile, avc) + sizeof(avconfig_t)` is 58, and
a profile record is exactly two pages long. -/
def cfgA : Cfg :=
  { PAGESIZE := 256, SECTORSIZE := 65536, USERDATA_OFFSET := 1048576, MAX_USERDATA_ENTRY := 15,
    FW_VER_MAJOR := 0, FW_VER_MINOR := 90, ENUM_SIZE := 4, AVCONFIG_SIZE := 40,
    VIDEO_MODES_SIZE := 454, REMOTE_MAX_KEYS := 40, AV_LAST := 8 }

/-- A flash whose bytes are all `0xff` (erased) and whose operations all succeed. -/
def flashA : Flash := { mem := fun _ => 255, ops := [], rc := fun _ => 0 }

/-- A live configuration with recognisable contents. -/
def liveA : Live :=
  { profile_sel := fun i => 4 * i + 1, profile_mode := 1, cm_avinput := 3, target_mode := 0,
    rc_keymap := fun i => (7 * i + 1) % 256, tc := fun i => (3 * i + 2) % 256,
    video_modes := fun i => (i + 1) % 251, update_cur_vm := 0 }

/-- The live configuration `liveA` after every variable has been overwritten. -/
def liveB : Live :=
  { profile_sel := fun _ => 0, profile_mode := 0, cm_avinput := 0, target_mode := 0,
    rc_keymap := fun _ => 0, tc := fun _ => 0, video_modes := fun _ => 0, update_cur_vm := 0 }

/-! ## Record fields as stored in flash -/

/-- The eight bytes at `off` are the tag `'U','S','R','D','A','T','A',0`. -/
def tag_at (m : Mem) (off : Nat) : Prop := ∀ i < 8, m (off + i) = USRDATA i

instance (m : Mem) (off : Nat) : Decidable (tag_at m off) := by
  unfold tag_at; infer_instance

/-- The first page of slot `entry` as `read_userdata` sees it after a
successful `read_flash` into the buffer `stack`. -/
def first_page (c : Cfg) (entry : Nat) (stack : Mem) (fl : Flash) : Mem :=
  memcpy stack 0 fl.mem (c.slot_offset entry) c.PAGESIZE

/-- The flash after the first `read_flash` of `read_userdata(entry)` has been
issued: one more logged operation, same bytes. -/
def after_first_read (c : Cfg) (entry : Nat) (fl : Flash) : Flash :=
  { fl with ops := fl.ops ++ [FlashOp.read (c.slot_offset entry) c.PAGESIZE] }

/-- Byte `k` of the record stored in slot `entry`. -/
def Cfg.rec_byte (c : Cfg) (fl : Flash) (entry k : Nat) : Nat := fl.mem (c.slot_offset entry + k)

/-- The little-endian field of `w` bytes at offset `k` of the record stored in
slot `entry`. -/
def Cfg.rec_le (c : Cfg) (fl : Flash) (entry k w : Nat) : Nat :=
  loadLE fl.mem (c.slot_offset entry + k) w

/-- The stored version bytes equal `FW_VER_MAJOR` and `FW_VER_MINOR`. -/
def Cfg.version_ok (c : Cfg) (fl : Flash) (entry : Nat) : Prop :=
  c.rec_byte fl entry off_version_major = c.FW_VER_MAJOR
    ∧ c.rec_byte fl entry off_version_minor = c.FW_VER_MINOR

instance (c : Cfg) (fl : Flash) (entry : Nat) : Decidable (c.version_ok fl entry) := by
  unfold Cfg.version_ok; infer_instance

/-- The stored record is one that `read_userdata` recognises by tag and version
but does not apply: a profile record with a wrong `avc_data_len` or
`vm_data_len`, an init-config record with a wrong `data_len`, or a record of
neither type. -/
def Cfg.malformed (c : Cfg) (fl : Flash) (entry : Nat) : Prop :=
  (c.rec_le fl entry off_type c.ENUM_SIZE = UDE_PROFILE
      ∧ (c.rec_le fl entry c.off_avc_data_len 2 ≠ c.AVCONFIG_SIZE
          ∨ c.rec_le fl entry c.off_vm_data_len 2 ≠ c.VIDEO_MODES_SIZE))
    ∨ (c.rec_le fl entry off_type c.ENUM_SIZE = UDE_INITCFG
      ∧ c.rec_le fl entry c.off_data_len 2 ≠ c.initcfg_data_len)
    ∨ (c.rec_le fl entry off_type c.ENUM_SIZE ≠ UDE_INITCFG
      ∧ c.rec_le fl entry off_type c.ENUM_SIZE ≠ UDE_PROFILE)

instance (c : Cfg) (fl : Flash) (entry : Nat) : Decidable (c.malformed fl entry) := by
  unfold Cfg.malformed; infer_instance

/-- A flash holding `bytes` from byte address `off` on, erased (`0xff`)
elsewhere, whose operations all succeed. -/
def flashOf (bytes : List Nat) (off : Nat) : Flash :=
  { mem := fun a => if off ≤ a then bytes.getD (a - off) 255 else 255, ops := [],
    rc := fun _ => 0 }

/-- An all-zero stack buffer. -/
def stack0 : Mem := fun _ => 0

/-- Header of a record of type `t` for `cfgA`: tag, version 0.90, 4-byte type. -/
def hdrA (t : Nat) : List Nat := [85, 83, 82, 68, 65, 84, 65, 0, 0, 90, t, 0, 0, 0]

/-- Slot 0 of `cfgA` holding a record of the unknown type 2. -/
def flashUnknown : Flash := flashOf (hdrA 2) 1048576

/-- Slot 0 of `cfgA` holding a record with the tag but version 0.89. -/
def flashOldVersion : Flash :=
  flashOf [85, 83, 82, 68, 65, 84, 65, 0, 0, 89, 1, 0, 0, 0, 40, 0, 198, 1] 1048576

/-- Slot 0 of `cfgA` holding a profile record whose `avc_data_len` is 39, not 40. -/
def flashShortAvc : Flash := flashOf (hdrA 1 ++ [39, 0, 198, 1]) 1048576

/-- Slot 15 of `cfgA` holding an init-config record with `data_len` 88,
`last_profile` 1, 9, 10, `profile_mode` 1 and `last_input` 3. -/
def flashInit : Flash := flashOf (hdrA 0 ++ [88, 0, 1, 9, 10, 1, 3, 0, 0, 0]) 2031616

/-- The profile selection prescribed for index `i` when the stored selection
is `p` and the loaded mode flag is `mode`: `p` itself when it lies in the group
`[4*i, 4*i+3]` (mode set) or in `[0, MAX_PROFILE]` (mode clear), the default
`4*i` otherwise. -/
def expected_sel (mode p i : Nat) : Nat :=
  if mode ≠ 0 then (if 4 * i ≤ p ∧ p ≤ 4 * i + 3 then p else 4 * i)
  else (if p ≤ MAX_PROFILE then p else 4 * i)

/-- Facts about the build constants on which `userdata.c` relies: an
enumeration object has at least one byte and holds every `avinput_t` value
below `AV_LAST`; the firmware version numbers fit the `alt_u8` header fields; a
page is non-empty and an offset into it fits the `alt_u16` local `pageoffset`;
the userdata area and the sectors are page-aligned; and the page buffer holds
a whole `ude_initcfg`. -/
def Cfg.layout_ok (c : Cfg) : Prop :=
  0 < c.ENUM_SIZE ∧ c.AV_LAST ≤ 256 ^ c.ENUM_SIZE ∧ c.FW_VER_MAJOR < 256 ∧ c.FW_VER_MINOR < 256
    ∧ 0 < c.PAGESIZE ∧ c.PAGESIZE ≤ 65536
    ∧ c.USERDATA_OFFSET % c.PAGESIZE = 0 ∧ c.SECTORSIZE % c.PAGESIZE = 0
    ∧ c.sizeof_ude_initcfg ≤ c.PAGESIZE

instance (c : Cfg) : Decidable c.layout_ok := by
  unfold Cfg.layout_ok; infer_instance

/-- The live profile selection is valid for the live mode: with `profile_mode`
set the `i`-th selection lies in its group `[4*i, 4*i+3]`, otherwise it is at
most `MAX_PROFILE`. -/
def Live.sel_valid (l : Live) : Prop :=
  ∀ i < 3, if l.profile_mode ≠ 0 then 4 * i ≤ l.profile_sel i ∧ l.profile_sel i ≤ 4 * i + 3
    else l.profile_sel i ≤ MAX_PROFILE

instance (l : Live) : Decidable l.sel_valid := by
  unfold Live.sel_valid; infer_instance

/-- Facts about the sizes of a profile record under which a profile save keeps
its first page: as the source assumes in a comment, the header and
`avconfig_t` end before the first page does; the video-mode table is non-empty
and its size fits `alt_u16`; and the table either ends inside the first page or
is at least one page and at most 256 pages long. -/
def Cfg.profile_ok (c : Cfg) : Prop :=
  c.off_avc + c.AVCONFIG_SIZE < c.PAGESIZE
    ∧ 0 < c.VIDEO_MODES_SIZE ∧ c.VIDEO_MODES_SIZE < 65536
    ∧ (c.off_avc + c.AVCONFIG_SIZE + c.VIDEO_MODES_SIZE < c.PAGESIZE
      ∨ (c.PAGESIZE ≤ c.VIDEO_MODES_SIZE ∧ c.VIDEO_MODES_SIZE ≤ 256 * c.PAGESIZE))

instance (c : Cfg) : Decidable c.profile_ok := by
  unfold Cfg.profile_ok; infer_instance

/-- Invariant of the loop of `write_userdata` from its second pass on: the
first page of the slot holds the header bytes `hdr`, every flash operation
succeeds, and either nothing is left to write or the loop is at the start of a
page after the first whose index, with the pages still to come, stays below
256. -/
def write_inv (c : Cfg) (entry : Nat) (hdr : Mem) (s : WriteState) : Prop :=
  (∀ i < c.sizeof_ude_hdr, s.flash.mem (c.page_base entry * c.PAGESIZE + i) = hdr i)
    ∧ (∀ k, s.flash.rc k = 0)
    ∧ s.vm_to_write < 65536
    ∧ (s.vm_to_write = 0
      ∨ (s.pageoffset = 0 ∧ 1 ≤ s.pageno
          ∧ s.pageno * c.PAGESIZE + s.vm_to_write ≤ 256 * c.PAGESIZE))

/-- A flash like `flashA` whose first operation fails with code -1. -/
def flashFailFirst : Flash :=
  { mem := fun _ => 255, ops := [], rc := fun k => if k = 0 then -1 else 0 }

/-- A flash like `flashA` whose second operation fails with code -1. -/
def flashFailSecond : Flash :=
  { mem := fun _ => 255, ops := [], rc := fun k => if k = 1 then -1 else 0 }

/-- The configuration `cfgA` with a video-mode table of 200 bytes:
`offsetof(ude_profile, avc) + sizeof(avconfig_t)` is 58 and the table ends 2
bytes into the second page. -/
def cfgB : Cfg := { cfgA with VIDEO_MODES_SIZE := 200 }

/-- Slot 3 of `cfgB` holding the first bytes of a profile record with
`avc_data_len` 40 and `vm_data_len` 200. -/
def flashProfileB : Flash := flashOf (hdrA 1 ++ [40, 0, 200, 0]) 1245184

/-- Length of the `memcpy` that the next pass of the loop of `write_userdata`
performs in state `s`. -/
def write_copy_len (c : Cfg) (s : WriteState) : Nat :=
  if s.vm_to_write ≥ c.PAGESIZE - s.pageoffset then c.PAGESIZE - s.pageoffset else s.vm_to_write

/-- The `memcpy` of the next pass of the loop of `write_userdata` stays inside
the page buffer and inside `video_modes`. -/
def write_copy_ok (c : Cfg) (s : WriteState) : Prop :=
  s.pageoffset + write_copy_len c s ≤ c.PAGESIZE
    ∧ s.srcoffset + write_copy_len c s ≤ c.VIDEO_MODES_SIZE

instance (c : Cfg) (s : WriteState) : Decidable (write_copy_ok c s) := by
  unfold write_copy_ok; infer_instance

/-- Length of the `memcpy` that the next pass of the loop of `read_userdata`
performs in state `s`. -/
def read_copy_len (c : Cfg) (s : ReadState) : Nat :=
  if s.vm_to_read ≥ c.PAGESIZE - s.pageoffset then c.PAGESIZE - s.pageoffset else s.vm_to_read

/-- The `memcpy` of the next pass of the loop of `read_userdata` stays inside
the page buffer and inside `video_modes`. -/
def read_copy_ok (c : Cfg) (s : ReadState) : Prop :=
  s.pageoffset + read_copy_len c s ≤ c.PAGESIZE
    ∧ s.dstoffset + read_copy_len c s ≤ c.VIDEO_MODES_SIZE

instance (c : Cfg) (s : ReadState) : Decidable (read_copy_ok c s) := by
  unfold read_copy_ok; infer_instance

/-! ## FAT16 export (`fat16_export.c`) -/

/-- Modelled from the spec: the constant `PROF_16_CLUSTER_COUNT` of
`fat16_export.h`, which is not among the sources: the 512 clusters of the
exported file, as the comment in `generate_fat16` also says. -/
def PROF_16_CLUSTER_COUNT : Nat := 512

/-- Modelled from the spec: the constant `FAT16_ENTRIES_PER_SECTOR` of
`fat16_export.h`, which is not among the sources: 256 entries of 16 bits in a
sector of 512 bytes. -/
def FAT16_ENTRIES_PER_SECTOR : Nat := 256

/-- Modelled from the spec: the constant `FAT16_SECTOR_SIZE` of
`fat16_export.h`, which is not among the sources: 512 bytes. -/
def FAT16_SECTOR_SIZE : Nat := 512

/-- The table `bootsec_beg_bpb_16`: OEM name and the start of the BPB. -/
def bootsec_beg_bpb_16 : List Nat :=
  [0x4d, 0x53, 0x57, 0x49, 0x4e, 0x34, 0x2e, 0x31,
   0x00, 0x02, 0x04, 0x80, 0x00, 0x02, 0x00, 0x08,
   0x00, 0x80, 0xf8, 0x20, 0x00, 0x3f, 0x00, 0xff]

/-- The table `bootsec_after_bpb_16`: drive number, extended boot signature,
serial, label and file system type. -/
def bootsec_after_bpb_16 : List Nat :=
  [0x80, 0x00, 0x29, 0xf4, 0xcf, 0xc6, 0x04, 0x4f, 0x53, 0x53, 0x43, 0x50,
   0x52, 0x4f, 0x46, 0x49, 0x4c, 0x53, 0x46, 0x41, 0x54, 0x31, 0x36, 0x20,
   0x20, 0x20]

/-- A constant table as a memory region. -/
def table (t : List Nat) : Mem := fun k => t.getD k 0

/-- The function `generate_boot_sector_16(buf)`: two `memcpy` calls and the
16-bit little-endian store of `0xaa55` at offset 510. -/
def generate_boot_sector_16 (buf : Mem) : Mem :=
  let buf := memcpy buf 3 (table bootsec_beg_bpb_16) 0 24
  let buf := memcpy buf 36 (table bootsec_after_bpb_16) 0 26
  storeLE buf 510 2 0xaa55

/-- The constant `fat16_preamble`. -/
def fat16_preamble : Nat := 0xfffffff8

/-- The constant `last_fat_cluster` of `generate_fat16`, an `alt_u16`. -/
def last_fat_cluster : Nat := (PROF_16_CLUSTER_COUNT + 2) % 65536

/-- The variables that the `for` loop of `generate_fat16` updates: the buffer
and `cur_ofs`. -/
structure FatLoop where
  fat : Mem
  cur_ofs : Nat

/-- The value stored in the entry of `cluster`: the chain terminator at
`last_fat_cluster`, the cluster number otherwise. -/
def fat_value (cluster : Nat) : Nat := if cluster = last_fat_cluster then 0xffff else cluster

/-- Body of the `for` loop of `generate_fat16` for one value of `cluster`: a
16-bit little-endian store at entry `cur_ofs`, then `++cur_ofs`. -/
def fat_body (st : FatLoop) (cluster : Nat) : FatLoop :=
  { fat := storeLE st.fat (2 * st.cur_ofs) 2 (fat_value cluster),
    cur_ofs := (st.cur_ofs + 1) % 65536 }

/-- Result of `generate_fat16`: the buffer, the final value of `cur_ofs` (the
number of 16-bit entries stored) and the return value. -/
structure FatChunk where
  buf : Mem
  cur_ofs : Nat
  ret : Nat

/-- The local `start_cluster` of `generate_fat16`. -/
def start_cluster (written : Nat) : Nat := (3 + written) % 65536

/-- The local `clusters_to_write` of `generate_fat16`, from
`clusters_remaining` and `preamble_compensation`. -/
def clusters_to_write (written : Nat) : Nat :=
  let clusters_remaining := sub16 PROF_16_CLUSTER_COUNT written
  let preamble_compensation := if written ≠ 0 then 0 else 2
  sub16 (if clusters_remaining > FAT16_ENTRIES_PER_SECTOR then FAT16_ENTRIES_PER_SECTOR
    else clusters_remaining) preamble_compensation

/-- The local `end_cluster` of `generate_fat16`. -/
def end_cluster (written : Nat) : Nat := add16 (start_cluster written) (clusters_to_write written)

/-- The buffer and `cur_ofs` of `generate_fat16` on entry to its loop: on the
first call the 32-bit little-endian store of `fat16_preamble` has filled two
entries. -/
def fat_init (buf : Mem) (written : Nat) : FatLoop :=
  if written = 0 then { fat := storeLE buf 0 4 fat16_preamble, cur_ofs := 2 }
  else { fat := buf, cur_ofs := 0 }

/-- The function `generate_fat16(buf, written)`, for `written` an `alt_u16`
value.  All locals are `alt_u16` and wrap modulo 65536.  The loop
`for (cluster = start_cluster; cluster < end_cluster; ++cluster)` runs its body
for the `end_cluster - start_cluster` values from `start_cluster` on, none when
`end_cluster ≤ start_cluster`; `cluster` stays below `end_cluster ≤ 65535`, so
`++cluster` never wraps. -/
def generate_fat16 (buf : Mem) (written : Nat) : FatChunk :=
  let st := (List.range' (start_cluster written) (end_cluster written - start_cluster written)).foldl
    fat_body (fat_init buf written)
  { buf := st.fat, cur_ofs := st.cur_ofs, ret := sub16 (end_cluster written) 3 }

/-- The table `prof_dirent_16`, of `PROF_DIRENT_16_SIZE = 32` bytes. -/
def prof_dirent_16 : List Nat :=
  [0x4f, 0x53, 0x53, 0x43, 0x50, 0x52, 0x4f, 0x46, 0x42, 0x49, 0x4e, 0x20,
   0x00, 0x8e, 0x04, 0xb5, 0x6f, 0x51, 0x6f, 0x51, 0x00, 0x00, 0x17, 0x89,
   0x6f, 0x51, 0x02, 0x00, 0x00, 0x00, 0x10, 0x00]

/-- A zeroed buffer. -/
def zero_buf : Mem := fun _ => 0

/-- The chunks obtained by calling `generate_fat16` on a fresh zeroed buffer
with the value returned by the previous call, from `written` on, until
`PROF_16_CLUSTER_COUNT` is returned or `fuel` calls have been made. -/
def fat_run : Nat → Nat → List FatChunk
  | 0, _ => []
  | fuel + 1, written =>
    let r := generate_fat16 zero_buf written
    r :: (if r.ret = PROF_16_CLUSTER_COUNT then [] else fat_run fuel r.ret)

/-- Entry `k` of the concatenation of the chunks, each
`FAT16_ENTRIES_PER_SECTOR` entries long, read as 16-bit little-endian; zero
beyond the last chunk. -/
def fat_entry (chunks : List FatChunk) (k : Nat) : Nat :=
  match chunks.get? (k / FAT16_ENTRIES_PER_SECTOR) with
  | some ch => loadLE ch.buf (2 * (k % FAT16_ENTRIES_PER_SECTOR)) 2
  | none => 0

/-- The clusters visited by following the chain of table `T` from cluster `c`,
up to and including the cluster whose entry is the end-of-chain marker
`0xffff`, for at most `fuel` clusters. -/
def chain (T : Nat → Nat) : Nat → Nat → List Nat
  | 0, _ => []
  | fuel + 1, c => if T c = 0xffff then [c] else c :: chain T fuel (T c)

/-! ## Sectors -/

/-- Address `addr` lies in the sector of slot `entry`,
`[USERDATA_OFFSET + entry*SECTORSIZE, USERDATA_OFFSET + (entry+1)*SECTORSIZE)`. -/
def Cfg.in_sector (c : Cfg) (entry addr : Nat) : Prop :=
  c.slot_offset entry ≤ addr ∧ addr < c.slot_offset entry + c.SECTORSIZE

/-- The operation is a page write whose bytes lie in the sector of slot
`entry`. -/
def Cfg.write_in_sector (c : Cfg) (entry : Nat) : FlashOp → Prop
  | FlashOp.write pagenum length =>
    c.slot_offset entry ≤ pagenum * c.PAGESIZE
      ∧ pagenum * c.PAGESIZE + length ≤ c.slot_offset entry + c.SECTORSIZE
  | FlashOp.read _ _ => False

/-- Flash `fl'` arises from `fl` by page writes inside the sector of slot
`entry`: the bytes outside that sector are those of `fl`, the driver's return
codes are those of `fl`, and the operations logged since `fl` are page writes
inside the sector. -/
def Cfg.confined (c : Cfg) (entry : Nat) (fl fl' : Flash) : Prop :=
  (∀ addr, ¬ c.in_sector entry addr → fl'.mem addr = fl.mem addr)
    ∧ fl'.rc = fl.rc
    ∧ ∃ new, fl'.ops = fl.ops ++ new ∧ ∀ op ∈ new, c.write_in_sector entry op

/-- Facts about the sector size under which the transfers of one slot stay in
its sector: a sector has at least the 256 pages that the 8-bit page counter
can address, or the sizes of a profile record satisfy `Cfg.profile_ok` and the
record is at most one sector long. -/
def Cfg.sector_ok (c : Cfg) : Prop :=
  256 * c.PAGESIZE ≤ c.SECTORSIZE
    ∨ (c.profile_ok ∧ c.off_avc + c.AVCONFIG_SIZE + c.VIDEO_MODES_SIZE ≤ c.SECTORSIZE)

instance (c : Cfg) : Decidable c.sector_ok := by
  unfold Cfg.sector_ok; infer_instance

/-- Invariant of both transfer loops when the counter starts at
`VIDEO_MODES_SIZE`: the counter fits 16 bits, and either nothing is left, or
the loop is at the start of page `pageno` with the pages before it and the
bytes left within the table size, or the loop has not run yet. -/
def Cfg.xfer_inv (c : Cfg) (vm pageoffset pageno : Nat) : Prop :=
  vm < 65536
    ∧ (vm = 0
      ∨ (pageoffset = 0 ∧ pageno * c.PAGESIZE + vm ≤ c.VIDEO_MODES_SIZE)
      ∨ (pageoffset = c.off_avc + c.AVCONFIG_SIZE ∧ pageno = 0 ∧ vm = c.VIDEO_MODES_SIZE))

/-- The state `s` of the loop of `read_userdata` with the flash bytes replaced
by `m`. -/
def ReadState.with_mem (s : ReadState) (m : Mem) : ReadState :=
  { s with flash := { s.flash with mem := m } }

/-- The return value and the live configuration of a result of
`read_userdata`. -/
def outcome (r : Option (Int × World)) : Option (Int × Live) :=
  r.map (fun x => (x.1, x.2.live))

/-- The configuration `cfgA` with sectors of two pages, exactly the length of a
profile record. -/
def cfgC : Cfg := { cfgA with SECTORSIZE := 512 }

/-- The configuration `cfgB` (H = 58, a 200-byte video-mode table, so a profile
record of 258 bytes) with sectors of two pages. -/
def cfgD : Cfg := { cfgB with SECTORSIZE := 512 }

/-- Slot 4 of `cfgD` holding a record with the tag, version 0.90 and the
unknown type 2; the rest of the flash, slot 3 included, is erased. -/
def flashD : Flash := flashOf (hdrA 2) 1050624

/-! # Theorems -/

/-! ## Byte memory -/

theorem memcpy_in (dst : Mem) (doff : Nat) (src : Mem) (soff n i : Nat)
    (h1 : doff ≤ i) (h2 : i < doff + n) :
    memcpy dst doff src soff n i = src (soff + (i - doff)) := by
  simp [memcpy, h1, h2]

theorem memcpy_out (dst : Mem) (doff : Nat) (src : Mem) (soff n i : Nat)
    (h : i < doff ∨ doff + n ≤ i) :
    memcpy dst doff src soff n i = dst i := by
  have : ¬ (doff ≤ i ∧ i < doff + n) := by omega
  simp [memcpy, this]

theorem loadLE_congr (m1 m2 : Mem) (w : Nat) :
    ∀ off, (∀ k < w, m1 (off + k) = m2 (off + k)) → loadLE m1 off w = loadLE m2 off w := by
  induction w with
  | zero => intro off _; rfl
  | succ w ih =>
    intro off h
    have h0 := h 0 (Nat.succ_pos w)
    simp only [Nat.add_zero] at h0
    have hrest : ∀ k < w, m1 (off + 1 + k) = m2 (off + 1 + k) := by
      intro k hk
      have := h (k + 1) (Nat.succ_lt_succ hk)
      rwa [show off + (k + 1) = off + 1 + k by omega] at this
    simp only [loadLE, h0, ih (off + 1) hrest]

theorem loadLE_shift (m1 m2 : Mem) (w : Nat) :
    ∀ a b, (∀ k < w, m1 (a + k) = m2 (b + k)) → loadLE m1 a w = loadLE m2 b w := by
  induction w with
  | zero => intro a b _; rfl
  | succ w ih =>
    intro a b h
    have h0 := h 0 (Nat.succ_pos w)
    simp only [Nat.add_zero] at h0
    have hrest : ∀ k < w, m1 (a + 1 + k) = m2 (b + 1 + k) := by
      intro k hk
      have := h (k + 1) (Nat.succ_lt_succ hk)
      rwa [show a + (k + 1) = a + 1 + k by omega, show b + (k + 1) = b + 1 + k by omega] at this
    simp only [loadLE, h0, ih (a + 1) (b + 1) hrest]

theorem loadLE_bytes (m : Mem) (w : Nat) :
    ∀ off v, (∀ k < w, m (off + k) = v / 256 ^ k % 256) → loadLE m off w = v % 256 ^ w := by
  induction w with
  | zero => intro off v _; simp [loadLE, Nat.mod_one]
  | succ w ih =>
    intro off v h
    have h0 := h 0 (Nat.succ_pos w)
    simp only [Nat.add_zero, pow_zero, Nat.div_one] at h0
    have hrest : ∀ k < w, m (off + 1 + k) = (v / 256) / 256 ^ k % 256 := by
      intro k hk
      have := h (k + 1) (Nat.succ_lt_succ hk)
      rw [show off + (k + 1) = off + 1 + k by omega] at this
      rw [this, Nat.div_div_eq_div_mul, pow_succ, Nat.mul_comm]
    simp only [loadLE, h0, ih (off + 1) (v / 256) hrest]
    rw [pow_succ', Nat.mod_mul]

theorem loadLE_storeLE (m : Mem) (off w v : Nat) :
    loadLE (storeLE m off w v) off w = v % 256 ^ w := by
  apply loadLE_bytes
  intro k hk
  simp [storeLE, hk]
theorem first_page_in (c : Cfg) (entry : Nat) (stack : Mem) (fl : Flash) (i : Nat)
    (h : i < c.PAGESIZE) :
    first_page c entry stack fl i = fl.mem (c.slot_offset entry + i) := by
  simp [first_page, memcpy, h]

theorem first_page_loadLE (c : Cfg) (entry : Nat) (stack : Mem) (fl : Flash) (off w : Nat)
    (h : off + w ≤ c.PAGESIZE) :
    loadLE (first_page c entry stack fl) off w = loadLE fl.mem (c.slot_offset entry + off) w := by
  have key : ∀ (m : Mem) (w a b : Nat), loadLE (fun i => m (a + i)) b w = loadLE m (a + b) w := by
    intro m w
    induction w with
    | zero => intro a b; rfl
    | succ w ih =>
      intro a b
      simp only [loadLE, ih a (b + 1)]
      rfl
  rw [← key fl.mem w (c.slot_offset entry) off]
  apply loadLE_congr
  intro k hk
  exact first_page_in c entry stack fl (off + k) (by omega)

/-! ## The magic comparison -/

theorem strncmp_eq_zero_iff (s1 s2 : Mem) (n : Nat) :
    ∀ i, (∀ k, k + 1 < n → s2 (i + k) ≠ 0) →
      (strncmp s1 s2 i n = 0 ↔ ∀ k < n, s1 (i + k) = s2 (i + k)) := by
  induction n with
  | zero => intro i _; simp [strncmp]
  | succ n ih =>
    intro i hnz
    by_cases hne : s1 i = s2 i
    · by_cases hz : s1 i = 0
      · have hn : n = 0 := by
          by_contra hn
          exact hnz 0 (by omega) (by simpa [hne] using hz)
        subst hn
        have hstep : strncmp s1 s2 i (0 + 1) = 0 := by
          simp only [strncmp]
          rw [if_neg (by simpa using hne), if_pos hz]
        rw [hstep]
        refine ⟨fun _ => ?_, fun _ => rfl⟩
        intro k hk
        have : k = 0 := by omega
        subst this
        simpa using hne
      · have hrec := ih (i + 1) (fun k hk => by
          have := hnz (k + 1) (by omega)
          rwa [show i + (k + 1) = i + 1 + k by omega] at this)
        have hstep : strncmp s1 s2 i (n + 1) = strncmp s1 s2 (i + 1) n := by
          simp only [strncmp]
          rw [if_neg (by simpa using hne), if_neg hz]
        rw [hstep, hrec]
        constructor
        · intro h k hk
          cases k with
          | zero => simpa using hne
          | succ k =>
            have := h k (by omega)
            rwa [show i + 1 + k = i + (k + 1) by omega] at this
        · intro h k hk
          have := h (k + 1) (by omega)
          rwa [show i + (k + 1) = i + 1 + k by omega] at this
    · have hstep : strncmp s1 s2 i (n + 1) = (s1 i : Int) - (s2 i : Int) := by
        simp only [strncmp]
        rw [if_pos hne]
      rw [hstep]
      constructor
      · intro h
        exact absurd (by omega) hne
      · intro h
        exact absurd (by simpa using h 0 (Nat.succ_pos n)) hne

theorem strncmp_tag (s : Mem) : strncmp s USRDATA 0 8 = 0 ↔ ∀ i < 8, s i = USRDATA i := by
  have h := strncmp_eq_zero_iff s USRDATA 8 0 (by
    intro k hk
    have hk7 : k < 7 := by omega
    interval_cases k <;> simp [USRDATA])
  simpa using h

/-! ## Termination of the transfer loops -/

theorem sub16_lt (a b : Nat) : sub16 a b < 65536 := by
  unfold sub16; omega

theorem sub16_of_le (a b : Nat) (ha : a < 65536) (hb : b ≤ a) : sub16 a b = a - b := by
  unfold sub16; omega

theorem read_body_shape (c : Cfg) (entry : Nat) (s : ReadState) :
    ((read_body c entry s).pageoffset = 0 ∧ (read_body c entry s).vm_to_read < 65536 ∧
        c.PAGESIZE - s.pageoffset ≤ s.vm_to_read ∧
        (read_body c entry s).vm_to_read = sub16 s.vm_to_read c.PAGESIZE) ∨
      (read_body c entry s).vm_to_read = 0 := by
  unfold read_body
  split
  · left
    refine ⟨rfl, sub16_lt _ _, by assumption, rfl⟩
  · right
    rfl

theorem read_loop_succ (c : Cfg) (entry n : Nat) (s : ReadState) (hpos : s.vm_to_read > 0) :
    read_loop c entry (n + 1) s = read_loop c entry n (read_body c entry s) := by
  simp [read_loop, hpos]

theorem read_loop_done (c : Cfg) (entry n : Nat) (s : ReadState) (h : ¬ s.vm_to_read > 0) :
    read_loop c entry n s = some s := by
  cases n <;> simp [read_loop, h]

theorem read_loop_aux (c : Cfg) (entry : Nat) (hP : 0 < c.PAGESIZE) :
    ∀ (n : Nat) (s : ReadState), (s.pageoffset = 0 ∨ s.vm_to_read = 0) → s.vm_to_read ≤ n →
      s.vm_to_read < 65536 → ∃ s', read_loop c entry n s = some s' := by
  intro n
  induction n with
  | zero =>
    intro s _ hn _
    exact ⟨s, read_loop_done c entry _ s (by omega)⟩
  | succ n ih =>
    intro s ho hn hlt
    by_cases hpos : s.vm_to_read > 0
    · have ho0 : s.pageoffset = 0 := by
        rcases ho with h | h
        · exact h
        · omega
      rw [read_loop_succ c entry n s hpos]
      rcases read_body_shape c entry s with ⟨h1, h2, h3, h4⟩ | h
      · apply ih _ (Or.inl h1) _ h2
        rw [h4, sub16_of_le _ _ hlt (by omega)]
        omega
      · exact ih _ (Or.inr h) (by omega) (by omega)
    · exact ⟨s, read_loop_done c entry _ s hpos⟩

theorem read_loop_total (c : Cfg) (entry : Nat) (hP : 0 < c.PAGESIZE) (s : ReadState) :
    ∃ s', read_loop c entry xfer_fuel s = some s' := by
  show ∃ s', read_loop c entry (65536 + 1) s = some s'
  by_cases hpos : s.vm_to_read > 0
  · rw [read_loop_succ c entry 65536 s hpos]
    rcases read_body_shape c entry s with ⟨h1, h2, _, _⟩ | h
    · exact read_loop_aux c entry hP _ _ (Or.inl h1) (by omega) h2
    · exact read_loop_aux c entry hP _ _ (Or.inr h) (by omega) (by omega)
  · exact ⟨s, read_loop_done c entry _ s hpos⟩

theorem write_body_shape (c : Cfg) (entry : Nat) (vm : Mem) (s : WriteState) :
    ((write_body c entry vm s).pageoffset = 0 ∧ (write_body c entry vm s).vm_to_write < 65536 ∧
        c.PAGESIZE - s.pageoffset ≤ s.vm_to_write ∧
        (write_body c entry vm s).vm_to_write = sub16 s.vm_to_write c.PAGESIZE) ∨
      (write_body c entry vm s).vm_to_write = 0 := by
  unfold write_body
  split
  · left
    refine ⟨rfl, sub16_lt _ _, by assumption, rfl⟩
  · right
    rfl

theorem write_loop_succ (c : Cfg) (entry : Nat) (vm : Mem) (n : Nat) (s : WriteState)
    (hpos : s.vm_to_write > 0) :
    write_loop c entry vm (n + 1) s = write_loop c entry vm n (write_body c entry vm s) := by
  simp [write_loop, hpos]

theorem write_loop_done (c : Cfg) (entry : Nat) (vm : Mem) (n : Nat) (s : WriteState)
    (h : ¬ s.vm_to_write > 0) :
    write_loop c entry vm n s = some s := by
  cases n <;> simp [write_loop, h]

theorem write_loop_aux (c : Cfg) (entry : Nat) (vm : Mem) (hP : 0 < c.PAGESIZE) :
    ∀ (n : Nat) (s : WriteState), (s.pageoffset = 0 ∨ s.vm_to_write = 0) → s.vm_to_write ≤ n →
      s.vm_to_write < 65536 → ∃ s', write_loop c entry vm n s = some s' := by
  intro n
  induction n with
  | zero =>
    intro s _ hn _
    exact ⟨s, write_loop_done c entry vm _ s (by omega)⟩
  | succ n ih =>
    intro s ho hn hlt
    by_cases hpos : s.vm_to_write > 0
    · have ho0 : s.pageoffset = 0 := by
        rcases ho with h | h
        · exact h
        · omega
      rw [write_loop_succ c entry vm n s hpos]
      rcases write_body_shape c entry vm s with ⟨h1, h2, h3, h4⟩ | h
      · apply ih _ (Or.inl h1) _ h2
        rw [h4, sub16_of_le _ _ hlt (by omega)]
        omega
      · exact ih _ (Or.inr h) (by omega) (by omega)
    · exact ⟨s, write_loop_done c entry vm _ s hpos⟩

theorem write_loop_total (c : Cfg) (entry : Nat) (vm : Mem) (hP : 0 < c.PAGESIZE)
    (s : WriteState) : ∃ s', write_loop c entry vm xfer_fuel s = some s' := by
  show ∃ s', write_loop c entry vm (65536 + 1) s = some s'
  by_cases hpos : s.vm_to_write > 0
  · rw [write_loop_succ c entry vm 65536 s hpos]
    rcases write_body_shape c entry vm s with ⟨h1, h2, _, _⟩ | h
    · exact write_loop_aux c entry vm hP _ _ (Or.inl h1) (by omega) h2
    · exact write_loop_aux c entry vm hP _ _ (Or.inr h) (by omega) (by omega)
  · exact ⟨s, write_loop_done c entry vm _ s hpos⟩

/-! ## `read_userdata`: the header gates -/

theorem read_flash_ok (offset length : Nat) (dstbuf : Mem) (fl : Flash)
    (hok : fl.rc fl.ops.length = 0) :
    read_flash offset length dstbuf fl =
      (0, memcpy dstbuf 0 fl.mem offset length,
        { fl with ops := fl.ops ++ [FlashOp.read offset length] }) := by
  simp [read_flash, hok]

theorem first_page_tag (c : Cfg) (entry : Nat) (stack : Mem) (fl : Flash) (hP : 8 ≤ c.PAGESIZE) :
    strncmp (first_page c entry stack fl) USRDATA 0 8 = 0 ↔ tag_at fl.mem (c.slot_offset entry) := by
  rw [strncmp_tag, tag_at]
  constructor
  · intro h i hi
    rw [← first_page_in c entry stack fl i (by omega)]
    exact h i hi
  · intro h i hi
    rw [first_page_in c entry stack fl i (by omega)]
    exact h i hi

theorem read_userdata_ok (c : Cfg) (entry : Nat) (stack : Mem) (w : World)
    (he : entry ≤ c.MAX_USERDATA_ENTRY) (hok : w.flash.rc w.flash.ops.length = 0) :
    read_userdata c entry stack w =
      read_decode c entry (first_page c entry stack w.flash) (after_first_read c entry w.flash)
        w.live := by
  unfold read_userdata
  rw [if_neg (by omega)]
  simp only [read_flash_ok _ _ _ _ hok]
  rw [if_neg (by simp)]
  rfl

theorem read_userdata_no_tag (c : Cfg) (entry : Nat) (stack : Mem) (w : World)
    (he : entry ≤ c.MAX_USERDATA_ENTRY) (hok : w.flash.rc w.flash.ops.length = 0)
    (hP : 8 ≤ c.PAGESIZE) (htag : ¬ tag_at w.flash.mem (c.slot_offset entry)) :
    read_userdata c entry stack w =
      some (1, { live := w.live, flash := after_first_read c entry w.flash }) := by
  have hcmp : strncmp (first_page c entry stack w.flash) USRDATA 0 8 ≠ 0 :=
    fun h => htag ((first_page_tag c entry stack w.flash hP).mp h)
  rw [read_userdata_ok c entry stack w he hok, read_decode, if_pos hcmp]

theorem first_page_version (c : Cfg) (entry : Nat) (stack : Mem) (fl : Flash)
    (hP : 10 ≤ c.PAGESIZE) :
    (first_page c entry stack fl off_version_major ≠ c.FW_VER_MAJOR
        ∨ first_page c entry stack fl off_version_minor ≠ c.FW_VER_MINOR)
      ↔ ¬ c.version_ok fl entry := by
  have h8 : off_version_major < c.PAGESIZE := by unfold off_version_major; omega
  have h9 : off_version_minor < c.PAGESIZE := by unfold off_version_minor; omega
  rw [first_page_in c entry stack fl _ h8, first_page_in c entry stack fl _ h9]
  unfold Cfg.version_ok Cfg.rec_byte
  tauto

theorem read_decode_codes (c : Cfg) (entry : Nat) (databuf : Mem) (fl : Flash) (l : Live)
    (r : Int) (w' : World) (h : read_decode c entry databuf fl l = some (r, w')) :
    (r = 1 ∧ strncmp databuf USRDATA 0 8 ≠ 0)
      ∨ (r = 2 ∧ strncmp databuf USRDATA 0 8 = 0
          ∧ (databuf off_version_major ≠ c.FW_VER_MAJOR ∨ databuf off_version_minor ≠ c.FW_VER_MINOR))
      ∨ (r = 0 ∧ strncmp databuf USRDATA 0 8 = 0
          ∧ ¬ (databuf off_version_major ≠ c.FW_VER_MAJOR ∨ databuf off_version_minor ≠ c.FW_VER_MINOR)) := by
  unfold read_decode at h
  by_cases h1 : strncmp databuf USRDATA 0 8 ≠ 0
  · rw [if_pos h1] at h
    simp only [Option.some.injEq, Prod.mk.injEq] at h
    exact Or.inl ⟨h.1.symm, h1⟩
  · rw [if_neg h1] at h
    have h1' : strncmp databuf USRDATA 0 8 = 0 := by simpa using h1
    by_cases h2 : databuf off_version_major ≠ c.FW_VER_MAJOR ∨ databuf off_version_minor ≠ c.FW_VER_MINOR
    · rw [if_pos h2] at h
      simp only [Option.some.injEq, Prod.mk.injEq] at h
      exact Or.inr (Or.inl ⟨h.1.symm, h1', h2⟩)
    · rw [if_neg h2] at h
      refine Or.inr (Or.inr ⟨?_, h1', h2⟩)
      simp only at h
      split_ifs at h
      · simp only [Option.some.injEq, Prod.mk.injEq] at h; exact h.1.symm
      · simp only [Option.some.injEq, Prod.mk.injEq] at h; exact h.1.symm
      · cases hl : read_loop c entry xfer_fuel (read_profile_init c databuf l fl) with
        | none => rw [hl] at h; simp at h
        | some s =>
          rw [hl] at h
          simp only [Option.some.injEq, Prod.mk.injEq] at h; exact h.1.symm
      · simp only [Option.some.injEq, Prod.mk.injEq] at h; exact h.1.symm
      · simp only [Option.some.injEq, Prod.mk.injEq] at h; exact h.1.symm

theorem read_decode_total (c : Cfg) (entry : Nat) (databuf : Mem) (fl : Flash) (l : Live)
    (hP : 0 < c.PAGESIZE) : ∃ r w', read_decode c entry databuf fl l = some (r, w') := by
  unfold read_decode
  simp only
  split_ifs
  · exact ⟨_, _, rfl⟩
  · exact ⟨_, _, rfl⟩
  · exact ⟨_, _, rfl⟩
  · exact ⟨_, _, rfl⟩
  · obtain ⟨s, hs⟩ := read_loop_total c entry hP (read_profile_init c databuf l fl)
    rw [hs]
    exact ⟨_, _, rfl⟩
  · exact ⟨_, _, rfl⟩
  · exact ⟨_, _, rfl⟩

theorem read_userdata_bad_version (c : Cfg) (entry : Nat) (stack : Mem) (w : World)
    (he : entry ≤ c.MAX_USERDATA_ENTRY) (hok : w.flash.rc w.flash.ops.length = 0)
    (hP : 10 ≤ c.PAGESIZE) (htag : tag_at w.flash.mem (c.slot_offset entry))
    (hver : ¬ c.version_ok w.flash entry) :
    read_userdata c entry stack w =
      some (2, { live := w.live, flash := after_first_read c entry w.flash }) := by
  have hcmp : ¬ strncmp (first_page c entry stack w.flash) USRDATA 0 8 ≠ 0 := by
    simpa using (first_page_tag c entry stack w.flash (by omega)).mpr htag
  rw [read_userdata_ok c entry stack w he hok, read_decode, if_neg hcmp,
    if_pos ((first_page_version c entry stack w.flash hP).mpr hver)]

theorem read_userdata_malformed (c : Cfg) (entry : Nat) (stack : Mem) (w : World)
    (he : entry ≤ c.MAX_USERDATA_ENTRY) (hok : w.flash.rc w.flash.ops.length = 0)
    (hP : c.off_avc ≤ c.PAGESIZE) (htag : tag_at w.flash.mem (c.slot_offset entry))
    (hver : c.version_ok w.flash entry) (hbad : c.malformed w.flash entry) :
    read_userdata c entry stack w =
      some (0, { live := w.live, flash := after_first_read c entry w.flash }) := by
  have hP' : 14 + c.ENUM_SIZE ≤ c.PAGESIZE := by
    simpa [Cfg.off_avc, Cfg.sizeof_ude_hdr, Nat.add_comm, Nat.add_left_comm, Nat.add_assoc] using hP
  have hcmp : ¬ strncmp (first_page c entry stack w.flash) USRDATA 0 8 ≠ 0 := by
    simpa using (first_page_tag c entry stack w.flash (by omega)).mpr htag
  have hv : ¬ (first_page c entry stack w.flash off_version_major ≠ c.FW_VER_MAJOR
        ∨ first_page c entry stack w.flash off_version_minor ≠ c.FW_VER_MINOR) := by
    rw [first_page_version c entry stack w.flash (by omega)]
    exact not_not.mpr hver
  have ht : loadLE (first_page c entry stack w.flash) off_type c.ENUM_SIZE
      = c.rec_le w.flash entry off_type c.ENUM_SIZE :=
    first_page_loadLE c entry stack w.flash _ _ (by unfold off_type; omega)
  have hd : loadLE (first_page c entry stack w.flash) c.off_data_len 2
      = c.rec_le w.flash entry c.off_data_len 2 :=
    first_page_loadLE c entry stack w.flash _ _ (by unfold Cfg.off_data_len Cfg.sizeof_ude_hdr; omega)
  have ha : loadLE (first_page c entry stack w.flash) c.off_avc_data_len 2
      = c.rec_le w.flash entry c.off_avc_data_len 2 :=
    first_page_loadLE c entry stack w.flash _ _
      (by unfold Cfg.off_avc_data_len Cfg.sizeof_ude_hdr; omega)
  have hm : loadLE (first_page c entry stack w.flash) c.off_vm_data_len 2
      = c.rec_le w.flash entry c.off_vm_data_len 2 :=
    first_page_loadLE c entry stack w.flash _ _
      (by unfold Cfg.off_vm_data_len Cfg.sizeof_ude_hdr; omega)
  rw [read_userdata_ok c entry stack w he hok, read_decode, if_neg hcmp, if_neg hv]
  simp only [ht, hd, ha, hm]
  have hne : UDE_PROFILE ≠ UDE_INITCFG := by decide
  rcases hbad with ⟨h1, h2⟩ | ⟨h1, h2⟩ | ⟨h1, h2⟩
  · rw [if_neg (by rw [h1]; exact hne), if_pos h1, if_neg (by tauto)]
  · rw [if_pos h1, if_neg h2]
  · rw [if_neg h1, if_neg h2]

/-! ## Claims on the header gates -/

/-- C3 (magic gate): when the slot is valid and the first page is read
successfully, `read_userdata` returns 1 exactly when the first eight bytes of
the slot are not the tag; it then returns 1 whatever the remaining bytes of the
page are, and the live configuration is the one on entry. -/
theorem magic_gate (c : Cfg) (entry : Nat) (stack : Mem) (w : World)
    (he : entry ≤ c.MAX_USERDATA_ENTRY) (hok : w.flash.rc w.flash.ops.length = 0)
    (hP : 8 ≤ c.PAGESIZE) :
    ((∃ w', read_userdata c entry stack w = some (1, w'))
        ↔ ¬ tag_at w.flash.mem (c.slot_offset entry))
      ∧ (¬ tag_at w.flash.mem (c.slot_offset entry) →
          read_userdata c entry stack w =
            some (1, { live := w.live, flash := after_first_read c entry w.flash })) := by
  refine ⟨⟨?_, fun h => ⟨_, read_userdata_no_tag c entry stack w he hok hP h⟩⟩,
    read_userdata_no_tag c entry stack w he hok hP⟩
  rintro ⟨w', hw'⟩ htag
  rw [read_userdata_ok c entry stack w he hok] at hw'
  have hz := (first_page_tag c entry stack w.flash hP).mpr htag
  rcases read_decode_codes c entry _ _ _ _ _ hw' with ⟨_, h⟩ | ⟨h, _⟩ | ⟨h, _⟩
  · exact h hz
  · omega
  · omega

/-- Instance of C3: an erased slot 0 gives 1 and leaves `liveA` in place. -/
theorem magic_gate_witness :
    ((∃ w', read_userdata cfgA 0 stack0 ⟨liveA, flashA⟩ = some (1, w'))
        ↔ ¬ tag_at flashA.mem (cfgA.slot_offset 0))
      ∧ (¬ tag_at flashA.mem (cfgA.slot_offset 0) →
          read_userdata cfgA 0 stack0 ⟨liveA, flashA⟩ =
            some (1, { live := liveA, flash := after_first_read cfgA 0 flashA })) :=
  magic_gate cfgA 0 stack0 ⟨liveA, flashA⟩ (by decide) (by decide) (by decide)

/-- C4 (version gate): when the slot is valid, the first page is read
successfully and begins with the tag, a stored version different from
`FW_VER_MAJOR`.`FW_VER_MINOR` makes `read_userdata` return 2 with the live
configuration as on entry, whatever type and payload follow; with the stored
version equal to the firmware's, `read_userdata` returns and its result is
not 2. -/
theorem version_gate (c : Cfg) (entry : Nat) (stack : Mem) (w : World)
    (he : entry ≤ c.MAX_USERDATA_ENTRY) (hok : w.flash.rc w.flash.ops.length = 0)
    (hP : 10 ≤ c.PAGESIZE) (htag : tag_at w.flash.mem (c.slot_offset entry)) :
    (¬ c.version_ok w.flash entry →
        read_userdata c entry stack w =
          some (2, { live := w.live, flash := after_first_read c entry w.flash }))
      ∧ (c.version_ok w.flash entry →
          ∃ r w', read_userdata c entry stack w = some (r, w') ∧ r ≠ 2) := by
  refine ⟨read_userdata_bad_version c entry stack w he hok hP htag, fun hver => ?_⟩
  rw [read_userdata_ok c entry stack w he hok]
  obtain ⟨r, w', hrw⟩ := read_decode_total c entry (first_page c entry stack w.flash)
    (after_first_read c entry w.flash) w.live (by omega)
  refine ⟨r, w', hrw, ?_⟩
  have hz := (first_page_tag c entry stack w.flash (by omega)).mpr htag
  rcases read_decode_codes c entry _ _ _ _ _ hrw with ⟨_, h⟩ | ⟨_, _, h⟩ | ⟨h, _⟩
  · exact absurd hz h
  · exact absurd hver ((first_page_version c entry stack w.flash hP).mp h)
  · omega

/-- Instance of C4: slot 0 holding a version 0.89 record is refused with 2 by
firmware 0.90, and slot 0 holding a version 0.90 record does not give 2. -/
theorem version_gate_witness :
    read_userdata cfgA 0 stack0 ⟨liveA, flashOldVersion⟩ =
        some (2, { live := liveA, flash := after_first_read cfgA 0 flashOldVersion })
      ∧ ∃ r w', read_userdata cfgA 0 stack0 ⟨liveA, flashUnknown⟩ = some (r, w') ∧ r ≠ 2 :=
  ⟨(version_gate cfgA 0 stack0 ⟨liveA, flashOldVersion⟩ (by decide) (by decide) (by decide)
      (by decide)).1 (by decide),
    (version_gate cfgA 0 stack0 ⟨liveA, flashUnknown⟩ (by decide) (by decide) (by decide)
      (by decide)).2 (by decide)⟩

/-- C5 (no partial load): for a valid slot whose first page is read
successfully and carries the tag and the firmware's version, a profile record
with a wrong `avc_data_len` or `vm_data_len`, and an init-config record with a
wrong `data_len`, leave every live variable as it was (`tc`, `video_modes`,
`update_cur_vm`, the profile selection, `profile_mode`, `target_mode`,
`rc_keymap`), and the only flash operation issued is the read of the first
page. -/
theorem length_mismatch_keeps_live (c : Cfg) (entry : Nat) (stack : Mem) (w : World)
    (he : entry ≤ c.MAX_USERDATA_ENTRY) (hok : w.flash.rc w.flash.ops.length = 0)
    (hP : c.off_avc ≤ c.PAGESIZE) (htag : tag_at w.flash.mem (c.slot_offset entry))
    (hver : c.version_ok w.flash entry)
    (hbad : (c.rec_le w.flash entry off_type c.ENUM_SIZE = UDE_PROFILE
          ∧ (c.rec_le w.flash entry c.off_avc_data_len 2 ≠ c.AVCONFIG_SIZE
              ∨ c.rec_le w.flash entry c.off_vm_data_len 2 ≠ c.VIDEO_MODES_SIZE))
        ∨ (c.rec_le w.flash entry off_type c.ENUM_SIZE = UDE_INITCFG
          ∧ c.rec_le w.flash entry c.off_data_len 2 ≠ c.initcfg_data_len)) :
    ∃ r w', read_userdata c entry stack w = some (r, w') ∧ w'.live = w.live
      ∧ w'.flash.mem = w.flash.mem
      ∧ w'.flash.ops = w.flash.ops ++ [FlashOp.read (c.slot_offset entry) c.PAGESIZE] := by
  have hm : c.malformed w.flash entry := by
    rcases hbad with h | h
    · exact Or.inl h
    · exact Or.inr (Or.inl h)
  exact ⟨0, _, read_userdata_malformed c entry stack w he hok hP htag hver hm, rfl, rfl, rfl⟩

/-- Instance of C5: a profile record in slot 0 whose `avc_data_len` is 39
where `sizeof(avconfig_t)` is 40. -/
theorem length_mismatch_keeps_live_witness :
    ∃ r w', read_userdata cfgA 0 stack0 ⟨liveA, flashShortAvc⟩ = some (r, w') ∧ w'.live = liveA
      ∧ w'.flash.mem = flashShortAvc.mem
      ∧ w'.flash.ops = flashShortAvc.ops ++ [FlashOp.read (cfgA.slot_offset 0) cfgA.PAGESIZE] :=
  length_mismatch_keeps_live cfgA 0 stack0 ⟨liveA, flashShortAvc⟩ (by decide) (by decide) (by decide)
    (by decide) (by decide) (by decide)

/-- C6, as the claim states it, fails: slot 0 of `flashUnknown` carries the
tag, the firmware's version and the unknown type 2, and `read_userdata`
returns the success value 0 for it. -/
theorem structural_failure_counterexample :
    tag_at flashUnknown.mem (cfgA.slot_offset 0) ∧ cfgA.version_ok flashUnknown 0
      ∧ cfgA.rec_le flashUnknown 0 off_type cfgA.ENUM_SIZE = 2
      ∧ (read_userdata cfgA 0 stack0 ⟨liveA, flashUnknown⟩).map Prod.fst = some 0 := by
  decide

/-- C6 as amended: for a valid slot whose first page is read successfully and
carries the tag and the firmware's version, a profile record with a wrong
`avc_data_len` or `vm_data_len`, an init-config record with a wrong `data_len`
and a record of neither type all make `read_userdata` return 0, the value it
returns on success: a value different from 1 and 2, with the live
configuration as on entry. -/
theorem structural_failure_returns_zero (c : Cfg) (entry : Nat) (stack : Mem) (w : World)
    (he : entry ≤ c.MAX_USERDATA_ENTRY) (hok : w.flash.rc w.flash.ops.length = 0)
    (hP : c.off_avc ≤ c.PAGESIZE) (htag : tag_at w.flash.mem (c.slot_offset entry))
    (hver : c.version_ok w.flash entry) (hbad : c.malformed w.flash entry) :
    ∃ r w', read_userdata c entry stack w = some (r, w') ∧ r = 0 ∧ r ≠ 1 ∧ r ≠ 2
      ∧ w'.live = w.live :=
  ⟨0, _, read_userdata_malformed c entry stack w he hok hP htag hver hbad, rfl, by decide,
    by decide, rfl⟩

/-- Instance of amended C6: the record of unknown type 2 in slot 0. -/
theorem structural_failure_returns_zero_witness :
    ∃ r w', read_userdata cfgA 0 stack0 ⟨liveB, flashUnknown⟩ = some (r, w') ∧ r = 0 ∧ r ≠ 1
      ∧ r ≠ 2 ∧ w'.live = liveB :=
  structural_failure_returns_zero cfgA 0 stack0 ⟨liveB, flashUnknown⟩ (by decide) (by decide)
    (by decide) (by decide) (by decide) (by decide)

/-! ## Slot validation -/

theorem write_userdata_total (c : Cfg) (entry : Nat) (stack : Mem) (w : World)
    (hP : 0 < c.PAGESIZE) : ∃ r w', write_userdata c entry stack w = some (r, w') := by
  unfold write_userdata
  simp only
  split_ifs
  · exact ⟨_, _, rfl⟩
  · exact ⟨_, _, rfl⟩
  · exact ⟨_, _, rfl⟩
  · obtain ⟨s, hs⟩ := write_loop_total c entry w.live.video_modes hP
      (write_profile_init c w.live (write_header c entry stack) w.flash)
    rw [hs]
    exact ⟨_, _, rfl⟩
  · exact ⟨_, _, rfl⟩

theorem write_userdata_fail (c : Cfg) (entry : Nat) (stack : Mem) (w w' : World)
    (he : entry ≤ c.MAX_USERDATA_ENTRY) (h : write_userdata c entry stack w = some (-1, w')) :
    w.flash.rc w.flash.ops.length ≠ 0 := by
  unfold write_userdata at h
  rw [if_neg (by omega)] at h
  simp only at h
  split_ifs at h with h1 h2 h3
  · simpa [write_flash_page] using h2
  · simp at h
  · cases hl : write_loop c entry w.live.video_modes xfer_fuel
        (write_profile_init c w.live (write_header c entry stack) w.flash) with
    | none => rw [hl] at h; simp at h
    | some s => rw [hl] at h; simp at h
  · simp at h

theorem read_userdata_fail (c : Cfg) (entry : Nat) (stack : Mem) (w w' : World)
    (he : entry ≤ c.MAX_USERDATA_ENTRY) (h : read_userdata c entry stack w = some (-1, w')) :
    w.flash.rc w.flash.ops.length ≠ 0 := by
  intro hok
  rw [read_userdata_ok c entry stack w he hok] at h
  rcases read_decode_codes c entry _ _ _ _ _ h with ⟨h, _⟩ | ⟨h, _⟩ | ⟨h, _⟩ <;> omega

/-- C8 (invalid slot): for `entry > MAX_USERDATA_ENTRY` both `write_userdata`
and `read_userdata` return -1 and leave the whole world, live configuration and
flash with its log of issued operations, as it was.  For
`entry ≤ MAX_USERDATA_ENTRY` both functions return, and one that returns -1 had
its first flash operation fail. -/
theorem invalid_slot_rejected (c : Cfg) (entry : Nat) (stack : Mem) (w : World) :
    (c.MAX_USERDATA_ENTRY < entry →
        write_userdata c entry stack w = some (-1, w)
          ∧ read_userdata c entry stack w = some (-1, w))
      ∧ (entry ≤ c.MAX_USERDATA_ENTRY → 0 < c.PAGESIZE →
          (∃ r w', write_userdata c entry stack w = some (r, w')
              ∧ (r = -1 → w.flash.rc w.flash.ops.length ≠ 0))
            ∧ (∃ r w', read_userdata c entry stack w = some (r, w')
              ∧ (r = -1 → w.flash.rc w.flash.ops.length ≠ 0))) := by
  refine ⟨fun h => ⟨by simp [write_userdata, h], by simp [read_userdata, h]⟩, fun he hP => ⟨?_, ?_⟩⟩
  · obtain ⟨r, w', h⟩ := write_userdata_total c entry stack w hP
    exact ⟨r, w', h, fun hr => write_userdata_fail c entry stack w w' he (hr ▸ h)⟩
  · by_cases hok : w.flash.rc w.flash.ops.length = 0
    · obtain ⟨r, w', h⟩ := read_decode_total c entry (first_page c entry stack w.flash)
        (after_first_read c entry w.flash) w.live hP
      rw [← read_userdata_ok c entry stack w he hok] at h
      exact ⟨r, w', h, fun hr => read_userdata_fail c entry stack w w' he (hr ▸ h)⟩
    · refine ⟨-1, { w with flash := (read_flash (c.slot_offset entry) c.PAGESIZE stack w.flash).2.2 },
        ?_, fun _ => hok⟩
      unfold read_userdata
      rw [if_neg (by omega), if_pos (by simpa [read_flash] using hok)]

/-- Instance of C8: with `MAX_USERDATA_ENTRY = 15`, entry 16 is refused by both
functions with the world untouched, and entries 3 and 15 are not refused. -/
theorem invalid_slot_rejected_witness :
    (write_userdata cfgA 16 stack0 ⟨liveA, flashA⟩ = some (-1, ⟨liveA, flashA⟩)
        ∧ read_userdata cfgA 16 stack0 ⟨liveA, flashA⟩ = some (-1, ⟨liveA, flashA⟩))
      ∧ ((∃ r w', write_userdata cfgA 3 stack0 ⟨liveA, flashA⟩ = some (r, w')
              ∧ (r = -1 → flashA.rc flashA.ops.length ≠ 0))
            ∧ (∃ r w', read_userdata cfgA 3 stack0 ⟨liveA, flashA⟩ = some (r, w')
              ∧ (r = -1 → flashA.rc flashA.ops.length ≠ 0))) :=
  ⟨(invalid_slot_rejected cfgA 16 stack0 ⟨liveA, flashA⟩).1 (by decide),
    (invalid_slot_rejected cfgA 3 stack0 ⟨liveA, flashA⟩).2 (by decide) (by decide)⟩

/-! ## Loading the init-config record -/

theorem sel_body_apply (c : Cfg) (databuf : Mem) (mode : Nat) (sel : Mem) (i j : Nat)
    (hi : i < 3) :
    sel_body c databuf mode sel i j =
      if j = i then expected_sel mode (databuf (c.off_last_profile + i)) i else sel j := by
  have h1 : i * 4 % 256 = 4 * i := by omega
  have h2 : (4 * i + 4 - 1) % 256 = 4 * i + 3 := by omega
  unfold sel_body expected_sel
  simp only [h1]
  by_cases hm : mode = 0
  · simp only [hm, ne_eq, not_true_eq_false, if_false, ge_iff_le, Nat.zero_le, true_and]
    by_cases hr : databuf (c.off_last_profile + i) ≤ MAX_PROFILE
    · simp only [hr, if_true, storeByte]
    · simp only [hr, if_false, storeByte]
  · simp only [hm, ne_eq, not_false_eq_true, if_true, ge_iff_le, h2]
    by_cases hr : 4 * i ≤ databuf (c.off_last_profile + i) ∧ databuf (c.off_last_profile + i) ≤ 4 * i + 3
    · simp only [hr, and_self, if_true, storeByte]
    · simp only [hr, if_false, storeByte]

theorem sel_fold_apply (c : Cfg) (databuf : Mem) (mode : Nat) (sel : Mem) (i : Nat) (hi : i < 3) :
    (List.range 3).foldl (sel_body c databuf mode) sel i
      = expected_sel mode (databuf (c.off_last_profile + i)) i := by
  have hr : List.range 3 = [0, 1, 2] := by decide
  rw [hr]
  simp only [List.foldl_cons, List.foldl_nil]
  interval_cases i <;> simp [sel_body_apply]

theorem expected_sel_le (mode p i : Nat) (hi : i < 3) : expected_sel mode p i ≤ MAX_PROFILE := by
  unfold expected_sel MAX_PROFILE
  split_ifs <;> omega

theorem expected_sel_group (mode p i : Nat) (hm : mode ≠ 0) :
    4 * i ≤ expected_sel mode p i ∧ expected_sel mode p i ≤ 4 * i + 3 := by
  unfold expected_sel
  rw [if_pos hm]
  split_ifs <;> omega

theorem read_userdata_initcfg (c : Cfg) (entry : Nat) (stack : Mem) (w : World)
    (he : entry ≤ c.MAX_USERDATA_ENTRY) (hok : w.flash.rc w.flash.ops.length = 0)
    (hP : c.off_last_input ≤ c.PAGESIZE) (htag : tag_at w.flash.mem (c.slot_offset entry))
    (hver : c.version_ok w.flash entry)
    (htype : c.rec_le w.flash entry off_type c.ENUM_SIZE = UDE_INITCFG)
    (hlen : c.rec_le w.flash entry c.off_data_len 2 = c.initcfg_data_len) :
    read_userdata c entry stack w =
      some (0, { live := read_initcfg c (first_page c entry stack w.flash) w.live,
                 flash := after_first_read c entry w.flash }) := by
  have hP' : 16 + c.ENUM_SIZE ≤ c.PAGESIZE := by
    simpa [Cfg.off_last_input, Cfg.sizeof_ude_hdr, Nat.add_comm, Nat.add_left_comm,
      Nat.add_assoc] using hP
  have hcmp : ¬ strncmp (first_page c entry stack w.flash) USRDATA 0 8 ≠ 0 := by
    simpa using (first_page_tag c entry stack w.flash (by omega)).mpr htag
  have hv : ¬ (first_page c entry stack w.flash off_version_major ≠ c.FW_VER_MAJOR
        ∨ first_page c entry stack w.flash off_version_minor ≠ c.FW_VER_MINOR) := by
    rw [first_page_version c entry stack w.flash (by omega)]
    exact not_not.mpr hver
  have ht : loadLE (first_page c entry stack w.flash) off_type c.ENUM_SIZE
      = c.rec_le w.flash entry off_type c.ENUM_SIZE :=
    first_page_loadLE c entry stack w.flash _ _ (by unfold off_type; omega)
  have hd : loadLE (first_page c entry stack w.flash) c.off_data_len 2
      = c.rec_le w.flash entry c.off_data_len 2 :=
    first_page_loadLE c entry stack w.flash _ _ (by unfold Cfg.off_data_len Cfg.sizeof_ude_hdr; omega)
  rw [read_userdata_ok c entry stack w he hok, read_decode, if_neg hcmp, if_neg hv]
  simp only [ht, hd]
  rw [if_pos htype, if_pos hlen]

/-- C7 (profile-index sanitisation): for a valid slot whose first page is read
successfully and holds an init-config record with the tag, the firmware's
version and the expected `data_len`, `read_userdata` returns 0; afterwards
`profile_mode` is 1 if the stored byte is non-zero and 0 otherwise, and for
`i < 3` the `i`-th profile selection is the stored `last_profile[i]` when that
lies in `[4*i, 4*i+3]` (mode set) or `[0, MAX_PROFILE]` (mode clear) and `4*i`
otherwise.  Hence every selection is at most `MAX_PROFILE`, and with the mode
set the `i`-th selection lies in `[4*i, 4*i+3]`. -/
theorem profile_index_sanitised (c : Cfg) (entry : Nat) (stack : Mem) (w : World)
    (he : entry ≤ c.MAX_USERDATA_ENTRY) (hok : w.flash.rc w.flash.ops.length = 0)
    (hP : c.off_last_input ≤ c.PAGESIZE) (htag : tag_at w.flash.mem (c.slot_offset entry))
    (hver : c.version_ok w.flash entry)
    (htype : c.rec_le w.flash entry off_type c.ENUM_SIZE = UDE_INITCFG)
    (hlen : c.rec_le w.flash entry c.off_data_len 2 = c.initcfg_data_len) :
    ∃ w', read_userdata c entry stack w = some (0, w')
      ∧ w'.live.profile_mode = (if c.rec_byte w.flash entry c.off_profile_mode ≠ 0 then 1 else 0)
      ∧ (∀ i < 3, w'.live.profile_sel i
          = expected_sel (c.rec_byte w.flash entry c.off_profile_mode)
              (c.rec_byte w.flash entry (c.off_last_profile + i)) i)
      ∧ (∀ i < 3, w'.live.profile_sel i ≤ MAX_PROFILE)
      ∧ (w'.live.profile_mode = 1 →
          ∀ i < 3, 4 * i ≤ w'.live.profile_sel i ∧ w'.live.profile_sel i ≤ 4 * i + 3) := by
  have hP' : 16 + c.ENUM_SIZE ≤ c.PAGESIZE := by
    simpa [Cfg.off_last_input, Cfg.sizeof_ude_hdr, Nat.add_comm, Nat.add_left_comm,
      Nat.add_assoc] using hP
  have hpm : first_page c entry stack w.flash c.off_profile_mode
      = c.rec_byte w.flash entry c.off_profile_mode :=
    first_page_in c entry stack w.flash _ (by unfold Cfg.off_profile_mode Cfg.sizeof_ude_hdr; omega)
  have hlp : ∀ i < 3, first_page c entry stack w.flash (c.off_last_profile + i)
      = c.rec_byte w.flash entry (c.off_last_profile + i) := fun i hi =>
    first_page_in c entry stack w.flash _ (by unfold Cfg.off_last_profile Cfg.sizeof_ude_hdr; omega)
  have hmode : ∀ (b p i : Nat), expected_sel (if b ≠ 0 then 1 else 0) p i = expected_sel b p i := by
    intro b p i
    unfold expected_sel
    by_cases hb : b = 0 <;> simp [hb]
  have hsel : ∀ i < 3, (read_initcfg c (first_page c entry stack w.flash) w.live).profile_sel i
      = expected_sel (c.rec_byte w.flash entry c.off_profile_mode)
          (c.rec_byte w.flash entry (c.off_last_profile + i)) i := by
    intro i hi
    show (List.range 3).foldl (sel_body c (first_page c entry stack w.flash)
      (if first_page c entry stack w.flash c.off_profile_mode ≠ 0 then 1 else 0)) w.live.profile_sel i = _
    rw [sel_fold_apply c _ _ _ i hi, hpm, hlp i hi, hmode]
  refine ⟨_, read_userdata_initcfg c entry stack w he hok hP htag hver htype hlen, ?_, hsel, ?_, ?_⟩
  · show (if first_page c entry stack w.flash c.off_profile_mode ≠ 0 then 1 else 0) = _
    rw [hpm]
  · intro i hi
    rw [hsel i hi]
    exact expected_sel_le _ _ i hi
  · intro hm i hi
    rw [hsel i hi]
    apply expected_sel_group
    intro h0
    have : (read_initcfg c (first_page c entry stack w.flash) w.live).profile_mode = 0 := by
      show (if first_page c entry stack w.flash c.off_profile_mode ≠ 0 then 1 else 0) = 0
      rw [hpm, h0]
      rfl
    rw [this] at hm
    exact absurd hm (by decide)

/-- Instance of C7: slot 15 holds `last_profile` 1, 9, 10 with the mode set; 9
is outside the group `[4, 7]` of index 1. -/
theorem profile_index_sanitised_witness :
    ∃ w', read_userdata cfgA 15 stack0 ⟨liveB, flashInit⟩ = some (0, w')
      ∧ w'.live.profile_mode = (if cfgA.rec_byte flashInit 15 cfgA.off_profile_mode ≠ 0 then 1 else 0)
      ∧ (∀ i < 3, w'.live.profile_sel i
          = expected_sel (cfgA.rec_byte flashInit 15 cfgA.off_profile_mode)
              (cfgA.rec_byte flashInit 15 (cfgA.off_last_profile + i)) i)
      ∧ (∀ i < 3, w'.live.profile_sel i ≤ MAX_PROFILE)
      ∧ (w'.live.profile_mode = 1 →
          ∀ i < 3, 4 * i ≤ w'.live.profile_sel i ∧ w'.live.profile_sel i ≤ 4 * i + 3) :=
  profile_index_sanitised cfgA 15 stack0 ⟨liveB, flashInit⟩ (by decide) (by decide) (by decide)
    (by decide) (by decide) (by decide) (by decide)

/-! ## The init-config record as written -/

theorem strncpy_tag (dst : Mem) (i : Nat) (hi : i < 8) : strncpy dst USRDATA 8 i = USRDATA i := by
  have hb : strncpyBytes USRDATA 0 8 = [85, 83, 82, 68, 65, 84, 65, 0] := by decide
  unfold strncpy
  rw [memcpy_in _ _ _ _ _ _ (Nat.zero_le i) (by omega), hb]
  simp [USRDATA]

theorem write_header_tag (c : Cfg) (entry : Nat) (stack : Mem) (i : Nat) (hi : i < 8) :
    write_header c entry stack i = USRDATA i := by
  unfold write_header storeLE storeByte off_type off_version_major off_version_minor
  rw [if_neg (by omega), if_neg (by omega), if_neg (by omega)]
  exact strncpy_tag stack i hi

theorem write_header_major (c : Cfg) (entry : Nat) (stack : Mem) :
    write_header c entry stack off_version_major = c.FW_VER_MAJOR % 256 := by
  unfold write_header storeLE storeByte off_type off_version_major off_version_minor
  simp

theorem write_header_minor (c : Cfg) (entry : Nat) (stack : Mem) :
    write_header c entry stack off_version_minor = c.FW_VER_MINOR % 256 := by
  unfold write_header storeLE storeByte off_type off_version_major off_version_minor
  simp

theorem write_header_type (c : Cfg) (entry : Nat) (stack : Mem) :
    loadLE (write_header c entry stack) off_type c.ENUM_SIZE
      = (if entry > MAX_PROFILE then UDE_INITCFG else UDE_PROFILE) % 256 ^ c.ENUM_SIZE := by
  unfold write_header
  exact loadLE_storeLE _ _ _ _

theorem write_initcfg_buf_low (c : Cfg) (l : Live) (databuf : Mem) (i : Nat)
    (hi : i < c.sizeof_ude_hdr) : write_initcfg_buf c l databuf i = databuf i := by
  unfold write_initcfg_buf memcpy storeByte storeLE Cfg.off_keys Cfg.off_last_input
    Cfg.off_profile_mode Cfg.off_last_profile Cfg.off_data_len
  simp only
  rw [if_neg (by omega), if_neg (by omega), if_neg (by omega), if_neg (by omega),
    if_neg (by omega)]

theorem write_initcfg_buf_keys (c : Cfg) (l : Live) (databuf : Mem) (k : Nat)
    (hk : k < c.sizeof_rc_keymap) :
    write_initcfg_buf c l databuf (c.off_keys + k) = l.rc_keymap k := by
  unfold write_initcfg_buf
  rw [memcpy_in _ _ _ _ _ _ (by omega) (by omega)]
  congr 1
  omega

theorem write_initcfg_buf_input (c : Cfg) (l : Live) (databuf : Mem) :
    loadLE (write_initcfg_buf c l databuf) c.off_last_input c.ENUM_SIZE
      = l.cm_avinput % 256 ^ c.ENUM_SIZE := by
  apply loadLE_bytes
  intro k hk
  unfold write_initcfg_buf
  rw [memcpy_out _ _ _ _ _ _ (by unfold Cfg.off_keys Cfg.off_last_input; omega)]
  simp [storeLE, hk]

theorem write_initcfg_buf_mode (c : Cfg) (l : Live) (databuf : Mem) :
    write_initcfg_buf c l databuf c.off_profile_mode = l.profile_mode := by
  unfold write_initcfg_buf
  rw [memcpy_out _ _ _ _ _ _ (by unfold Cfg.off_keys Cfg.off_profile_mode; omega)]
  unfold storeLE
  rw [if_neg (by unfold Cfg.off_last_input Cfg.off_profile_mode; omega)]
  simp [storeByte]

theorem write_initcfg_buf_sel (c : Cfg) (l : Live) (databuf : Mem) (i : Nat) (hi : i < 3) :
    write_initcfg_buf c l databuf (c.off_last_profile + i) = l.profile_sel i := by
  unfold write_initcfg_buf
  rw [memcpy_out _ _ _ _ _ _ (by unfold Cfg.off_keys Cfg.off_last_profile; omega)]
  unfold storeLE
  rw [if_neg (by unfold Cfg.off_last_input Cfg.off_last_profile; omega)]
  unfold storeByte
  rw [if_neg (by unfold Cfg.off_profile_mode Cfg.off_last_profile; omega)]
  rw [memcpy_in _ _ _ _ _ _ (by omega) (by unfold sizeof_profile_sel; omega)]
  congr 1
  omega

theorem write_initcfg_buf_len (c : Cfg) (l : Live) (databuf : Mem) :
    loadLE (write_initcfg_buf c l databuf) c.off_data_len 2 = c.initcfg_data_len % 256 ^ 2 := by
  apply loadLE_bytes
  intro k hk
  unfold write_initcfg_buf
  rw [memcpy_out _ _ _ _ _ _ (by unfold Cfg.off_keys Cfg.off_data_len; omega)]
  unfold storeLE
  rw [if_neg (by unfold Cfg.off_last_input Cfg.off_data_len; omega)]
  unfold storeByte
  rw [if_neg (by unfold Cfg.off_profile_mode Cfg.off_data_len; omega)]
  rw [memcpy_out _ _ _ _ _ _ (by unfold Cfg.off_last_profile Cfg.off_data_len; omega)]
  simp [hk]

theorem page_base_mul (c : Cfg) (entry : Nat) (h1 : c.USERDATA_OFFSET % c.PAGESIZE = 0)
    (h2 : c.SECTORSIZE % c.PAGESIZE = 0) :
    c.page_base entry * c.PAGESIZE = c.slot_offset entry := by
  unfold Cfg.page_base Cfg.slot_offset
  apply Nat.div_mul_cancel
  apply Nat.dvd_of_mod_eq_zero
  rw [Nat.add_mod, Nat.mul_mod, h1, h2]
  simp

theorem write_flash_page_ok (c : Cfg) (pagedata : Mem) (length pagenum : Nat) (fl : Flash)
    (hok : fl.rc fl.ops.length = 0) :
    write_flash_page c pagedata length pagenum fl =
      (0, { mem := memcpy fl.mem (pagenum * c.PAGESIZE) pagedata 0 length,
            ops := fl.ops ++ [FlashOp.write pagenum length], rc := fl.rc }) := by
  simp [write_flash_page, hok]

theorem write_userdata_initcfg (c : Cfg) (entry : Nat) (stack : Mem) (w : World)
    (hlo : MAX_PROFILE < entry) (he : entry ≤ c.MAX_USERDATA_ENTRY)
    (hok : w.flash.rc w.flash.ops.length = 0) :
    write_userdata c entry stack w =
      some (0, { live := w.live,
                 flash := { mem := memcpy w.flash.mem (c.page_base entry * c.PAGESIZE)
                              (write_initcfg_buf c w.live (write_header c entry stack)) 0
                              c.sizeof_ude_initcfg,
                            ops := w.flash.ops ++ [FlashOp.write (c.page_base entry) c.sizeof_ude_initcfg],
                            rc := w.flash.rc } }) := by
  have ht : loadLE (write_header c entry stack) off_type c.ENUM_SIZE = UDE_INITCFG := by
    rw [write_header_type, if_pos hlo]
    simp [UDE_INITCFG]
  unfold write_userdata
  rw [if_neg (by omega)]
  simp only [ht, if_true, write_flash_page_ok c _ _ _ _ hok]
  simp

theorem expected_sel_valid (mode p i : Nat)
    (h : if mode ≠ 0 then 4 * i ≤ p ∧ p ≤ 4 * i + 3 else p ≤ MAX_PROFILE) :
    expected_sel mode p i = p := by
  unfold expected_sel
  by_cases hm : mode ≠ 0
  · rw [if_pos hm] at h ⊢
    rw [if_pos h]
  · rw [if_neg hm] at h ⊢
    rw [if_pos h]

theorem initcfg_read_back (c : Cfg) (entry : Nat) (stack stack2 : Mem) (l live2 : Live)
    (fl1 : Flash) (hc : c.layout_ok) (hlo : MAX_PROFILE < entry)
    (he : entry ≤ c.MAX_USERDATA_ENTRY)
    (hmode : l.profile_mode = 0 ∨ l.profile_mode = 1) (hsel : l.sel_valid)
    (hin : l.cm_avinput < c.AV_LAST) (hok : fl1.rc fl1.ops.length = 0)
    (hmem : ∀ i < c.sizeof_ude_initcfg,
      fl1.mem (c.slot_offset entry + i) = write_initcfg_buf c l (write_header c entry stack) i) :
    read_userdata c entry stack2 ⟨live2, fl1⟩ =
        some (0, { live := read_initcfg c (first_page c entry stack2 fl1) live2,
                   flash := after_first_read c entry fl1 })
      ∧ (∀ i < 3, (read_initcfg c (first_page c entry stack2 fl1) live2).profile_sel i
          = l.profile_sel i)
      ∧ (read_initcfg c (first_page c entry stack2 fl1) live2).profile_mode = l.profile_mode
      ∧ (∀ k < c.sizeof_rc_keymap,
          (read_initcfg c (first_page c entry stack2 fl1) live2).rc_keymap k = l.rc_keymap k)
      ∧ (read_initcfg c (first_page c entry stack2 fl1) live2).target_mode = l.cm_avinput := by
  obtain ⟨hE, hAV, hMa, hMi, hP, hP16, hUO, hSS, hsz⟩ := hc
  have hszE : 16 + 2 * c.ENUM_SIZE + 2 * c.REMOTE_MAX_KEYS ≤ c.PAGESIZE := by
    unfold Cfg.sizeof_ude_initcfg Cfg.off_keys Cfg.sizeof_rc_keymap Cfg.sizeof_ude_hdr at hsz
    omega
  have hsize : c.sizeof_ude_initcfg = 16 + 2 * c.ENUM_SIZE + 2 * c.REMOTE_MAX_KEYS := by
    unfold Cfg.sizeof_ude_initcfg Cfg.off_keys Cfg.sizeof_rc_keymap Cfg.sizeof_ude_hdr
    omega
  -- the page buffer of the load equals the page buffer of the save on the record
  have hfp : ∀ i < c.sizeof_ude_initcfg,
      first_page c entry stack2 fl1 i = write_initcfg_buf c l (write_header c entry stack) i := by
    intro i hi
    rw [first_page_in c entry stack2 fl1 i (by omega), hmem i hi]
  have hlow : ∀ i < c.sizeof_ude_hdr,
      first_page c entry stack2 fl1 i = write_header c entry stack i := by
    intro i hi
    rw [hfp i (by unfold Cfg.sizeof_ude_hdr at hi; omega), write_initcfg_buf_low c l _ i hi]
  have htag : tag_at fl1.mem (c.slot_offset entry) := by
    intro i hi
    rw [hmem i (by omega),
      write_initcfg_buf_low c l _ i (by unfold Cfg.sizeof_ude_hdr; omega),
      write_header_tag c entry stack i hi]
  have hver : c.version_ok fl1 entry := by
    unfold Cfg.version_ok Cfg.rec_byte
    rw [hmem _ (by unfold off_version_major; omega), hmem _ (by unfold off_version_minor; omega),
      write_initcfg_buf_low c l _ _ (by unfold Cfg.sizeof_ude_hdr off_version_major; omega),
      write_initcfg_buf_low c l _ _ (by unfold Cfg.sizeof_ude_hdr off_version_minor; omega),
      write_header_major, write_header_minor, Nat.mod_eq_of_lt hMa, Nat.mod_eq_of_lt hMi]
    exact ⟨rfl, rfl⟩
  have htype : c.rec_le fl1 entry off_type c.ENUM_SIZE = UDE_INITCFG := by
    unfold Cfg.rec_le
    rw [loadLE_shift fl1.mem (write_header c entry stack) c.ENUM_SIZE
      (c.slot_offset entry + off_type) off_type (fun k hk => by
        rw [Nat.add_assoc, hmem _ (by unfold off_type; omega),
          write_initcfg_buf_low c l _ _ (by unfold Cfg.sizeof_ude_hdr off_type; omega)]),
      write_header_type, if_pos hlo]
    simp [UDE_INITCFG]
  have hlen : c.rec_le fl1 entry c.off_data_len 2 = c.initcfg_data_len := by
    unfold Cfg.rec_le
    rw [loadLE_shift fl1.mem (write_initcfg_buf c l (write_header c entry stack)) 2
      (c.slot_offset entry + c.off_data_len) c.off_data_len (fun k hk => by
        rw [Nat.add_assoc, hmem _ (by unfold Cfg.off_data_len Cfg.sizeof_ude_hdr; omega)]),
      write_initcfg_buf_len]
    apply Nat.mod_eq_of_lt
    have h16 : (256 : Nat) ^ 2 = 65536 := by norm_num
    rw [h16, Cfg.initcfg_data_len, hsize]
    unfold Cfg.off_last_profile Cfg.sizeof_ude_hdr
    omega
  have hread := read_userdata_initcfg c entry stack2 ⟨live2, fl1⟩ he hok
    (by unfold Cfg.off_last_input Cfg.sizeof_ude_hdr; omega) htag hver htype hlen
  have hpm : first_page c entry stack2 fl1 c.off_profile_mode = l.profile_mode := by
    rw [hfp _ (by unfold Cfg.off_profile_mode Cfg.sizeof_ude_hdr; omega), write_initcfg_buf_mode]
  have hpm' : (if first_page c entry stack2 fl1 c.off_profile_mode ≠ 0 then 1 else 0)
      = l.profile_mode := by
    rw [hpm]
    rcases hmode with h | h <;> simp [h]
  refine ⟨hread, ?_, hpm', ?_, ?_⟩
  · intro i hi
    show (List.range 3).foldl (sel_body c (first_page c entry stack2 fl1)
      (if first_page c entry stack2 fl1 c.off_profile_mode ≠ 0 then 1 else 0)) live2.profile_sel i = _
    rw [sel_fold_apply c _ _ _ i hi, hpm',
      hfp _ (by unfold Cfg.off_last_profile Cfg.sizeof_ude_hdr; omega),
      write_initcfg_buf_sel c l _ i hi]
    exact expected_sel_valid _ _ _ (hsel i hi)
  · intro k hk
    show memcpy live2.rc_keymap 0 (first_page c entry stack2 fl1) c.off_keys c.sizeof_rc_keymap k = _
    rw [memcpy_in _ _ _ _ _ _ (Nat.zero_le k) (by omega), Nat.sub_zero,
      hfp _ (by unfold Cfg.sizeof_ude_initcfg; omega), write_initcfg_buf_keys c l _ k hk]
  · have hli : loadLE (first_page c entry stack2 fl1) c.off_last_input c.ENUM_SIZE
        = l.cm_avinput := by
      rw [loadLE_congr _ (write_initcfg_buf c l (write_header c entry stack)) c.ENUM_SIZE
        c.off_last_input (fun k hk =>
          hfp _ (by unfold Cfg.off_last_input Cfg.sizeof_ude_hdr; omega)),
        write_initcfg_buf_input]
      exact Nat.mod_eq_of_lt (by omega)
    show (if loadLE (first_page c entry stack2 fl1) c.off_last_input c.ENUM_SIZE < c.AV_LAST
      then loadLE (first_page c entry stack2 fl1) c.off_last_input c.ENUM_SIZE
      else live2.target_mode) = _
    rw [hli, if_pos hin]

/-- C2 (init-config round trip): for an init-config slot, a live state with
`profile_mode` 0 or 1, profile selections valid for that mode and
`cm.avinput < AV_LAST`, and a flash whose operations all succeed,
`write_userdata(e)` returns 0, and `read_userdata(e)` run on the resulting
flash from any other live state returns 0 and yields the three profile
selections, `profile_mode`, every byte and hence every entry of `rc_keymap` as
they were at save time, and `target_mode` equal to the saved `cm.avinput`. -/
theorem initcfg_round_trip (c : Cfg) (entry : Nat) (stack stack2 : Mem) (w : World) (live2 : Live)
    (hc : c.layout_ok) (hlo : MAX_PROFILE < entry) (he : entry ≤ c.MAX_USERDATA_ENTRY)
    (hmode : w.live.profile_mode = 0 ∨ w.live.profile_mode = 1) (hsel : w.live.sel_valid)
    (hin : w.live.cm_avinput < c.AV_LAST) (hok : ∀ k, w.flash.rc k = 0) :
    ∃ w1 w2, write_userdata c entry stack w = some (0, w1)
      ∧ read_userdata c entry stack2 ⟨live2, w1.flash⟩ = some (0, w2)
      ∧ (∀ i < 3, w2.live.profile_sel i = w.live.profile_sel i)
      ∧ w2.live.profile_mode = w.live.profile_mode
      ∧ (∀ k < c.sizeof_rc_keymap, w2.live.rc_keymap k = w.live.rc_keymap k)
      ∧ (∀ k < c.REMOTE_MAX_KEYS, w2.live.rc_key k = w.live.rc_key k)
      ∧ w2.live.target_mode = w.live.cm_avinput := by
  have hbase := page_base_mul c entry hc.2.2.2.2.2.2.1 hc.2.2.2.2.2.2.2.1
  have hmem : ∀ i < c.sizeof_ude_initcfg,
      memcpy w.flash.mem (c.page_base entry * c.PAGESIZE)
          (write_initcfg_buf c w.live (write_header c entry stack)) 0 c.sizeof_ude_initcfg
          (c.slot_offset entry + i)
        = write_initcfg_buf c w.live (write_header c entry stack) i := by
    intro i hi
    rw [hbase, memcpy_in _ _ _ _ _ _ (by omega) (by omega)]
    congr 1
    omega
  obtain ⟨h1, h2, h3, h4, h5⟩ := initcfg_read_back c entry stack stack2 w.live live2
    { mem := memcpy w.flash.mem (c.page_base entry * c.PAGESIZE)
        (write_initcfg_buf c w.live (write_header c entry stack)) 0 c.sizeof_ude_initcfg,
      ops := w.flash.ops ++ [FlashOp.write (c.page_base entry) c.sizeof_ude_initcfg],
      rc := w.flash.rc }
    hc hlo he hmode hsel hin (hok _) hmem
  refine ⟨_, _, write_userdata_initcfg c entry stack w hlo he (hok _), h1, h2, h3, h4, ?_, h5⟩
  intro k hk
  unfold Live.rc_key
  apply loadLE_congr
  intro j hj
  exact h4 _ (by unfold Cfg.sizeof_rc_keymap; omega)

/-- Instance of C2: `liveA` saved to slot 15 and loaded back over `liveB`. -/
theorem initcfg_round_trip_witness :
    ∃ w1 w2, write_userdata cfgA 15 stack0 ⟨liveA, flashA⟩ = some (0, w1)
      ∧ read_userdata cfgA 15 stack0 ⟨liveB, w1.flash⟩ = some (0, w2)
      ∧ (∀ i < 3, w2.live.profile_sel i = liveA.profile_sel i)
      ∧ w2.live.profile_mode = liveA.profile_mode
      ∧ (∀ k < cfgA.sizeof_rc_keymap, w2.live.rc_keymap k = liveA.rc_keymap k)
      ∧ (∀ k < cfgA.REMOTE_MAX_KEYS, w2.live.rc_key k = liveA.rc_key k)
      ∧ w2.live.target_mode = liveA.cm_avinput :=
  initcfg_round_trip cfgA 15 stack0 stack0 ⟨liveA, flashA⟩ liveB (by decide) (by decide)
    (by decide) (by decide) (by decide) (by decide) (fun _ => rfl)

/-! ## The header of a saved record -/

theorem write_flash_page_all_ok (c : Cfg) (pagedata : Mem) (length pagenum : Nat) (fl : Flash)
    (hok : ∀ k, fl.rc k = 0) :
    (write_flash_page c pagedata length pagenum fl).2.mem
        = memcpy fl.mem (pagenum * c.PAGESIZE) pagedata 0 length
      ∧ (write_flash_page c pagedata length pagenum fl).2.rc = fl.rc := by
  simp [write_flash_page, hok]

theorem write_body_flash (c : Cfg) (entry : Nat) (vm : Mem) (s : WriteState)
    (hok : ∀ k, s.flash.rc k = 0) :
    (write_body c entry vm s).flash.mem
        = memcpy s.flash.mem ((c.page_base entry + s.pageno) * c.PAGESIZE)
            (write_body c entry vm s).databuf 0 c.PAGESIZE
      ∧ (write_body c entry vm s).flash.rc = s.flash.rc := by
  unfold write_body
  split
  · exact write_flash_page_all_ok c _ _ _ _ hok
  · exact write_flash_page_all_ok c _ _ _ _ hok

theorem write_body_databuf_low (c : Cfg) (entry : Nat) (vm : Mem) (s : WriteState) (i : Nat)
    (hi : i < s.pageoffset) : (write_body c entry vm s).databuf i = s.databuf i := by
  unfold write_body
  split
  · exact memcpy_out _ _ _ _ _ _ (Or.inl hi)
  · exact memcpy_out _ _ _ _ _ _ (Or.inl hi)

theorem write_inv_step (c : Cfg) (entry : Nat) (vm hdr : Mem) (s : WriteState)
    (hP : c.sizeof_ude_hdr ≤ c.PAGESIZE) (hinv : write_inv c entry hdr s)
    (hpos : s.vm_to_write > 0) : write_inv c entry hdr (write_body c entry vm s) := by
  obtain ⟨hhdr, hrc, hlt, hcase⟩ := hinv
  rcases hcase with h0 | ⟨ho, hk, hbound⟩
  · omega
  obtain ⟨hmem, hrc'⟩ := write_body_flash c entry vm s hrc
  have hmul : (c.page_base entry + s.pageno) * c.PAGESIZE
      = c.page_base entry * c.PAGESIZE + s.pageno * c.PAGESIZE := Nat.add_mul _ _ _
  have hkP : c.PAGESIZE ≤ s.pageno * c.PAGESIZE := Nat.le_mul_of_pos_left _ hk
  refine ⟨?_, ?_, ?_, ?_⟩
  · intro i hi
    rw [hmem, memcpy_out _ _ _ _ _ _ (Or.inl (by omega))]
    exact hhdr i hi
  · intro k
    rw [hrc']
    exact hrc k
  · rcases write_body_shape c entry vm s with ⟨_, h, _, _⟩ | h <;> omega
  · rcases write_body_shape c entry vm s with ⟨h1, _, h3, h4⟩ | h
    · rw [ho, Nat.sub_zero] at h3
      rw [sub16_of_le _ _ hlt h3] at h4
      by_cases hz : s.vm_to_write = c.PAGESIZE
      · left; omega
      · right
        have hk255 : s.pageno < 255 := by
          by_contra hge
          have : 255 * c.PAGESIZE ≤ s.pageno * c.PAGESIZE :=
            Nat.mul_le_mul_right _ (by omega)
          omega
        have hpn : (write_body c entry vm s).pageno = s.pageno + 1 := by
          unfold write_body
          rw [if_pos (by rw [ho, Nat.sub_zero]; exact h3)]
          show (s.pageno + 1) % 256 = s.pageno + 1
          omega
        refine ⟨h1, by omega, ?_⟩
        rw [hpn, h4, Nat.add_mul]
        omega
    · left; exact h

theorem write_inv_loop (c : Cfg) (entry : Nat) (vm hdr : Mem)
    (hP : c.sizeof_ude_hdr ≤ c.PAGESIZE) :
    ∀ (n : Nat) (s s' : WriteState), write_inv c entry hdr s →
      write_loop c entry vm n s = some s' → write_inv c entry hdr s' := by
  intro n
  induction n with
  | zero =>
    intro s s' hinv h
    by_cases hpos : s.vm_to_write > 0
    · simp [write_loop, hpos] at h
    · rw [write_loop_done c entry vm 0 s hpos] at h
      cases h
      exact hinv
  | succ n ih =>
    intro s s' hinv h
    by_cases hpos : s.vm_to_write > 0
    · rw [write_loop_succ c entry vm n s hpos] at h
      exact ih _ _ (write_inv_step c entry vm hdr s hP hinv hpos) h
    · rw [write_loop_done c entry vm (n + 1) s hpos] at h
      cases h
      exact hinv

theorem write_profile_init_low (c : Cfg) (l : Live) (databuf : Mem) (fl : Flash) (i : Nat)
    (h16 : c.off_avc < 65536) (hi : i < c.sizeof_ude_hdr) :
    (write_profile_init c l databuf fl).databuf i = databuf i := by
  unfold write_profile_init
  show memcpy _ _ _ _ _ i = _
  rw [memcpy_out _ _ _ _ _ _ (Or.inl (by
    rw [Nat.mod_eq_of_lt h16]; unfold Cfg.off_avc; omega))]
  unfold storeLE Cfg.off_vm_data_len Cfg.off_avc_data_len
  rw [if_neg (by omega), if_neg (by omega)]

theorem write_first_pass (c : Cfg) (entry : Nat) (stack : Mem) (l : Live) (fl : Flash)
    (hc : c.layout_ok) (hv : c.profile_ok) (hok : ∀ k, fl.rc k = 0) :
    write_inv c entry (write_header c entry stack)
      (write_body c entry l.video_modes
        (write_profile_init c l (write_header c entry stack) fl)) := by
  obtain ⟨hE, hAV, hMa, hMi, hP, hP16, hUO, hSS, hsz⟩ := hc
  obtain ⟨hH, hV0, hV16, hVP⟩ := hv
  have hhdr : c.sizeof_ude_hdr + 4 = c.off_avc := rfl
  have ho : (write_profile_init c l (write_header c entry stack) fl).pageoffset
      = c.off_avc + c.AVCONFIG_SIZE := by
    show add16 (c.off_avc % 65536) c.AVCONFIG_SIZE = _
    unfold add16
    omega
  have hvm : (write_profile_init c l (write_header c entry stack) fl).vm_to_write
      = c.VIDEO_MODES_SIZE := Nat.mod_eq_of_lt hV16
  have hpn : (write_profile_init c l (write_header c entry stack) fl).pageno = 0 := rfl
  obtain ⟨hmem, hrc⟩ := write_body_flash c entry l.video_modes
    (write_profile_init c l (write_header c entry stack) fl) hok
  refine ⟨?_, ?_, ?_, ?_⟩
  · intro i hi
    rw [hmem, hpn, Nat.add_zero, memcpy_in _ _ _ _ _ _ (by omega) (by omega),
      Nat.zero_add, Nat.add_sub_cancel_left,
      write_body_databuf_low _ _ _ _ _ (by rw [ho]; omega),
      write_profile_init_low c l _ fl i (by omega) hi]
  · intro k
    rw [hrc]
    exact hok k
  · rcases write_body_shape c entry l.video_modes
      (write_profile_init c l (write_header c entry stack) fl) with ⟨_, h, _, _⟩ | h <;> omega
  · rcases write_body_shape c entry l.video_modes
      (write_profile_init c l (write_header c entry stack) fl) with ⟨h1, _, h3, h4⟩ | h
    · right
      rw [ho, hvm] at h3
      rw [hvm] at h4
      have hVP' : c.PAGESIZE ≤ c.VIDEO_MODES_SIZE ∧ c.VIDEO_MODES_SIZE ≤ 256 * c.PAGESIZE := by
        rcases hVP with h | h
        · omega
        · exact h
      rw [sub16_of_le _ _ hV16 hVP'.1] at h4
      have hpn1 : (write_body c entry l.video_modes
          (write_profile_init c l (write_header c entry stack) fl)).pageno = 1 := by
        unfold write_body
        rw [if_pos (by rw [ho, hvm]; exact h3)]
        rfl
      refine ⟨h1, by omega, ?_⟩
      rw [hpn1, h4]
      omega
    · left; exact h

theorem write_userdata_header (c : Cfg) (entry : Nat) (stack : Mem) (w : World)
    (hc : c.layout_ok) (hv : c.profile_ok) (he : entry ≤ c.MAX_USERDATA_ENTRY)
    (hok : ∀ k, w.flash.rc k = 0) :
    ∃ w1, write_userdata c entry stack w = some (0, w1)
      ∧ (∀ i < c.sizeof_ude_hdr,
          w1.flash.mem (c.page_base entry * c.PAGESIZE + i) = write_header c entry stack i)
      ∧ (∀ k, w1.flash.rc k = 0) := by
  by_cases hlo : MAX_PROFILE < entry
  · refine ⟨_, write_userdata_initcfg c entry stack w hlo he (hok _), ?_, hok⟩
    intro i hi
    have hsz : c.sizeof_ude_hdr ≤ c.sizeof_ude_initcfg := by
      unfold Cfg.sizeof_ude_initcfg Cfg.off_keys
      omega
    show memcpy _ _ _ _ _ _ = _
    rw [memcpy_in _ _ _ _ _ _ (by omega) (by omega), Nat.zero_add, Nat.add_sub_cancel_left,
      write_initcfg_buf_low c w.live _ i hi]
  · have hE := hc.1
    have hP := hc.2.2.2.2.1
    have hH := hv.1
    have hpow : 1 < 256 ^ c.ENUM_SIZE := Nat.one_lt_pow (by omega) (by omega)
    have ht : loadLE (write_header c entry stack) off_type c.ENUM_SIZE = UDE_PROFILE := by
      rw [write_header_type, if_neg (by omega)]
      exact Nat.mod_eq_of_lt hpow
    have hpos : (write_profile_init c w.live (write_header c entry stack) w.flash).vm_to_write
        > 0 := by
      show c.VIDEO_MODES_SIZE % 65536 > 0
      rw [Nat.mod_eq_of_lt hv.2.2.1]
      exact hv.2.1
    obtain ⟨s', hs'⟩ := write_loop_total c entry w.live.video_modes hP
      (write_profile_init c w.live (write_header c entry stack) w.flash)
    have hs1 : write_loop c entry w.live.video_modes 65536
        (write_body c entry w.live.video_modes
          (write_profile_init c w.live (write_header c entry stack) w.flash)) = some s' := by
      rw [← write_loop_succ c entry w.live.video_modes 65536 _ hpos]
      exact hs'
    have hinv := write_inv_loop c entry w.live.video_modes (write_header c entry stack)
      (by unfold Cfg.off_avc at hH; omega) _ _ _
      (write_first_pass c entry stack w.live w.flash hc hv hok) hs1
    refine ⟨{ w with flash := s'.flash }, ?_, hinv.1, hinv.2.1⟩
    unfold write_userdata
    rw [if_neg (by omega)]
    simp only [ht]
    rw [if_neg (by decide), if_pos trivial, hs']

/-- Saved header under `Cfg.layout_ok` and `Cfg.profile_ok`: for a valid slot
and a flash whose operations all succeed, `write_userdata(entry)` returns 0
and the flash page with index `(USERDATA_OFFSET + entry*SECTORSIZE)/PAGESIZE`
then begins with the tag, `FW_VER_MAJOR`, `FW_VER_MINOR` and the type
`UDE_INITCFG` if `entry > MAX_PROFILE` and `UDE_PROFILE` otherwise; page index
`page_base + n` is byte offset `USERDATA_OFFSET + entry*SECTORSIZE + n*PAGESIZE`;
and `read_userdata(entry)` on the resulting flash, from any live state,
returns a value that is none of -1, 1 and 2.  Without `Cfg.profile_ok` this
fails: at `cfgB` the header is overwritten. -/
theorem saved_header_trusted (c : Cfg) (entry : Nat) (stack : Mem) (w : World)
    (hc : c.layout_ok) (hv : c.profile_ok) (he : entry ≤ c.MAX_USERDATA_ENTRY)
    (hok : ∀ k, w.flash.rc k = 0) :
    ∃ w1, write_userdata c entry stack w = some (0, w1)
      ∧ tag_at w1.flash.mem (c.page_base entry * c.PAGESIZE)
      ∧ w1.flash.mem (c.page_base entry * c.PAGESIZE + off_version_major) = c.FW_VER_MAJOR
      ∧ w1.flash.mem (c.page_base entry * c.PAGESIZE + off_version_minor) = c.FW_VER_MINOR
      ∧ loadLE w1.flash.mem (c.page_base entry * c.PAGESIZE + off_type) c.ENUM_SIZE
          = (if entry > MAX_PROFILE then UDE_INITCFG else UDE_PROFILE)
      ∧ (∀ n, (c.page_base entry + n) * c.PAGESIZE = c.slot_offset entry + n * c.PAGESIZE)
      ∧ (∀ (stack2 : Mem) (live2 : Live), ∃ r w2,
          read_userdata c entry stack2 ⟨live2, w1.flash⟩ = some (r, w2)
            ∧ r ≠ -1 ∧ r ≠ 1 ∧ r ≠ 2) := by
  obtain ⟨w1, hw1, hhdr, hrc⟩ := write_userdata_header c entry stack w hc hv he hok
  obtain ⟨hE, hAV, hMa, hMi, hP, hP16, hUO, hSS, hsz⟩ := hc
  have hH := hv.1
  have hbase := page_base_mul c entry hUO hSS
  have hHP : c.sizeof_ude_hdr + 4 < c.PAGESIZE := by
    unfold Cfg.off_avc at hH
    omega
  have hsE : c.sizeof_ude_hdr = 10 + c.ENUM_SIZE := rfl
  have htag : tag_at w1.flash.mem (c.page_base entry * c.PAGESIZE) := by
    intro i hi
    rw [hhdr i (by omega), write_header_tag c entry stack i hi]
  have hma : w1.flash.mem (c.page_base entry * c.PAGESIZE + off_version_major)
      = c.FW_VER_MAJOR := by
    rw [hhdr _ (by unfold off_version_major; omega), write_header_major,
      Nat.mod_eq_of_lt hMa]
  have hmi : w1.flash.mem (c.page_base entry * c.PAGESIZE + off_version_minor)
      = c.FW_VER_MINOR := by
    rw [hhdr _ (by unfold off_version_minor; omega), write_header_minor,
      Nat.mod_eq_of_lt hMi]
  refine ⟨w1, hw1, htag, hma, hmi, ?_, ?_, ?_⟩
  · rw [loadLE_shift w1.flash.mem (write_header c entry stack) c.ENUM_SIZE
      (c.page_base entry * c.PAGESIZE + off_type) off_type (fun k hk => by
        rw [Nat.add_assoc, hhdr _ (by unfold off_type; omega)]),
      write_header_type]
    apply Nat.mod_eq_of_lt
    have hpow : 1 < 256 ^ c.ENUM_SIZE := Nat.one_lt_pow (by omega) (by omega)
    split_ifs
    · unfold UDE_INITCFG; omega
    · unfold UDE_PROFILE; omega
  · intro n
    rw [Nat.add_mul, hbase]
  · intro stack2 live2
    rw [hbase] at htag hma hmi
    have hver : c.version_ok w1.flash entry := ⟨hma, hmi⟩
    obtain ⟨r, w2, hr⟩ := read_decode_total c entry (first_page c entry stack2 w1.flash)
      (after_first_read c entry w1.flash) live2 hP
    refine ⟨r, w2, ?_, ?_⟩
    · rw [read_userdata_ok c entry stack2 ⟨live2, w1.flash⟩ he (hrc _)]
      exact hr
    · have hz := (first_page_tag c entry stack2 w1.flash (by omega)).mpr htag
      rcases read_decode_codes c entry _ _ _ _ _ hr with ⟨_, h⟩ | ⟨_, _, h⟩ | ⟨h, _⟩
      · exact absurd hz h
      · exact absurd hver ((first_page_version c entry stack2 w1.flash (by omega)).mp h)
      · omega

/-- Instance of `saved_header_trusted`: `liveA` saved to profile slot 3 of
`cfgA`. -/
theorem saved_header_trusted_witness :
    ∃ w1, write_userdata cfgA 3 stack0 ⟨liveA, flashA⟩ = some (0, w1)
      ∧ tag_at w1.flash.mem (cfgA.page_base 3 * cfgA.PAGESIZE)
      ∧ w1.flash.mem (cfgA.page_base 3 * cfgA.PAGESIZE + off_version_major) = cfgA.FW_VER_MAJOR
      ∧ w1.flash.mem (cfgA.page_base 3 * cfgA.PAGESIZE + off_version_minor) = cfgA.FW_VER_MINOR
      ∧ loadLE w1.flash.mem (cfgA.page_base 3 * cfgA.PAGESIZE + off_type) cfgA.ENUM_SIZE
          = (if 3 > MAX_PROFILE then UDE_INITCFG else UDE_PROFILE)
      ∧ (∀ n, (cfgA.page_base 3 + n) * cfgA.PAGESIZE = cfgA.slot_offset 3 + n * cfgA.PAGESIZE)
      ∧ (∀ (stack2 : Mem) (live2 : Live), ∃ r w2,
          read_userdata cfgA 3 stack2 ⟨live2, w1.flash⟩ = some (r, w2)
            ∧ r ≠ -1 ∧ r ≠ 1 ∧ r ≠ 2) :=
  saved_header_trusted cfgA 3 stack0 ⟨liveA, flashA⟩ (by decide) (by decide) (by decide)
    (fun _ => rfl)

/-! ## Behaviour that departs from the claims -/

/-- C1 at a failing input: with `PAGESIZE = 256`, a 58-byte profile header
plus `avconfig_t` and a 454-byte video-mode table (a record of exactly two
pages), saving `liveA` to slot 3 and loading it back over the zeroed `liveB`
both return 0, yet the last video-mode byte comes back as 0 where 203 was
saved; byte 395 is the last one restored. -/
theorem profile_round_trip_drops_tail :
    ∃ w1 w2, write_userdata cfgA 3 stack0 ⟨liveA, flashA⟩ = some (0, w1)
      ∧ read_userdata cfgA 3 stack0 ⟨liveB, w1.flash⟩ = some (0, w2)
      ∧ liveA.video_modes 453 = 203 ∧ w2.live.video_modes 453 = 0
      ∧ liveA.video_modes 396 = 146 ∧ w2.live.video_modes 396 = 0
      ∧ w2.live.video_modes 395 = liveA.video_modes 395 :=
  ⟨_, _, rfl, rfl, rfl, rfl, rfl, rfl, rfl⟩

/-- C9 at failing inputs: saving a profile to slot 3 when the first page write
fails returns 0 and a second page write is issued after the failed one; and
loading slot 3 when the read of the second page fails returns 0, with
`update_cur_vm` set and bytes of the stale page buffer copied into
`video_modes`. -/
theorem flash_failure_ignored :
    (∃ w1, write_userdata cfgA 3 stack0 ⟨liveA, flashFailFirst⟩ = some (0, w1)
        ∧ w1.flash.ops = [FlashOp.write 4864 256, FlashOp.write 4865 256])
      ∧ (∃ w1 w2, write_userdata cfgA 3 stack0 ⟨liveA, flashA⟩ = some (0, w1)
        ∧ read_userdata cfgA 3 stack0
            ⟨liveB, { mem := w1.flash.mem, ops := [], rc := flashFailSecond.rc }⟩ = some (0, w2)
        ∧ w2.flash.ops = [FlashOp.read 1245184 256, FlashOp.read 1245440 256]
        ∧ w2.live.update_cur_vm = 1
        ∧ w2.live.video_modes 198 = 85 ∧ liveA.video_modes 198 = 199) := by
  refine ⟨⟨_, rfl, ?_⟩, ⟨_, _, rfl, rfl, ?_, ?_, ?_, ?_⟩⟩
  · decide
  · decide
  · rfl
  · rfl
  · rfl

/-! ## Record type and slot kind -/

/-- C16 at a failing input: after `liveA` is saved to slot 3 of `cfgA` (H = 58,
a 454-byte table, two page writes), the flash byte at offset `H + 396` of the
slot is 141, the value of `video_modes[140]` left in the page buffer by the
first page, where `video_modes[396]` is 146; the byte at `H + 395` is the last
one that matches. -/
theorem saved_image_tail_stale :
    ∃ w1, write_userdata cfgA 3 stack0 ⟨liveA, flashA⟩ = some (0, w1)
      ∧ cfgA.off_avc + cfgA.AVCONFIG_SIZE = 58
      ∧ w1.flash.ops = [FlashOp.write 4864 256, FlashOp.write 4865 256]
      ∧ w1.flash.mem (cfgA.slot_offset 3 + 58 + 395) = liveA.video_modes 395
      ∧ w1.flash.mem (cfgA.slot_offset 3 + 58 + 396) = 141
      ∧ liveA.video_modes 396 = 146 ∧ liveA.video_modes 140 = 141 := by
  refine ⟨_, rfl, ?_, ?_, ?_, ?_, ?_, ?_⟩
  · decide
  · decide
  · rfl
  · rfl
  · rfl
  · rfl

/-- C19 at a failing input: with `PAGESIZE = 256`, H = 58 and a 200-byte
video-mode table, the first pass of the loop of `write_userdata` copies 198
bytes and takes `vm_to_write` from 200 to 65480, which is 200 - 256 wrapped
modulo 65536; the loop goes on, and its next `memcpy` reads 256 bytes from
offset 198 of the 200-byte `video_modes`.  The loop of `read_userdata`, entered
for the valid profile record of `flashProfileB`, does the same with
`vm_to_read` and writes 256 bytes at offset 198 of `video_modes`. -/
theorem copy_loops_overrun :
    (write_profile_init cfgB liveA (write_header cfgB 3 stack0) flashA).vm_to_write = 200
      ∧ write_copy_ok cfgB (write_profile_init cfgB liveA (write_header cfgB 3 stack0) flashA)
      ∧ (write_body cfgB 3 liveA.video_modes
          (write_profile_init cfgB liveA (write_header cfgB 3 stack0) flashA)).vm_to_write = 65480
      ∧ (write_body cfgB 3 liveA.video_modes
          (write_profile_init cfgB liveA (write_header cfgB 3 stack0) flashA)).srcoffset = 198
      ∧ write_copy_len cfgB (write_body cfgB 3 liveA.video_modes
          (write_profile_init cfgB liveA (write_header cfgB 3 stack0) flashA)) = 256
      ∧ ¬ write_copy_ok cfgB (write_body cfgB 3 liveA.video_modes
          (write_profile_init cfgB liveA (write_header cfgB 3 stack0) flashA))
      ∧ tag_at flashProfileB.mem (cfgB.slot_offset 3) ∧ cfgB.version_ok flashProfileB 3
      ∧ cfgB.rec_le flashProfileB 3 off_type cfgB.ENUM_SIZE = UDE_PROFILE
      ∧ cfgB.rec_le flashProfileB 3 cfgB.off_avc_data_len 2 = cfgB.AVCONFIG_SIZE
      ∧ cfgB.rec_le flashProfileB 3 cfgB.off_vm_data_len 2 = cfgB.VIDEO_MODES_SIZE
      ∧ (read_profile_init cfgB (first_page cfgB 3 stack0 flashProfileB) liveB
          (after_first_read cfgB 3 flashProfileB)).vm_to_read = 200
      ∧ (read_body cfgB 3 (read_profile_init cfgB (first_page cfgB 3 stack0 flashProfileB) liveB
          (after_first_read cfgB 3 flashProfileB))).vm_to_read = 65480
      ∧ (read_body cfgB 3 (read_profile_init cfgB (first_page cfgB 3 stack0 flashProfileB) liveB
          (after_first_read cfgB 3 flashProfileB))).dstoffset = 198
      ∧ ¬ read_copy_ok cfgB (read_body cfgB 3
          (read_profile_init cfgB (first_page cfgB 3 stack0 flashProfileB) liveB
            (after_first_read cfgB 3 flashProfileB))) := by
  refine ⟨?_, ?_, ?_, ?_, ?_, ?_, ?_, ?_, ?_, ?_, ?_, ?_, ?_, ?_, ?_⟩ <;> decide

/-! ## The boot sector -/

theorem generate_boot_sector_16_apply (buf : Mem) (i : Nat) :
    generate_boot_sector_16 buf i =
      if 3 ≤ i ∧ i ≤ 26 then bootsec_beg_bpb_16.getD (i - 3) 0
      else if 36 ≤ i ∧ i ≤ 61 then bootsec_after_bpb_16.getD (i - 36) 0
      else if i = 510 then 0x55
      else if i = 511 then 0xaa
      else buf i := by
  unfold generate_boot_sector_16 storeLE
  by_cases h510 : i = 510
  · subst h510; norm_num
  by_cases h511 : i = 511
  · subst h511; norm_num
  rw [if_neg (by omega)]
  by_cases h2 : 36 ≤ i ∧ i ≤ 61
  · rw [memcpy_in _ _ _ _ _ _ h2.1 (by omega), if_neg (by omega), if_pos h2]
    simp [table]
  rw [memcpy_out _ _ _ _ _ _ (by omega)]
  by_cases h1 : 3 ≤ i ∧ i ≤ 26
  · rw [memcpy_in _ _ _ _ _ _ h1.1 (by omega), if_pos h1]
    simp [table]
  rw [memcpy_out _ _ _ _ _ _ (by omega), if_neg h1, if_neg h2, if_neg h510, if_neg h511]

/-- C14 (boot sector signature and determinism): after
`generate_boot_sector_16` byte 510 is `0x55` and byte 511 is `0xaa`, the
little-endian encoding of `0xaa55`; two buffers that are zero on their first
512 bytes give the same 512 bytes; and applying the function to its own
output changes no byte. -/
theorem boot_sector_signature (buf buf2 : Mem) :
    generate_boot_sector_16 buf 510 = 0x55 ∧ generate_boot_sector_16 buf 511 = 0xaa
      ∧ loadLE (generate_boot_sector_16 buf) 510 2 = 0xaa55
      ∧ ((∀ i < FAT16_SECTOR_SIZE, buf i = 0) → (∀ i < FAT16_SECTOR_SIZE, buf2 i = 0) →
          ∀ i < FAT16_SECTOR_SIZE, generate_boot_sector_16 buf i = generate_boot_sector_16 buf2 i)
      ∧ (∀ i, generate_boot_sector_16 (generate_boot_sector_16 buf) i
          = generate_boot_sector_16 buf i) := by
  have h510 : generate_boot_sector_16 buf 510 = 0x55 := by
    rw [generate_boot_sector_16_apply]; norm_num
  have h511 : generate_boot_sector_16 buf 511 = 0xaa := by
    rw [generate_boot_sector_16_apply]; norm_num
  refine ⟨h510, h511, ?_, ?_, ?_⟩
  · simp only [loadLE, h510, h511]
  · intro hz hz2 i hi
    rw [generate_boot_sector_16_apply, generate_boot_sector_16_apply, hz i hi, hz2 i hi]
  · intro i
    rw [generate_boot_sector_16_apply (generate_boot_sector_16 buf) i]
    split_ifs with h1 h2 h3 h4
    · rw [generate_boot_sector_16_apply, if_pos h1]
    · rw [generate_boot_sector_16_apply, if_neg h1, if_pos h2]
    · rw [generate_boot_sector_16_apply, if_neg h1, if_neg h2, if_pos h3]
    · rw [generate_boot_sector_16_apply, if_neg h1, if_neg h2, if_neg h3, if_pos h4]
    · rfl

/-- Instance of C14: the zeroed buffer and a buffer that is zero on its first
512 bytes and 7 beyond give the same sector. -/
theorem boot_sector_signature_witness :
    generate_boot_sector_16 zero_buf 510 = 0x55 ∧ generate_boot_sector_16 zero_buf 511 = 0xaa
      ∧ loadLE (generate_boot_sector_16 zero_buf) 510 2 = 0xaa55
      ∧ (∀ i < FAT16_SECTOR_SIZE, generate_boot_sector_16 zero_buf i
          = generate_boot_sector_16 (fun k => if k < 512 then 0 else 7) i)
      ∧ (∀ i, generate_boot_sector_16 (generate_boot_sector_16 zero_buf) i
          = generate_boot_sector_16 zero_buf i) :=
  have h := boot_sector_signature zero_buf (fun k => if k < 512 then 0 else 7)
  ⟨h.1, h.2.1, h.2.2.1,
    h.2.2.2.1 (fun _ _ => rfl) (fun _ hi => if_pos hi), h.2.2.2.2⟩

/-- C15 (boot sector layout and frame): `generate_boot_sector_16` sets offsets
3..26 to the 24 bytes of `bootsec_beg_bpb_16`, offsets 36..61 to the 26 bytes
of `bootsec_after_bpb_16` and offsets 510, 511 to `0x55`, `0xaa`; every other
byte keeps its input value.  Hence on a buffer whose first 512 bytes are zero,
offsets 0..2, 27..35 and the 448 bytes at 62..509 are zero. -/
theorem boot_sector_frame (buf : Mem) :
    bootsec_beg_bpb_16.length = 24 ∧ bootsec_after_bpb_16.length = 26
      ∧ (∀ i, 3 ≤ i → i ≤ 26 → generate_boot_sector_16 buf i = bootsec_beg_bpb_16.getD (i - 3) 0)
      ∧ (∀ i, 36 ≤ i → i ≤ 61 →
          generate_boot_sector_16 buf i = bootsec_after_bpb_16.getD (i - 36) 0)
      ∧ (∀ i, i < 3 ∨ (26 < i ∧ i < 36) ∨ (61 < i ∧ i < 510) ∨ 511 < i →
          generate_boot_sector_16 buf i = buf i)
      ∧ ((∀ i < FAT16_SECTOR_SIZE, buf i = 0) →
          (∀ i, i < 3 ∨ (27 ≤ i ∧ i ≤ 35) ∨ (62 ≤ i ∧ i ≤ 509) →
            generate_boot_sector_16 buf i = 0)
          ∧ 509 + 1 - 62 = 448) := by
  refine ⟨rfl, rfl, ?_, ?_, ?_, ?_⟩
  · intro i h1 h2
    rw [generate_boot_sector_16_apply, if_pos ⟨h1, h2⟩]
  · intro i h1 h2
    rw [generate_boot_sector_16_apply, if_neg (by omega), if_pos ⟨h1, h2⟩]
  · intro i h
    rw [generate_boot_sector_16_apply, if_neg (by omega), if_neg (by omega), if_neg (by omega),
      if_neg (by omega)]
  · intro hz
    refine ⟨?_, rfl⟩
    intro i h
    rw [generate_boot_sector_16_apply, if_neg (by omega), if_neg (by omega), if_neg (by omega),
      if_neg (by omega)]
    exact hz i (by unfold FAT16_SECTOR_SIZE; omega)

/-- Instance of C15: the zeroed buffer. -/
theorem boot_sector_frame_witness :
    (∀ i, i < 3 ∨ (27 ≤ i ∧ i ≤ 35) ∨ (62 ≤ i ∧ i ≤ 509) →
        generate_boot_sector_16 zero_buf i = 0)
      ∧ 509 + 1 - 62 = 448 :=
  (boot_sector_frame zero_buf).2.2.2.2.2 (fun _ _ => rfl)

/-! ## The FAT chunks -/

theorem fat_fold_apply (n : Nat) :
    ∀ (st : FatLoop) (s : Nat), st.cur_ofs + n < 65536 →
      ((List.range' s n).foldl fat_body st).cur_ofs = st.cur_ofs + n
        ∧ ∀ i, ((List.range' s n).foldl fat_body st).fat i =
            if st.cur_ofs ≤ i / 2 ∧ i / 2 < st.cur_ofs + n then
              fat_value (s + (i / 2 - st.cur_ofs)) / 256 ^ (i % 2) % 256
            else st.fat i := by
  induction n with
  | zero =>
    intro st s _
    refine ⟨rfl, fun i => ?_⟩
    rw [if_neg (by omega)]
    rfl
  | succ n ih =>
    intro st s h
    have ho : (fat_body st s).cur_ofs = st.cur_ofs + 1 := by
      show (st.cur_ofs + 1) % 65536 = _
      omega
    obtain ⟨h1, h2⟩ := ih (fat_body st s) (s + 1) (by rw [ho]; omega)
    rw [List.range'_succ, List.foldl_cons]
    refine ⟨by rw [h1, ho]; omega, fun i => ?_⟩
    rw [h2 i, ho]
    by_cases hin : st.cur_ofs + 1 ≤ i / 2 ∧ i / 2 < st.cur_ofs + 1 + n
    · rw [if_pos hin, if_pos (by omega)]
      have : s + 1 + (i / 2 - (st.cur_ofs + 1)) = s + (i / 2 - st.cur_ofs) := by omega
      rw [this]
    · rw [if_neg hin]
      show storeLE st.fat (2 * st.cur_ofs) 2 (fat_value s) i = _
      unfold storeLE
      by_cases h0 : i / 2 = st.cur_ofs
      · rw [if_pos (by omega), if_pos (by omega)]
        have e1 : i - 2 * st.cur_ofs = i % 2 := by omega
        have e2 : s + (i / 2 - st.cur_ofs) = s := by omega
        rw [e1, e2]
      · rw [if_neg (by omega), if_neg (by omega)]

theorem fat_entry_of_bytes (m : Mem) (j v : Nat)
    (h0 : m (2 * j) = v / 256 ^ (0 % 2) % 256) (h1 : m (2 * j + 1) = v / 256 ^ (1 % 2) % 256) :
    loadLE m (2 * j) 2 = v % 65536 := by
  simp only [loadLE, h0, h1]
  norm_num
  omega

theorem clusters_to_write_le (written : Nat) : clusters_to_write written ≤ 256 := by
  unfold clusters_to_write sub16 PROF_16_CLUSTER_COUNT FAT16_ENTRIES_PER_SECTOR
  simp only
  split_ifs <;> omega

theorem fat_count_le (written : Nat) :
    end_cluster written - start_cluster written ≤ clusters_to_write written := by
  unfold end_cluster add16
  omega

theorem fat_init_cur_ofs (buf : Mem) (written : Nat) :
    (fat_init buf written).cur_ofs = if written = 0 then 2 else 0 := by
  unfold fat_init
  split_ifs <;> rfl

theorem fat_first (written : Nat) (h : written = 0) :
    start_cluster written = 3 ∧ end_cluster written = 257 ∧ clusters_to_write written = 254 := by
  subst h
  decide

theorem fat_later (written : Nat) (h0 : written ≠ 0) (h : written ≤ PROF_16_CLUSTER_COUNT) :
    start_cluster written = 3 + written
      ∧ clusters_to_write written = min (PROF_16_CLUSTER_COUNT - written) 256
      ∧ end_cluster written = 3 + written + min (PROF_16_CLUSTER_COUNT - written) 256 := by
  unfold PROF_16_CLUSTER_COUNT at h ⊢
  have hs : start_cluster written = 3 + written := by unfold start_cluster; omega
  have hc : clusters_to_write written = min (512 - written) 256 := by
    unfold clusters_to_write sub16 PROF_16_CLUSTER_COUNT FAT16_ENTRIES_PER_SECTOR
    simp only [ne_eq, h0, not_false_eq_true, if_true]
    split_ifs <;> omega
  refine ⟨hs, hc, ?_⟩
  unfold end_cluster add16
  rw [hs, hc]
  omega

theorem generate_fat16_apply (buf : Mem) (written : Nat) :
    (generate_fat16 buf written).cur_ofs
        = (fat_init buf written).cur_ofs + (end_cluster written - start_cluster written)
      ∧ (generate_fat16 buf written).cur_ofs ≤ 256
      ∧ ∀ i, (generate_fat16 buf written).buf i =
          if (fat_init buf written).cur_ofs ≤ i / 2
              ∧ i / 2 < (generate_fat16 buf written).cur_ofs then
            fat_value (start_cluster written + (i / 2 - (fat_init buf written).cur_ofs))
              / 256 ^ (i % 2) % 256
          else (fat_init buf written).fat i := by
  have hle := fat_count_le written
  have hle2 := clusters_to_write_le written
  have hsum : (fat_init buf written).cur_ofs + (end_cluster written - start_cluster written)
      ≤ 256 := by
    rw [fat_init_cur_ofs]
    split_ifs with h0
    · obtain ⟨h1, h2, h3⟩ := fat_first written h0
      omega
    · omega
  obtain ⟨h1, h2⟩ := fat_fold_apply (end_cluster written - start_cluster written)
    (fat_init buf written) (start_cluster written) (by omega)
  have hc : (generate_fat16 buf written).cur_ofs
      = (fat_init buf written).cur_ofs + (end_cluster written - start_cluster written) := h1
  refine ⟨hc, by omega, fun i => ?_⟩
  rw [hc]
  exact h2 i

theorem generate_fat16_ret_first (buf : Mem) :
    (generate_fat16 buf 0).ret = 254 ∧ (generate_fat16 buf 0).cur_ofs = 256 := by
  obtain ⟨h1, h2, h3⟩ := fat_first 0 rfl
  obtain ⟨hc, _, _⟩ := generate_fat16_apply buf 0
  refine ⟨?_, ?_⟩
  · show sub16 (end_cluster 0) 3 = 254
    rw [h2]
    decide
  · rw [hc, h1, h2]
    rfl

theorem generate_fat16_ret_later (buf : Mem) (written : Nat) (h0 : written ≠ 0)
    (h : written ≤ PROF_16_CLUSTER_COUNT) :
    (generate_fat16 buf written).ret = written + min (PROF_16_CLUSTER_COUNT - written) 256
      ∧ (generate_fat16 buf written).cur_ofs = min (PROF_16_CLUSTER_COUNT - written) 256 := by
  obtain ⟨h1, h2, h3⟩ := fat_later written h0 h
  obtain ⟨hc, _, _⟩ := generate_fat16_apply buf written
  unfold PROF_16_CLUSTER_COUNT at h h3 h2 ⊢
  refine ⟨?_, ?_⟩
  · show sub16 (end_cluster written) 3 = _
    rw [h3]
    unfold sub16
    omega
  · rw [hc, h1, h3, fat_init_cur_ofs, if_neg h0]
    omega

theorem fat_init_fat_high (buf : Mem) (written i : Nat)
    (hi : 2 * (fat_init buf written).cur_ofs ≤ i) : (fat_init buf written).fat i = buf i := by
  unfold fat_init at hi ⊢
  split_ifs at hi ⊢ with h0
  · show storeLE buf 0 4 fat16_preamble i = buf i
    unfold storeLE
    rw [if_neg (by simp only at hi; omega)]
  · rfl

/-- C13 (FAT generation makes progress): for `written` at most
`PROF_16_CLUSTER_COUNT`, the value `r` returned by `generate_fat16` satisfies
`written ≤ r ≤ PROF_16_CLUSTER_COUNT`, is `written` plus the number of entries
stored apart from the two preamble entries of the first call, and exceeds
`written` when `written` is below the total; at the total the call stores
nothing and returns the total.  From 0 the returned values are 254, 510, 512
and then 512 again. -/
theorem fat_progress (buf : Mem) (written : Nat) (h : written ≤ PROF_16_CLUSTER_COUNT) :
    written ≤ (generate_fat16 buf written).ret
      ∧ (generate_fat16 buf written).ret ≤ PROF_16_CLUSTER_COUNT
      ∧ (generate_fat16 buf written).ret
          = written + ((generate_fat16 buf written).cur_ofs - (if written = 0 then 2 else 0))
      ∧ (written < PROF_16_CLUSTER_COUNT → written < (generate_fat16 buf written).ret)
      ∧ (written = PROF_16_CLUSTER_COUNT →
          (generate_fat16 buf written).ret = PROF_16_CLUSTER_COUNT
            ∧ (generate_fat16 buf written).cur_ofs = 0
            ∧ ∀ i, (generate_fat16 buf written).buf i = buf i)
      ∧ (generate_fat16 buf 0).ret = 254 ∧ (generate_fat16 buf 254).ret = 510
      ∧ (generate_fat16 buf 510).ret = 512 ∧ (generate_fat16 buf 512).ret = 512 := by
  have hseq : (generate_fat16 buf 0).ret = 254 ∧ (generate_fat16 buf 254).ret = 510
      ∧ (generate_fat16 buf 510).ret = 512 ∧ (generate_fat16 buf 512).ret = 512 := by
    refine ⟨(generate_fat16_ret_first buf).1, ?_, ?_, ?_⟩
    · rw [(generate_fat16_ret_later buf 254 (by decide) (by decide)).1]; decide
    · rw [(generate_fat16_ret_later buf 510 (by decide) (by decide)).1]; decide
    · rw [(generate_fat16_ret_later buf 512 (by decide) (by decide)).1]; decide
  by_cases h0 : written = 0
  · subst h0
    obtain ⟨hr, hc⟩ := generate_fat16_ret_first buf
    rw [hr, hc]
    unfold PROF_16_CLUSTER_COUNT
    refine ⟨by omega, by omega, by simp, fun _ => by omega, fun h => by omega, hseq⟩
  · obtain ⟨hr, hc⟩ := generate_fat16_ret_later buf written h0 h
    rw [hr, hc, if_neg h0]
    unfold PROF_16_CLUSTER_COUNT at h ⊢
    refine ⟨by omega, by omega, by omega, fun _ => by omega, fun hN => ⟨by omega, by omega, ?_⟩,
      hseq⟩
    intro i
    obtain ⟨_, _, hb⟩ := generate_fat16_apply buf written
    rw [hb i, hc, if_neg (by unfold PROF_16_CLUSTER_COUNT; omega)]
    exact fat_init_fat_high buf written i (by rw [fat_init_cur_ofs, if_neg h0]; omega)

/-- Instance of C13: the second call, with `written = 254`, returns 510. -/
theorem fat_progress_witness :
    254 ≤ (generate_fat16 zero_buf 254).ret
      ∧ (generate_fat16 zero_buf 254).ret ≤ PROF_16_CLUSTER_COUNT
      ∧ (generate_fat16 zero_buf 254).ret
          = 254 + ((generate_fat16 zero_buf 254).cur_ofs - (if 254 = 0 then 2 else 0))
      ∧ (254 < PROF_16_CLUSTER_COUNT → 254 < (generate_fat16 zero_buf 254).ret)
      ∧ (254 = PROF_16_CLUSTER_COUNT →
          (generate_fat16 zero_buf 254).ret = PROF_16_CLUSTER_COUNT
            ∧ (generate_fat16 zero_buf 254).cur_ofs = 0
            ∧ ∀ i, (generate_fat16 zero_buf 254).buf i = zero_buf i)
      ∧ (generate_fat16 zero_buf 0).ret = 254 ∧ (generate_fat16 zero_buf 254).ret = 510
      ∧ (generate_fat16 zero_buf 510).ret = 512 ∧ (generate_fat16 zero_buf 512).ret = 512 :=
  fat_progress zero_buf 254 (by decide)

/-- C18 (FAT chunk stays inside its buffer): for every `written`,
`generate_fat16` stores at most `FAT16_ENTRIES_PER_SECTOR` entries, at indices
from 0 on; the first call stores exactly 256, the two preamble entries and 254
cluster entries; every byte behind the last stored entry, in particular every
byte from offset 512 on, keeps its input value. -/
theorem fat_chunk_in_buffer (buf : Mem) (written : Nat) :
    (generate_fat16 buf written).cur_ofs ≤ FAT16_ENTRIES_PER_SECTOR
      ∧ (written = 0 → (generate_fat16 buf written).cur_ofs = FAT16_ENTRIES_PER_SECTOR
          ∧ end_cluster written - start_cluster written = 254)
      ∧ (written ≠ 0 → (generate_fat16 buf written).cur_ofs
            = end_cluster written - start_cluster written
          ∧ end_cluster written - start_cluster written ≤ FAT16_ENTRIES_PER_SECTOR)
      ∧ (∀ i, 2 * (generate_fat16 buf written).cur_ofs ≤ i →
          (generate_fat16 buf written).buf i = buf i)
      ∧ (∀ i, FAT16_SECTOR_SIZE ≤ i → (generate_fat16 buf written).buf i = buf i) := by
  obtain ⟨hc, hle, hb⟩ := generate_fat16_apply buf written
  have hlow : (fat_init buf written).cur_ofs ≤ (generate_fat16 buf written).cur_ofs := by
    rw [hc]; omega
  have hkeep : ∀ i, 2 * (generate_fat16 buf written).cur_ofs ≤ i →
      (generate_fat16 buf written).buf i = buf i := by
    intro i hi
    rw [hb i, if_neg (by omega)]
    exact fat_init_fat_high buf written i (by omega)
  refine ⟨hle, ?_, ?_, hkeep, ?_⟩
  · intro h0
    obtain ⟨h1, h2, _⟩ := fat_first written h0
    rw [hc, fat_init_cur_ofs, if_pos h0, h1, h2]
    exact ⟨rfl, rfl⟩
  · intro h0
    rw [hc, fat_init_cur_ofs, if_neg h0]
    have := fat_count_le written
    have := clusters_to_write_le written
    unfold FAT16_ENTRIES_PER_SECTOR
    omega
  · intro i hi
    unfold FAT16_SECTOR_SIZE at hi
    exact hkeep i (by omega)

/-- Instance of C18: the first call and the call with `written = 510`. -/
theorem fat_chunk_in_buffer_witness :
    ((generate_fat16 zero_buf 0).cur_ofs = FAT16_ENTRIES_PER_SECTOR
        ∧ end_cluster 0 - start_cluster 0 = 254)
      ∧ ((generate_fat16 zero_buf 510).cur_ofs = end_cluster 510 - start_cluster 510
        ∧ end_cluster 510 - start_cluster 510 ≤ FAT16_ENTRIES_PER_SECTOR) :=
  ⟨(fat_chunk_in_buffer zero_buf 0).2.1 rfl, (fat_chunk_in_buffer zero_buf 510).2.2.1 (by decide)⟩

theorem generate_fat16_entry (buf : Mem) (written j : Nat) :
    loadLE (generate_fat16 buf written).buf (2 * j) 2 =
      if (fat_init buf written).cur_ofs ≤ j ∧ j < (generate_fat16 buf written).cur_ofs then
        fat_value (start_cluster written + (j - (fat_init buf written).cur_ofs)) % 65536
      else loadLE (fat_init buf written).fat (2 * j) 2 := by
  obtain ⟨_, _, hb⟩ := generate_fat16_apply buf written
  have e0 : 2 * j / 2 = j := by omega
  have e1 : (2 * j + 1) / 2 = j := by omega
  by_cases hin : (fat_init buf written).cur_ofs ≤ j ∧ j < (generate_fat16 buf written).cur_ofs
  · rw [if_pos hin]
    apply fat_entry_of_bytes
    · rw [hb (2 * j), e0, if_pos hin]
      congr 3
      omega
    · rw [hb (2 * j + 1), e1, if_pos hin]
      congr 3
      omega
  · rw [if_neg hin]
    apply loadLE_congr
    intro k hk
    have e2 : (2 * j + k) / 2 = j := by omega
    rw [hb (2 * j + k), e2, if_neg hin]

theorem fat_run_eq (fuel : Nat) :
    fat_run (fuel + 3) 0 =
      [generate_fat16 zero_buf 0, generate_fat16 zero_buf 254, generate_fat16 zero_buf 510] := by
  have h1 := (generate_fat16_ret_first zero_buf).1
  have h2 : (generate_fat16 zero_buf 254).ret = 510 := by
    rw [(generate_fat16_ret_later zero_buf 254 (by decide) (by decide)).1]; decide
  have h3 : (generate_fat16 zero_buf 510).ret = 512 := by
    rw [(generate_fat16_ret_later zero_buf 510 (by decide) (by decide)).1]; decide
  simp [fat_run, h1, h2, h3, PROF_16_CLUSTER_COUNT]

theorem fat_entry_apply (fuel k : Nat) :
    fat_entry (fat_run (fuel + 3) 0) k =
      if k = 0 then 0xfff8
      else if k = 1 then 0xffff
      else if k ≤ PROF_16_CLUSTER_COUNT then k + 1
      else if k = PROF_16_CLUSTER_COUNT + 1 then 0xffff
      else 0 := by
  rw [fat_run_eq]
  unfold fat_entry FAT16_ENTRIES_PER_SECTOR PROF_16_CLUSTER_COUNT
  have hc0 := (generate_fat16_ret_first zero_buf).2
  have hc1 := (generate_fat16_ret_later zero_buf 254 (by decide) (by decide)).2
  have hc2 := (generate_fat16_ret_later zero_buf 510 (by decide) (by decide)).2
  have hs1 := (fat_later 254 (by decide) (by decide)).1
  have hs2 := (fat_later 510 (by decide) (by decide)).1
  have hs0 := (fat_first 0 rfl).1
  have hi0 : (fat_init zero_buf 0).cur_ofs = 2 := rfl
  have hi1 : (fat_init zero_buf 254).cur_ofs = 0 := rfl
  have hi2 : (fat_init zero_buf 510).cur_ofs = 0 := rfl
  have hlast : last_fat_cluster = 514 := rfl
  unfold PROF_16_CLUSTER_COUNT at hc1 hc2
  by_cases h0 : k / 256 = 0
  · rw [h0]
    simp only [List.get?_cons_zero]
    rw [generate_fat16_entry, hc0, hi0, hs0]
    by_cases hk : 2 ≤ k % 256
    · rw [if_pos (by omega), if_neg (by omega), if_neg (by omega), if_pos (by omega)]
      unfold fat_value
      rw [hlast, if_neg (by omega)]
      omega
    · rw [if_neg (by omega)]
      have hk01 : k = 0 ∨ k = 1 := by omega
      rcases hk01 with h | h <;> subst h <;> decide
  by_cases h1 : k / 256 = 1
  · rw [h1]
    simp only [List.get?_cons_succ, List.get?_cons_zero]
    rw [generate_fat16_entry, hc1, hi1, hs1]
    rw [if_pos (by omega), if_neg (by omega), if_neg (by omega), if_pos (by omega)]
    unfold fat_value
    rw [hlast, if_neg (by omega)]
    omega
  by_cases h2 : k / 256 = 2
  · rw [h2]
    simp only [List.get?_cons_succ, List.get?_cons_zero]
    rw [generate_fat16_entry, hc2, hi2, hs2]
    by_cases hk : k % 256 < 2
    · have hk01 : k = 512 ∨ k = 513 := by omega
      rcases hk01 with h | h <;> subst h <;> decide
    · rw [if_neg (by omega), if_neg (by omega), if_neg (by omega), if_neg (by omega),
        if_neg (by omega)]
      have : (fat_init zero_buf 510).fat = zero_buf := rfl
      rw [this]
      rfl
  · have h3 : ∃ m, k / 256 = m + 3 := ⟨k / 256 - 3, by omega⟩
    obtain ⟨m, hm⟩ := h3
    rw [hm]
    simp only [List.get?_cons_succ, List.get?_nil]
    rw [if_neg (by omega), if_neg (by omega), if_neg (by omega), if_neg (by omega)]

theorem chain_sequential (T : Nat → Nat) (N : Nat) (hN : N + 1 < 0xffff)
    (hT : ∀ k, 2 ≤ k → k ≤ N → T k = k + 1) (hend : T (N + 1) = 0xffff) :
    ∀ (m c fuel : Nat), c + m = N + 1 → 2 ≤ c → m < fuel →
      chain T fuel c = List.range' c (m + 1) := by
  intro m
  induction m with
  | zero =>
    intro c fuel hc _ hf
    obtain ⟨f, rfl⟩ : ∃ f, fuel = f + 1 := ⟨fuel - 1, by omega⟩
    have : c = N + 1 := by omega
    subst this
    simp [chain, hend]
  | succ m ih =>
    intro c fuel hc h2 hf
    obtain ⟨f, rfl⟩ : ∃ f, fuel = f + 1 := ⟨fuel - 1, by omega⟩
    have hTc : T c = c + 1 := hT c h2 (by omega)
    rw [List.range'_succ]
    simp only [chain, hTc]
    rw [if_neg (by omega), ih (c + 1) f (by omega) (by omega) (by omega)]

/-- C12 (FAT continuation): calling `generate_fat16` on fresh zeroed buffers
from `written = 0` with the value returned by the previous call until
`PROF_16_CLUSTER_COUNT` is returned takes three calls, returning 254, 510 and
512; the concatenated chunks, read as 16-bit little-endian entries, have
`T[0] = 0xfff8`, `T[1] = 0xffff`, `T[k] = k + 1` for `2 ≤ k ≤ 512`,
`T[513] = 0xffff` and `T[k] = 0` for every later `k`.  Hence the chain from
cluster 2 visits 2, 3, ..., 513 in order, 512 clusters, ending at the marker,
and only `T[1]` and `T[513]` hold `0xffff`. -/
theorem fat_continuation (fuel : Nat) :
    (fat_run (fuel + 3) 0).map (fun r => r.ret) = [254, 510, PROF_16_CLUSTER_COUNT]
      ∧ fat_entry (fat_run (fuel + 3) 0) 0 = 0xfff8
      ∧ fat_entry (fat_run (fuel + 3) 0) 1 = 0xffff
      ∧ (∀ k, 2 ≤ k → k ≤ PROF_16_CLUSTER_COUNT → fat_entry (fat_run (fuel + 3) 0) k = k + 1)
      ∧ fat_entry (fat_run (fuel + 3) 0) (PROF_16_CLUSTER_COUNT + 1) = 0xffff
      ∧ (∀ k, PROF_16_CLUSTER_COUNT + 1 < k → fat_entry (fat_run (fuel + 3) 0) k = 0)
      ∧ chain (fat_entry (fat_run (fuel + 3) 0)) (PROF_16_CLUSTER_COUNT + 1) 2
          = List.range' 2 PROF_16_CLUSTER_COUNT
      ∧ (chain (fat_entry (fat_run (fuel + 3) 0)) (PROF_16_CLUSTER_COUNT + 1) 2).length
          = PROF_16_CLUSTER_COUNT
      ∧ (∀ k, fat_entry (fat_run (fuel + 3) 0) k = 0xffff → k = 1 ∨ k = PROF_16_CLUSTER_COUNT + 1) := by
  have hT := fat_entry_apply fuel
  have hN : PROF_16_CLUSTER_COUNT = 512 := rfl
  have hchain : chain (fat_entry (fat_run (fuel + 3) 0)) (PROF_16_CLUSTER_COUNT + 1) 2
      = List.range' 2 PROF_16_CLUSTER_COUNT := by
    have := chain_sequential (fat_entry (fat_run (fuel + 3) 0)) 512 (by decide)
      (fun k h2 hk => by rw [hT k, hN, if_neg (by omega), if_neg (by omega), if_pos hk])
      (by rw [hT 513, hN]; decide) 511 2 513 (by decide) (by decide) (by decide)
    rw [hN]
    exact this
  refine ⟨?_, ?_, ?_, ?_, ?_, ?_, hchain, ?_, ?_⟩
  · rw [fat_run_eq]
    have h1 := (generate_fat16_ret_first zero_buf).1
    have h2 := (generate_fat16_ret_later zero_buf 254 (by decide) (by decide)).1
    have h3 := (generate_fat16_ret_later zero_buf 510 (by decide) (by decide)).1
    simp only [List.map_cons, List.map_nil, h1, h2, h3]
    decide
  · rw [hT 0]; rfl
  · rw [hT 1]; rfl
  · intro k h2 hk
    rw [hT k, if_neg (by omega), if_neg (by omega), if_pos hk]
  · rw [hT, hN]; decide
  · intro k hk
    rw [hT k, hN]
    rw [hN] at hk
    rw [if_neg (by omega), if_neg (by omega), if_neg (by omega), if_neg (by omega)]
  · rw [hchain, List.length_range']
  · intro k hk
    rw [hT k, hN] at hk
    rw [hN]
    split_ifs at hk with h0 h1 h2 h3 <;> omega

/-! ## The exported volume -/

/-- C20 (exported volume is self-consistent): the little-endian fields of the
generated boot sector are 512 bytes per sector, 4 sectors per cluster, 128
reserved sectors, 2 FATs, 2048 root entries, 32768 sectors in total and 32
sectors per FAT; `prof_dirent_16` gives starting cluster 2 and file size
`0x00100000`.  The file size is `PROF_16_CLUSTER_COUNT` clusters, the chain
that the generated FAT holds from the starting cluster has that many
clusters, the volume has 8112 data clusters, within `[4085, 65524]`, and the
FAT sectors hold an entry for each of them. -/
theorem volume_consistent (fuel : Nat) :
    loadLE (generate_boot_sector_16 zero_buf) 11 2 = 512
      ∧ generate_boot_sector_16 zero_buf 13 = 4
      ∧ loadLE (generate_boot_sector_16 zero_buf) 14 2 = 128
      ∧ generate_boot_sector_16 zero_buf 16 = 2
      ∧ loadLE (generate_boot_sector_16 zero_buf) 17 2 = 2048
      ∧ loadLE (generate_boot_sector_16 zero_buf) 19 2 = 32768
      ∧ loadLE (generate_boot_sector_16 zero_buf) 22 2 = 32
      ∧ prof_dirent_16.length = 32
      ∧ loadLE (table prof_dirent_16) 26 2 = 2
      ∧ loadLE (table prof_dirent_16) 28 4 = 0x00100000
      ∧ loadLE (table prof_dirent_16) 28 4
          = PROF_16_CLUSTER_COUNT * generate_boot_sector_16 zero_buf 13
              * loadLE (generate_boot_sector_16 zero_buf) 11 2
      ∧ (chain (fat_entry (fat_run (fuel + 3) 0)) (PROF_16_CLUSTER_COUNT + 1)
            (loadLE (table prof_dirent_16) 26 2)).length
          = loadLE (table prof_dirent_16) 28 4
              / (generate_boot_sector_16 zero_buf 13
                  * loadLE (generate_boot_sector_16 zero_buf) 11 2)
      ∧ (loadLE (generate_boot_sector_16 zero_buf) 19 2
            - loadLE (generate_boot_sector_16 zero_buf) 14 2
            - generate_boot_sector_16 zero_buf 16 * loadLE (generate_boot_sector_16 zero_buf) 22 2
            - loadLE (generate_boot_sector_16 zero_buf) 17 2 * 32
                / loadLE (generate_boot_sector_16 zero_buf) 11 2)
          / generate_boot_sector_16 zero_buf 13 = 8112
      ∧ 4085 ≤ 8112 ∧ 8112 ≤ 65524
      ∧ 8112 + 2 ≤ loadLE (generate_boot_sector_16 zero_buf) 22 2 * FAT16_ENTRIES_PER_SECTOR := by
  have hT := fat_entry_apply fuel
  have hN : PROF_16_CLUSTER_COUNT = 512 := rfl
  have h11 : loadLE (generate_boot_sector_16 zero_buf) 11 2 = 512 := by decide
  have h13 : generate_boot_sector_16 zero_buf 13 = 4 := by decide
  have h14 : loadLE (generate_boot_sector_16 zero_buf) 14 2 = 128 := by decide
  have h16 : generate_boot_sector_16 zero_buf 16 = 2 := by decide
  have h17 : loadLE (generate_boot_sector_16 zero_buf) 17 2 = 2048 := by decide
  have h19 : loadLE (generate_boot_sector_16 zero_buf) 19 2 = 32768 := by decide
  have h22 : loadLE (generate_boot_sector_16 zero_buf) 22 2 = 32 := by decide
  have hd26 : loadLE (table prof_dirent_16) 26 2 = 2 := by decide
  have hd28 : loadLE (table prof_dirent_16) 28 4 = 0x00100000 := by decide
  have hchain := chain_sequential (fat_entry (fat_run (fuel + 3) 0)) 512 (by decide)
    (fun k h2 hk => by rw [hT k, hN, if_neg (by omega), if_neg (by omega), if_pos hk])
    (by rw [hT 513, hN]; decide) 511 2 513 (by decide) (by decide) (by decide)
  refine ⟨h11, h13, h14, h16, h17, h19, h22, rfl, hd26, hd28, ?_, ?_, ?_, by decide, by decide, ?_⟩
  · rw [hd28, h13, h11, hN]
  · rw [hd26, hd28, h13, h11, hN, hchain, List.length_range']
  · rw [h19, h14, h16, h22, h17, h11, h13]
  · rw [h22]
    decide

/-! ## Sector confinement -/

theorem xfer_inv_step (c : Cfg) (hp : c.profile_ok) (vm o k vm' o' k' : Nat)
    (hinv : c.xfer_inv vm o k) (hpos : vm > 0)
    (hstep : (c.PAGESIZE - o ≤ vm ∧ vm' = sub16 vm c.PAGESIZE ∧ o' = 0 ∧ k' = (k + 1) % 256)
      ∨ vm' = 0) :
    c.xfer_inv vm' o' k' := by
  obtain ⟨hH, hV0, hV16, hVP⟩ := hp
  obtain ⟨hlt, hcase⟩ := hinv
  rcases hstep with ⟨h1, h2, h3, h4⟩ | h
  · have hk : k' * c.PAGESIZE ≤ (k + 1) * c.PAGESIZE := by
      rw [h4]
      exact Nat.mul_le_mul_right _ (Nat.mod_le _ _)
    rw [Nat.add_mul, Nat.one_mul] at hk
    rcases hcase with h0 | ⟨ho, hb⟩ | ⟨ho, hk0, hv⟩
    · omega
    · have hle : c.PAGESIZE ≤ vm := by omega
      rw [sub16_of_le _ _ hlt hle] at h2
      exact ⟨by omega, Or.inr (Or.inl ⟨h3, by omega⟩)⟩
    · have hle : c.PAGESIZE ≤ vm := by omega
      rw [sub16_of_le _ _ hlt hle] at h2
      rw [hk0, Nat.zero_mul] at hk
      exact ⟨by omega, Or.inr (Or.inl ⟨h3, by omega⟩)⟩
  · exact ⟨by omega, Or.inl h⟩

theorem xfer_inv_page (c : Cfg) (hp : c.profile_ok) (hSS : c.SECTORSIZE % c.PAGESIZE = 0)
    (hrec : c.off_avc + c.AVCONFIG_SIZE + c.VIDEO_MODES_SIZE ≤ c.SECTORSIZE)
    (vm o k : Nat) (hinv : c.xfer_inv vm o k) (hpos : vm > 0) :
    (k + 1) * c.PAGESIZE ≤ c.SECTORSIZE
      ∧ (c.PAGESIZE - o ≤ vm → ((k + 1) % 256 + 1) * c.PAGESIZE ≤ c.SECTORSIZE) := by
  obtain ⟨hH, hV0, hV16, hVP⟩ := hp
  obtain ⟨hlt, hcase⟩ := hinv
  obtain ⟨m, hm⟩ := Nat.dvd_of_mod_eq_zero hSS
  rw [Nat.mul_comm] at hm
  have hoff : 0 < c.off_avc := by unfold Cfg.off_avc; omega
  have hmono : ∀ a, a ≤ m → a * c.PAGESIZE ≤ c.SECTORSIZE := by
    intro a ha
    rw [hm]
    exact Nat.mul_le_mul_right _ ha
  have hlt_of : ∀ a, a * c.PAGESIZE < c.SECTORSIZE → a < m := by
    intro a ha
    rw [hm] at ha
    exact Nat.lt_of_mul_lt_mul_right ha
  have hmod : (k + 1) % 256 ≤ k + 1 := Nat.mod_le _ _
  rcases hcase with h0 | ⟨ho, hb⟩ | ⟨ho, hk0, hv⟩
  · omega
  · have hk : k < m := hlt_of k (by omega)
    refine ⟨hmono _ (by omega), fun hge => ?_⟩
    have hk1 : k + 1 < m := by
      apply hlt_of
      rw [Nat.add_mul, Nat.one_mul]
      omega
    exact hmono _ (by omega)
  · subst hk0
    have h0m : 0 < m := hlt_of 0 (by omega)
    refine ⟨hmono _ (by omega), fun hge => ?_⟩
    have h1m : 1 < m := by
      apply hlt_of
      omega
    exact hmono _ (by omega)

theorem confined_refl (c : Cfg) (entry : Nat) (fl : Flash) : c.confined entry fl fl :=
  ⟨fun _ _ => rfl, rfl, [], by simp, by simp⟩

theorem confined_trans (c : Cfg) (entry : Nat) (fl1 fl2 fl3 : Flash)
    (h12 : c.confined entry fl1 fl2) (h23 : c.confined entry fl2 fl3) :
    c.confined entry fl1 fl3 := by
  obtain ⟨hm1, hr1, n1, ho1, hn1⟩ := h12
  obtain ⟨hm2, hr2, n2, ho2, hn2⟩ := h23
  refine ⟨fun addr h => by rw [hm2 addr h, hm1 addr h], by rw [hr2, hr1], n1 ++ n2, ?_, ?_⟩
  · rw [ho2, ho1, List.append_assoc]
  · intro op hop
    rcases List.mem_append.mp hop with h | h
    · exact hn1 op h
    · exact hn2 op h

theorem write_flash_page_confined (c : Cfg) (entry : Nat) (pagedata : Mem) (length k : Nat)
    (fl : Flash) (hbase : c.page_base entry * c.PAGESIZE = c.slot_offset entry)
    (hlen : length ≤ c.PAGESIZE) (hpage : (k + 1) * c.PAGESIZE ≤ c.SECTORSIZE) :
    c.confined entry fl (write_flash_page c pagedata length (c.page_base entry + k) fl).2 := by
  have hmul : (c.page_base entry + k) * c.PAGESIZE = c.slot_offset entry + k * c.PAGESIZE := by
    rw [Nat.add_mul, hbase]
  rw [Nat.add_mul, Nat.one_mul] at hpage
  refine ⟨?_, rfl, [FlashOp.write (c.page_base entry + k) length], rfl, ?_⟩
  · intro addr hout
    unfold Cfg.in_sector at hout
    simp only [write_flash_page]
    split_ifs
    · rw [hmul]
      exact memcpy_out _ _ _ _ _ _ (by omega)
    · rfl
  · intro op hop
    rw [List.mem_singleton] at hop
    subst hop
    show _ ∧ _
    rw [hmul]
    omega

theorem write_body_step (c : Cfg) (entry : Nat) (vm : Mem) (s : WriteState) :
    ((c.PAGESIZE - s.pageoffset ≤ s.vm_to_write
        ∧ (write_body c entry vm s).vm_to_write = sub16 s.vm_to_write c.PAGESIZE
        ∧ (write_body c entry vm s).pageoffset = 0
        ∧ (write_body c entry vm s).pageno = (s.pageno + 1) % 256)
      ∨ ((write_body c entry vm s).vm_to_write = 0
        ∧ (write_body c entry vm s).pageno = s.pageno))
      ∧ (write_body c entry vm s).flash
          = (write_flash_page c (write_body c entry vm s).databuf c.PAGESIZE
              (c.page_base entry + s.pageno) s.flash).2 := by
  unfold write_body
  split
  · exact ⟨Or.inl ⟨by assumption, rfl, rfl, rfl⟩, rfl⟩
  · exact ⟨Or.inr ⟨rfl, rfl⟩, rfl⟩

theorem write_loop_confined (c : Cfg) (entry : Nat) (vm : Mem) (Inv : WriteState → Prop)
    (hbase : c.page_base entry * c.PAGESIZE = c.slot_offset entry)
    (hstep : ∀ s, Inv s → s.vm_to_write > 0 → Inv (write_body c entry vm s))
    (hpage : ∀ s, Inv s → s.vm_to_write > 0 → (s.pageno + 1) * c.PAGESIZE ≤ c.SECTORSIZE) :
    ∀ (n : Nat) (s s' : WriteState), Inv s → write_loop c entry vm n s = some s' →
      c.confined entry s.flash s'.flash := by
  intro n
  induction n with
  | zero =>
    intro s s' _ h
    by_cases hpos : s.vm_to_write > 0
    · simp [write_loop, hpos] at h
    · rw [write_loop_done c entry vm 0 s hpos] at h
      cases h
      exact confined_refl c entry _
  | succ n ih =>
    intro s s' hinv h
    by_cases hpos : s.vm_to_write > 0
    · rw [write_loop_succ c entry vm n s hpos] at h
      have h1 : c.confined entry s.flash (write_body c entry vm s).flash := by
        rw [(write_body_step c entry vm s).2]
        exact write_flash_page_confined c entry _ _ _ _ hbase (Nat.le_refl _) (hpage s hinv hpos)
      exact confined_trans c entry _ _ _ h1 (ih _ _ (hstep s hinv hpos) h)
    · rw [write_loop_done c entry vm (n + 1) s hpos] at h
      cases h
      exact confined_refl c entry _

theorem page_le_sector (c : Cfg) (hc : c.layout_ok) (hgeo : c.sector_ok) :
    c.PAGESIZE ≤ c.SECTORSIZE := by
  obtain ⟨hE, hAV, hMa, hMi, hP, hP16, hUO, hSS, hsz⟩ := hc
  rcases hgeo with h | ⟨hp, hrec⟩
  · omega
  · obtain ⟨m, hm⟩ := Nat.dvd_of_mod_eq_zero hSS
    obtain ⟨hH, hV0, hV16, hVP⟩ := hp
    rcases Nat.eq_zero_or_pos m with h0 | h0
    · rw [h0, Nat.mul_zero] at hm
      omega
    · rw [hm]
      exact Nat.le_mul_of_pos_right _ h0

theorem write_profile_init_fields (c : Cfg) (l : Live) (databuf : Mem) (fl : Flash)
    (hH : c.off_avc + c.AVCONFIG_SIZE < 65536) (hV : c.VIDEO_MODES_SIZE < 65536) :
    (write_profile_init c l databuf fl).vm_to_write = c.VIDEO_MODES_SIZE
      ∧ (write_profile_init c l databuf fl).pageoffset = c.off_avc + c.AVCONFIG_SIZE
      ∧ (write_profile_init c l databuf fl).pageno = 0
      ∧ (write_profile_init c l databuf fl).flash = fl := by
  refine ⟨Nat.mod_eq_of_lt hV, ?_, rfl, rfl⟩
  show add16 (c.off_avc % 65536) c.AVCONFIG_SIZE = _
  unfold add16
  omega

theorem write_profile_confined (c : Cfg) (entry : Nat) (stack : Mem) (l : Live) (fl : Flash)
    (hc : c.layout_ok) (hgeo : c.sector_ok) (s' : WriteState)
    (h : write_loop c entry l.video_modes xfer_fuel
      (write_profile_init c l (write_header c entry stack) fl) = some s') :
    c.confined entry fl s'.flash := by
  have hc' := hc
  obtain ⟨hE, hAV, hMa, hMi, hP, hP16, hUO, hSS, hsz⟩ := hc
  have hbase := page_base_mul c entry hUO hSS
  rcases hgeo with hgeo | ⟨hp, hrec⟩
  · exact write_loop_confined c entry l.video_modes (fun s => s.pageno < 256) hbase
      (fun s hs _ => by
        rcases (write_body_step c entry l.video_modes s).1 with ⟨_, _, _, h4⟩ | ⟨_, h4⟩
        · show (write_body c entry l.video_modes s).pageno < 256
          rw [h4]
          exact Nat.mod_lt _ (by decide)
        · show (write_body c entry l.video_modes s).pageno < 256
          rw [h4]
          exact hs)
      (fun s hs _ => by
        have hs' : s.pageno < 256 := hs
        have : (s.pageno + 1) * c.PAGESIZE ≤ 256 * c.PAGESIZE :=
          Nat.mul_le_mul_right _ (by omega)
        omega)
      xfer_fuel _ s' (Nat.zero_lt_succ 255) h
  · obtain ⟨f1, f2, f3, f4⟩ := write_profile_init_fields c l (write_header c entry stack) fl
      (by have := hp.1; omega) hp.2.2.1
    have hconf := write_loop_confined c entry l.video_modes
      (fun s => c.xfer_inv s.vm_to_write s.pageoffset s.pageno) hbase
      (fun s hs hpos => by
        apply xfer_inv_step c hp _ _ _ _ _ _ hs hpos
        rcases (write_body_step c entry l.video_modes s).1 with ⟨h1, h2, h3, h4⟩ | ⟨h1, _⟩
        · exact Or.inl ⟨h1, h2, h3, h4⟩
        · exact Or.inr h1)
      (fun s hs hpos => (xfer_inv_page c hp hSS hrec _ _ _ hs hpos).1)
      xfer_fuel _ s' (by
        show c.xfer_inv _ _ _
        rw [f1, f2, f3]
        exact ⟨hp.2.2.1, Or.inr (Or.inr ⟨rfl, rfl, rfl⟩)⟩) h
    rw [f4] at hconf
    exact hconf

theorem write_userdata_confined (c : Cfg) (entry : Nat) (stack : Mem) (w : World)
    (hc : c.layout_ok) (hgeo : c.sector_ok) (he : entry ≤ c.MAX_USERDATA_ENTRY) :
    ∃ r w1, write_userdata c entry stack w = some (r, w1) ∧ w1.live = w.live
      ∧ c.confined entry w.flash w1.flash := by
  have hPS := page_le_sector c hc hgeo
  have hbase := page_base_mul c entry hc.2.2.2.2.2.2.1 hc.2.2.2.2.2.2.2.1
  have hinit : ∀ buf, c.confined entry w.flash
      (write_flash_page c buf c.sizeof_ude_initcfg (c.page_base entry) w.flash).2 := by
    intro buf
    have := write_flash_page_confined c entry buf c.sizeof_ude_initcfg 0 w.flash hbase
      hc.2.2.2.2.2.2.2.2 (by omega)
    rwa [Nat.add_zero] at this
  unfold write_userdata
  rw [if_neg (by omega)]
  simp only
  split_ifs
  · exact ⟨_, _, rfl, rfl, hinit _⟩
  · exact ⟨_, _, rfl, rfl, hinit _⟩
  · obtain ⟨s', hs'⟩ := write_loop_total c entry w.live.video_modes hc.2.2.2.2.1
      (write_profile_init c w.live (write_header c entry stack) w.flash)
    rw [hs']
    exact ⟨_, _, rfl, rfl, write_profile_confined c entry stack w.live w.flash hc hgeo s' hs'⟩
  · exact ⟨_, _, rfl, rfl, confined_refl c entry _⟩

theorem memcpy_src_congr (dst : Mem) (doff : Nat) (src1 src2 : Mem) (soff n : Nat)
    (h : ∀ i < n, src1 (soff + i) = src2 (soff + i)) :
    memcpy dst doff src1 soff n = memcpy dst doff src2 soff n := by
  funext j
  unfold memcpy
  split_ifs with hj
  · exact h (j - doff) (by omega)
  · rfl

theorem read_flash_databuf_congr (offset length : Nat) (dstbuf : Mem) (fl : Flash) (m : Mem)
    (h : ∀ i < length, m (offset + i) = fl.mem (offset + i)) :
    (read_flash offset length dstbuf { fl with mem := m }).2.1
      = (read_flash offset length dstbuf fl).2.1 := by
  unfold read_flash
  simp only
  split_ifs
  · exact memcpy_src_congr _ _ _ _ _ _ h
  · rfl

theorem read_body_with_mem (c : Cfg) (entry : Nat) (s : ReadState) (m : Mem)
    (hagree : ∀ addr, c.in_sector entry addr → m addr = s.flash.mem addr)
    (hpage : c.PAGESIZE - s.pageoffset ≤ s.vm_to_read →
      ((s.pageno + 1) % 256 + 1) * c.PAGESIZE ≤ c.SECTORSIZE) :
    read_body c entry (s.with_mem m) = (read_body c entry s).with_mem m := by
  unfold read_body ReadState.with_mem
  simp only
  split_ifs with hcond
  · have hp := hpage hcond
    rw [Nat.add_mul, Nat.one_mul] at hp
    rw [read_flash_databuf_congr _ _ _ s.flash m (fun i hi => hagree _ (by
      unfold Cfg.in_sector
      omega))]
    rfl
  · rfl

theorem read_body_flash_mem (c : Cfg) (entry : Nat) (s : ReadState) :
    (read_body c entry s).flash.mem = s.flash.mem := by
  unfold read_body
  split <;> rfl

theorem read_body_step (c : Cfg) (entry : Nat) (s : ReadState) :
    (c.PAGESIZE - s.pageoffset ≤ s.vm_to_read
        ∧ (read_body c entry s).vm_to_read = sub16 s.vm_to_read c.PAGESIZE
        ∧ (read_body c entry s).pageoffset = 0
        ∧ (read_body c entry s).pageno = (s.pageno + 1) % 256)
      ∨ (read_body c entry s).vm_to_read = 0 := by
  unfold read_body
  split
  · exact Or.inl ⟨by assumption, rfl, rfl, rfl⟩
  · exact Or.inr rfl

theorem read_loop_with_mem (c : Cfg) (entry : Nat) (m : Mem) (Inv : ReadState → Prop)
    (hstep : ∀ s, Inv s → s.vm_to_read > 0 → Inv (read_body c entry s))
    (hpage : ∀ s, Inv s → s.vm_to_read > 0 → c.PAGESIZE - s.pageoffset ≤ s.vm_to_read →
      ((s.pageno + 1) % 256 + 1) * c.PAGESIZE ≤ c.SECTORSIZE) :
    ∀ (n : Nat) (s : ReadState), Inv s →
      (∀ addr, c.in_sector entry addr → m addr = s.flash.mem addr) →
      read_loop c entry n (s.with_mem m) = (read_loop c entry n s).map (fun x => x.with_mem m) := by
  intro n
  induction n with
  | zero =>
    intro s _ _
    by_cases hpos : s.vm_to_read > 0
    · have hpos' : (s.with_mem m).vm_to_read > 0 := hpos
      simp [read_loop, hpos, hpos']
    · have hpos' : ¬ (s.with_mem m).vm_to_read > 0 := hpos
      rw [read_loop_done c entry 0 s hpos, read_loop_done c entry 0 _ hpos']
      rfl
  | succ n ih =>
    intro s hinv hagree
    by_cases hpos : s.vm_to_read > 0
    · have hpos' : (s.with_mem m).vm_to_read > 0 := hpos
      rw [read_loop_succ c entry n s hpos, read_loop_succ c entry n _ hpos',
        read_body_with_mem c entry s m hagree (hpage s hinv hpos)]
      exact ih _ (hstep s hinv hpos) (by rw [read_body_flash_mem]; exact hagree)
    · have hpos' : ¬ (s.with_mem m).vm_to_read > 0 := hpos
      rw [read_loop_done c entry (n + 1) s hpos, read_loop_done c entry (n + 1) _ hpos']
      rfl

theorem read_profile_with_mem (c : Cfg) (entry : Nat) (databuf : Mem) (l : Live) (fl : Flash)
    (m : Mem) (hc : c.layout_ok) (hgeo : c.sector_ok)
    (hvm : loadLE databuf c.off_vm_data_len 2 = c.VIDEO_MODES_SIZE)
    (hagree : ∀ addr, c.in_sector entry addr → m addr = fl.mem addr) :
    read_loop c entry xfer_fuel (read_profile_init c databuf l { fl with mem := m })
      = (read_loop c entry xfer_fuel (read_profile_init c databuf l fl)).map
          (fun x => x.with_mem m) := by
  obtain ⟨hE, hAV, hMa, hMi, hP, hP16, hUO, hSS, hsz⟩ := hc
  have hinit : read_profile_init c databuf l { fl with mem := m }
      = (read_profile_init c databuf l fl).with_mem m := rfl
  rw [hinit]
  rcases hgeo with hgeo | ⟨hp, hrec⟩
  · exact read_loop_with_mem c entry m (fun _ => True) (fun _ _ _ => trivial)
      (fun s _ _ _ => by
        have hlt : (s.pageno + 1) % 256 < 256 := Nat.mod_lt _ (by decide)
        have : ((s.pageno + 1) % 256 + 1) * c.PAGESIZE ≤ 256 * c.PAGESIZE :=
          Nat.mul_le_mul_right _ (by omega)
        omega)
      xfer_fuel _ trivial hagree
  · have hH := hp.1
    have f2 : (read_profile_init c databuf l fl).pageoffset = c.off_avc + c.AVCONFIG_SIZE := by
      show add16 (c.off_avc % 65536) c.AVCONFIG_SIZE = _
      unfold add16
      omega
    exact read_loop_with_mem c entry m
      (fun s => c.xfer_inv s.vm_to_read s.pageoffset s.pageno)
      (fun s hs hpos => by
        apply xfer_inv_step c hp _ _ _ _ _ _ hs hpos
        rcases read_body_step c entry s with ⟨h1, h2, h3, h4⟩ | h1
        · exact Or.inl ⟨h1, h2, h3, h4⟩
        · exact Or.inr h1)
      (fun s hs hpos => (xfer_inv_page c hp hSS hrec _ _ _ hs hpos).2)
      xfer_fuel _ (by
        show c.xfer_inv (loadLE databuf c.off_vm_data_len 2) _ 0
        rw [hvm, f2]
        exact ⟨hp.2.2.1, Or.inr (Or.inr ⟨rfl, rfl, rfl⟩)⟩) hagree

theorem read_decode_with_mem (c : Cfg) (entry : Nat) (databuf : Mem) (l : Live) (fl : Flash)
    (m : Mem) (hc : c.layout_ok) (hgeo : c.sector_ok)
    (hagree : ∀ addr, c.in_sector entry addr → m addr = fl.mem addr) :
    outcome (read_decode c entry databuf { fl with mem := m } l)
      = outcome (read_decode c entry databuf fl l) := by
  unfold read_decode
  simp only
  split_ifs with h1 h2 h3 h4 h5 h6
  · rfl
  · rfl
  · rfl
  · rfl
  · rw [read_profile_with_mem c entry databuf l fl m hc hgeo h6.2 hagree]
    cases read_loop c entry xfer_fuel (read_profile_init c databuf l fl) with
    | none => rfl
    | some s => rfl
  · rfl
  · rfl

theorem read_userdata_with_mem (c : Cfg) (entry : Nat) (stack : Mem) (l : Live) (fl : Flash)
    (m : Mem) (hc : c.layout_ok) (hgeo : c.sector_ok)
    (hagree : ∀ addr, c.in_sector entry addr → m addr = fl.mem addr) :
    outcome (read_userdata c entry stack ⟨l, { fl with mem := m }⟩)
      = outcome (read_userdata c entry stack ⟨l, fl⟩) := by
  have hPS := page_le_sector c hc hgeo
  have hbuf : (read_flash (c.slot_offset entry) c.PAGESIZE stack { fl with mem := m }).2.1
      = (read_flash (c.slot_offset entry) c.PAGESIZE stack fl).2.1 :=
    read_flash_databuf_congr _ _ _ fl m (fun i hi => hagree _ (by
      unfold Cfg.in_sector
      omega))
  have hrc : (read_flash (c.slot_offset entry) c.PAGESIZE stack { fl with mem := m }).1
      = (read_flash (c.slot_offset entry) c.PAGESIZE stack fl).1 := rfl
  have hfl : (read_flash (c.slot_offset entry) c.PAGESIZE stack { fl with mem := m }).2.2
      = { (read_flash (c.slot_offset entry) c.PAGESIZE stack fl).2.2 with mem := m } := rfl
  unfold read_userdata
  simp only
  rw [hrc, hbuf, hfl]
  by_cases h1 : entry > c.MAX_USERDATA_ENTRY
  · rw [if_pos h1, if_pos h1]
    rfl
  · rw [if_neg h1, if_neg h1]
    by_cases h2 : (read_flash (c.slot_offset entry) c.PAGESIZE stack fl).1 ≠ 0
    · rw [if_pos h2, if_pos h2]
      rfl
    · rw [if_neg h2, if_neg h2]
      exact read_decode_with_mem c entry
        (read_flash (c.slot_offset entry) c.PAGESIZE stack fl).2.1 l
        (read_flash (c.slot_offset entry) c.PAGESIZE stack fl).2.2 m hc hgeo hagree

theorem sectors_disjoint (c : Cfg) (a b addr : Nat) (hab : b ≠ a) (hb : c.in_sector b addr) :
    ¬ c.in_sector a addr := by
  unfold Cfg.in_sector Cfg.slot_offset at *
  intro ha
  rcases Nat.lt_or_gt_of_ne hab with h | h
  · have : (b + 1) * c.SECTORSIZE ≤ a * c.SECTORSIZE := Nat.mul_le_mul_right _ h
    rw [Nat.add_mul, Nat.one_mul] at this
    omega
  · have : (a + 1) * c.SECTORSIZE ≤ b * c.SECTORSIZE := Nat.mul_le_mul_right _ h
    rw [Nat.add_mul, Nat.one_mul] at this
    omega

/-- Confinement under `Cfg.layout_ok` and `Cfg.sector_ok`: for a valid slot
`a`, `write_userdata(a)` returns, leaves the live configuration as it was, logs
only page writes whose bytes lie in
`[USERDATA_OFFSET + a*SECTORSIZE, USERDATA_OFFSET + (a+1)*SECTORSIZE)`, and
changes no flash byte outside that range.  Hence every byte of every other
slot `b` is unchanged, and `read_userdata(b)` gives the same return value and
the same live configuration on the flash before and after the save, whatever
the live state, the operation log and the driver's return codes are.  Without
`Cfg.sector_ok` this fails: at `cfgD` the writes leave the sector. -/
theorem save_confined_to_slot (c : Cfg) (a : Nat) (stack : Mem) (w : World)
    (hc : c.layout_ok) (hgeo : c.sector_ok) (ha : a ≤ c.MAX_USERDATA_ENTRY) :
    ∃ r w1, write_userdata c a stack w = some (r, w1) ∧ w1.live = w.live
      ∧ c.confined a w.flash w1.flash
      ∧ (∀ b, b ≠ a → ∀ addr, c.in_sector b addr → w1.flash.mem addr = w.flash.mem addr)
      ∧ (∀ b, b ≠ a → ∀ (stack2 : Mem) (live2 : Live) (ops : List FlashOp) (rc : Nat → Int),
          outcome (read_userdata c b stack2 ⟨live2, { mem := w1.flash.mem, ops := ops, rc := rc }⟩)
            = outcome (read_userdata c b stack2
                ⟨live2, { mem := w.flash.mem, ops := ops, rc := rc }⟩)) := by
  obtain ⟨r, w1, hw, hl, hconf⟩ := write_userdata_confined c a stack w hc hgeo ha
  have hother : ∀ b, b ≠ a → ∀ addr, c.in_sector b addr →
      w1.flash.mem addr = w.flash.mem addr :=
    fun b hab addr hb => hconf.1 addr (sectors_disjoint c a b addr hab hb)
  refine ⟨r, w1, hw, hl, hconf, hother, ?_⟩
  intro b hab stack2 live2 ops rc
  exact read_userdata_with_mem c b stack2 live2 { mem := w.flash.mem, ops := ops, rc := rc }
    w1.flash.mem hc hgeo (hother b hab)

/-- Instance of `save_confined_to_slot`: `liveA` saved to slot 3 of `cfgC`,
whose sectors are two pages long. -/
theorem save_confined_to_slot_witness :
    ∃ r w1, write_userdata cfgC 3 stack0 ⟨liveA, flashA⟩ = some (r, w1) ∧ w1.live = liveA
      ∧ cfgC.confined 3 flashA w1.flash
      ∧ (∀ b, b ≠ 3 → ∀ addr, cfgC.in_sector b addr → w1.flash.mem addr = flashA.mem addr)
      ∧ (∀ b, b ≠ 3 → ∀ (stack2 : Mem) (live2 : Live) (ops : List FlashOp) (rc : Nat → Int),
          outcome (read_userdata cfgC b stack2
              ⟨live2, { mem := w1.flash.mem, ops := ops, rc := rc }⟩)
            = outcome (read_userdata cfgC b stack2
                ⟨live2, { mem := flashA.mem, ops := ops, rc := rc }⟩)) :=
  save_confined_to_slot cfgC 3 stack0 ⟨liveA, flashA⟩ (by decide) (by decide) (by decide)

/-! ## Saves that leave their slot or lose their header -/

set_option maxRecDepth 1000000 in
/-- C10 at a failing input: with `PAGESIZE = 256`, H = 58 and a 200-byte
video-mode table (`cfgB`, which satisfies `Cfg.layout_ok`), saving `liveA` to
the valid slot 3 on a flash whose writes all succeed returns 0 after 257 page
writes, the last of them to the first page of the slot again; the slot then
begins with 219 where the tag begins with 85, and `read_userdata(3)` on the
resulting flash returns 1. -/
theorem saved_header_overwritten :
    cfgB.layout_ok ∧ 3 ≤ cfgB.MAX_USERDATA_ENTRY
      ∧ cfgB.off_avc + cfgB.AVCONFIG_SIZE = 58 ∧ cfgB.VIDEO_MODES_SIZE = 200
      ∧ ∃ w1 w2, write_userdata cfgB 3 stack0 ⟨liveA, flashA⟩ = some (0, w1)
        ∧ w1.flash.ops.length = 257
        ∧ w1.flash.ops.get? 0 = some (FlashOp.write (cfgB.page_base 3) 256)
        ∧ w1.flash.ops.get? 256 = some (FlashOp.write (cfgB.page_base 3) 256)
        ∧ USRDATA 0 = 85 ∧ w1.flash.mem (cfgB.page_base 3 * cfgB.PAGESIZE) = 219
        ∧ ¬ tag_at w1.flash.mem (cfgB.page_base 3 * cfgB.PAGESIZE)
        ∧ read_userdata cfgB 3 stack0 ⟨liveB, w1.flash⟩ = some (1, w2) := by
  refine ⟨by decide, by decide, by decide, by decide, _, _, rfl, ?_, ?_, ?_, ?_, ?_, ?_, rfl⟩
  · decide
  · decide
  · decide
  · decide
  · decide
  · decide

set_option maxRecDepth 1000000 in
/-- C17 at a failing input: with `PAGESIZE = 256`, `SECTORSIZE = 512`, H = 58
and a 200-byte video-mode table (`cfgD`, which satisfies `Cfg.layout_ok`), a
profile record is 258 bytes, less than a sector.  Saving `liveA` to slot 3
returns 0 after 257 page writes; the third goes to page 4104, the first page of
slot 4.  The first byte of slot 4 changes from 85 to 204, and
`read_userdata(4)`, which returned 0 before the save, returns 1 after it. -/
theorem save_escapes_sector :
    cfgD.layout_ok ∧ 3 ≤ cfgD.MAX_USERDATA_ENTRY ∧ 4 ≤ cfgD.MAX_USERDATA_ENTRY
      ∧ cfgD.off_avc + cfgD.AVCONFIG_SIZE + cfgD.VIDEO_MODES_SIZE = 258
      ∧ 258 ≤ cfgD.SECTORSIZE ∧ cfgD.sizeof_ude_initcfg ≤ cfgD.SECTORSIZE
      ∧ cfgD.slot_offset 3 = 1050112 ∧ cfgD.slot_offset 4 = 1050624
      ∧ 4104 * cfgD.PAGESIZE = cfgD.slot_offset 4
      ∧ ∃ w1, write_userdata cfgD 3 stack0 ⟨liveA, flashD⟩ = some (0, w1)
        ∧ w1.flash.ops.length = 257
        ∧ w1.flash.ops.get? 2 = some (FlashOp.write 4104 256)
        ∧ flashD.mem (cfgD.slot_offset 4) = 85 ∧ w1.flash.mem (cfgD.slot_offset 4) = 204
        ∧ (read_userdata cfgD 4 stack0 ⟨liveB, flashD⟩).map Prod.fst = some 0
        ∧ (read_userdata cfgD 4 stack0
            ⟨liveB, { mem := w1.flash.mem, ops := flashD.ops, rc := flashD.rc }⟩).map Prod.fst
            = some 1 := by
  refine ⟨by decide, by decide, by decide, by decide, by decide, by decide, by decide, by decide,
    by decide, _, rfl, ?_, ?_, ?_, ?_, ?_, ?_⟩
  · decide
  · decide
  · decide
  · decide
  · decide
  · decide

end Ossc
